import Mathlib

/-!
# hasht: an open-addressing hash table with linear probing

A shallow embedding of `src/hasht.h`.

* `long` values are unbounded `Int` (signed overflow is undefined in C, so the
  embedding describes the executions in which no `long` overflows); C division
  of `long` is `Int.tdiv`.
* `size_t` and `unsigned int` values are `Nat`, reduced modulo `2 ^ 64` and
  `2 ^ 32` where the C code converts.
* The bucket array `tab` is a `List`; the null pointer is the empty list.
  Reading a bucket outside the array (undefined in C) yields the zero bucket,
  writing outside the array changes nothing.
* Loops that C runs until a condition holds take a `fuel` argument and return
  `none` when the fuel is used up, so `none` stands for a run that does not end.
* `div_32_funcs.h` is not part of the sources: its table `adiv_values` is a
  field of `Env`, together with the user supplied `hasht_hash` and
  `hasht_key_eq_cmp`.
-/

/-! ## Constants -/

abbrev HASHT_MIN_TABLESIZE : Int := 4

abbrev HASHT_VLT_IS_NOT_EMPTY : Nat := 1 <<< 1
abbrev HASHT_VLT_IS_DELETED : Nat := 1 <<< 2
abbrev HASHT_VLT_IS_CORRUPT : Nat := 1 <<< 3

abbrev HASHT_OK : Int := 0
abbrev HASHT_ALLOC_ERR : Int := 1
abbrev HASHT_INVALID_REQ_SZ : Int := 2
abbrev HASHT_FAILED_AT_RESIZE : Int := 3
abbrev HASHT_NOT_FOUND : Int := -1
abbrev HASHT_DUPLICATE_KEY : Int := -2
abbrev HASHT_RESIZE_REFUSE : Int := -3
abbrev HASHT_ITER_STOP : Int := -4
abbrev HASHT_ITER_FIRST : Int := -5
abbrev HASHT_INVALID_TABLE_STATE : Int := -6

abbrev HASHT_HINT_NONE : Int := 0
abbrev HASHT_HINT_INSERTING : Int := 1
abbrev HASHT_HINT_DELETING : Int := 2

/-! ## The environment: what the header expects to be defined before it -/

/-- The definitions `hasht.h` takes from outside: the capacity table of
`div_32_funcs.h` and the user's hash and key comparison (`0` means equal). -/
structure Env (K : Type) where
  adiv_values : List Nat
  hasht_hash : K → Nat
  hasht_key_eq_cmp : K → K → Int
  sizeof_pair : Nat

/-- Modelled from the spec: `adiv_funcs` of `div_32_funcs.h`, the division
routine paired with size class `i`; it maps a hash into `[0, adiv_values[i])`
as `hash % adiv_values[i]` (the debug check of `hasht_change_sz_field` states
the same). -/
def adiv_funcs {K : Type} (env : Env K) (i : Nat) : Nat → Nat :=
  fun h => h % env.adiv_values.getD i 0

def adiv_n_values {K : Type} (env : Env K) : Nat := env.adiv_values.length

def hasht_get_adiv_power_idx_loop (at_least : Nat) : Nat → List Nat → Int
  | _, [] => -1
  | i, v :: rest =>
    if v ≥ at_least then (i : Int) else hasht_get_adiv_power_idx_loop at_least (i + 1) rest

/-- The `for` loop starts at index 2; the `long` argument is converted to `size_t`. -/
def hasht_get_adiv_power_idx {K : Type} (env : Env K) (at_least : Int) : Int :=
  hasht_get_adiv_power_idx_loop (at_least % 2 ^ 64).toNat 2 (env.adiv_values.drop 2)

/-! ## Buckets -/

structure hasht_pair_type (K V : Type) where
  pair_data : Nat
  key : K
  value : V

instance {K V : Type} [Inhabited K] [Inhabited V] : Inhabited (hasht_pair_type K V) :=
  ⟨⟨0, default, default⟩⟩

def hasht_pr_flags {K V : Type} (prt : hasht_pair_type K V) : Nat :=
  prt.pair_data &&& 0xFF

def hasht_pr_get_partial_hash {K V : Type} (prt : hasht_pair_type K V) : Nat :=
  prt.pair_data &&& 0xFFFFFF00

def hasht_hash_to_partial_hash (full_hash : Nat) : Nat :=
  ((full_hash &&& 0x00FFFFFF) <<< 8) % 2 ^ 32

def hasht_pr_combine_flags_and_partial_hash (flags : Nat) (partial_hash : Nat) : Nat :=
  partial_hash ||| flags

/-- The `flags` parameter is an `unsigned char`: the argument is cut to 8 bits. -/
def hasht_pr_set_flags {K V : Type} (prt : hasht_pair_type K V) (flags : Nat) :
    hasht_pair_type K V :=
  { prt with
    pair_data :=
      hasht_pr_combine_flags_and_partial_hash (flags % 256) (hasht_pr_get_partial_hash prt) }

def hasht_pr_is_empty {K V : Type} (prt : hasht_pair_type K V) : Bool :=
  (hasht_pr_flags prt &&& HASHT_VLT_IS_NOT_EMPTY) == 0

def hasht_pr_is_corrupt {K V : Type} (prt : hasht_pair_type K V) : Bool :=
  let deleted_and_empty_mask := HASHT_VLT_IS_DELETED ||| HASHT_VLT_IS_NOT_EMPTY
  let deleted_and_empty := HASHT_VLT_IS_DELETED ||| 0
  (hasht_pr_flags prt &&& HASHT_VLT_IS_CORRUPT) != 0 ||
    (hasht_pr_flags prt &&& deleted_and_empty_mask) == deleted_and_empty

def hasht_pr_is_deleted {K V : Type} (prt : hasht_pair_type K V) : Bool :=
  (hasht_pr_flags prt &&& HASHT_VLT_IS_DELETED) != 0

def hasht_pr_is_occupied {K V : Type} (prt : hasht_pair_type K V) : Bool :=
  !hasht_pr_is_empty prt && !hasht_pr_is_deleted prt

/-! ## The table -/

/-- Only `alloc` has an effect the embedding can see: whether a request of
`sz` bytes yields memory (`true`) or the null pointer (`false`). -/
structure hasht_alloc_funcs where
  alloc : Nat → Bool

structure hasht (K V : Type) where
  tab : List (hasht_pair_type K V)
  div_func : Nat → Nat
  nelements : Int
  ndeleted : Int
  nbuckets : Int
  nbuckets_po2 : Int
  grow_at_gt_n : Int
  shrink_at_lt_n : Int
  grow_at_percentage : Int
  shrink_at_percentage : Int
  memfuncs : hasht_alloc_funcs
  userdata : Nat

/-- The bucket `ht->tab + idx`. -/
def hasht_tab_at {K V : Type} [Inhabited K] [Inhabited V] (ht : hasht K V) (idx : Int) :
    hasht_pair_type K V :=
  if idx < 0 then default else ht.tab.getD idx.toNat default

def hasht_init_parameters {K V : Type} (ht : hasht K V) (shrink_at grow_at : Int) :
    Int × hasht K V :=
  let stupid_value := decide (shrink_at > 99) || decide (shrink_at < 0) ||
    decide (grow_at > 99) || decide (grow_at < 0)
  if stupid_value || decide (shrink_at * 2 ≥ grow_at) then
    (HASHT_INVALID_REQ_SZ, ht)
  else
    (HASHT_OK, { ht with grow_at_percentage := grow_at, shrink_at_percentage := shrink_at })

def hasht_set_parameters {K V : Type} (ht : hasht K V) (shrink_at grow_at : Int) :
    Int × hasht K V :=
  let (rv, ht) := hasht_init_parameters ht shrink_at grow_at
  if rv ≠ HASHT_OK then
    (rv, ht)
  else
    let ht := { ht with grow_at_gt_n := (ht.nbuckets * ht.grow_at_percentage).tdiv 100 }
    let ht := { ht with shrink_at_lt_n := (ht.nbuckets * ht.shrink_at_percentage).tdiv 100 }
    (rv, ht)

def hasht_calc_nelements_to_nbuckets (needed_nelements shrink_at_percentage
    grow_at_percentage : Int) : Int :=
  let r1i := (shrink_at_percentage + grow_at_percentage).tdiv 2
  let r1i := if r1i ≤ 0 then 1 else r1i
  let needed_nbuckets_opt_big := (needed_nelements * 100).tdiv r1i
  let r1i := grow_at_percentage - (grow_at_percentage - shrink_at_percentage).tdiv 3
  let needed_nbuckets_opt_small :=
    if r1i > 0 then (needed_nelements * 100).tdiv r1i else needed_nbuckets_opt_big
  let needed_nbuckets := needed_nbuckets_opt_big
  if needed_nbuckets > HASHT_MIN_TABLESIZE then
    let ratio_test_small := (needed_nelements * 100).tdiv needed_nbuckets_opt_small
    if ratio_test_small > shrink_at_percentage then needed_nbuckets_opt_small
    else needed_nbuckets
  else
    HASHT_MIN_TABLESIZE

def hasht_change_sz_field {K V : Type} (env : Env K) (ht : hasht K V) (nbuckets : Int)
    (_force : Bool) : Int × hasht K V :=
  let nbuckets := if nbuckets < HASHT_MIN_TABLESIZE then HASHT_MIN_TABLESIZE else nbuckets
  let nbuckets_po2 := hasht_get_adiv_power_idx env nbuckets
  if nbuckets_po2 < 0 then
    (HASHT_INVALID_REQ_SZ, ht)
  else
    let nbuckets_prime : Int := env.adiv_values.getD nbuckets_po2.toNat 0
    let ht := { ht with nbuckets := nbuckets_prime, nbuckets_po2 := nbuckets_po2 }
    let ht := { ht with div_func := adiv_funcs env ht.nbuckets_po2.toNat }
    let ht := (hasht_set_parameters ht ht.shrink_at_percentage ht.grow_at_percentage).2
    (HASHT_OK, ht)

/-- The null function pointer is the constant-zero function. -/
def hasht_zero_sz_field {K V : Type} (ht : hasht K V) : hasht K V :=
  { ht with nbuckets := 0, nbuckets_po2 := 0, div_func := fun _ => 0 }

/-- Zeroes the buckets `begin_inc ≤ i < end_exc`. -/
def hasht_memset {K V : Type} [Inhabited K] [Inhabited V] (ht : hasht K V)
    (begin_inc end_exc : Int) : hasht K V :=
  { ht with
    tab := ht.tab.take begin_inc.toNat ++
      List.replicate (end_exc - begin_inc).toNat default ++ ht.tab.drop end_exc.toNat }

/-- The struct `ht` points to may hold anything on entry. The fresh array has
`ht->nbuckets` buckets of unknown content, all of which `hasht_memset` zeroes. -/
def hasht_init_ex {K V : Type} [Inhabited K] [Inhabited V] (env : Env K) (ht : hasht K V)
    (initial_nelements : Int) (alloc : Nat → Bool) (userdata : Nat)
    (shrink_at_percentage grow_at_percentage : Int) : Int × hasht K V :=
  let ht := { ht with memfuncs := ⟨alloc⟩, nelements := 0, ndeleted := 0, nbuckets_po2 := 0,
                      userdata := userdata }
  let (rv, ht) := hasht_init_parameters ht shrink_at_percentage grow_at_percentage
  if rv ≠ HASHT_OK then
    (rv, ht)
  else
    let initial_nbuckets := hasht_calc_nelements_to_nbuckets initial_nelements
      ht.shrink_at_percentage ht.grow_at_percentage
    let (rv, ht) := hasht_change_sz_field env ht initial_nbuckets false
    if rv ≠ HASHT_OK then
      (rv, ht)
    else if ht.memfuncs.alloc (env.sizeof_pair * ht.nbuckets.toNat) then
      let ht := { ht with tab := List.replicate ht.nbuckets.toNat default }
      (HASHT_OK, hasht_memset ht 0 ht.nbuckets)
    else
      (HASHT_ALLOC_ERR, { ht with tab := [] })

def hasht_init_copy_settings {K V : Type} [Inhabited K] [Inhabited V] (env : Env K)
    (ht : hasht K V) (initial_nelements : Int) (source : hasht K V) : Int × hasht K V :=
  hasht_init_ex env ht initial_nelements source.memfuncs.alloc source.userdata
    source.shrink_at_percentage source.grow_at_percentage

/-- The default allocator is `malloc`; whether it yields memory is `malloc_ok`. -/
def hasht_init_with_udata {K V : Type} [Inhabited K] [Inhabited V] (env : Env K)
    (malloc_ok : Nat → Bool) (ht : hasht K V) (initial_nelements : Int) (userdata : Nat) :
    Int × hasht K V :=
  hasht_init_ex env ht initial_nelements malloc_ok userdata 20 60

def hasht_init {K V : Type} [Inhabited K] [Inhabited V] (env : Env K)
    (malloc_ok : Nat → Bool) (ht : hasht K V) (initial_nelements : Int) : Int × hasht K V :=
  hasht_init_with_udata env malloc_ok ht initial_nelements 0

def hasht_deinit {K V : Type} (ht : hasht K V) : hasht K V :=
  hasht_zero_sz_field { ht with tab := [] }

def hasht_integer_mod_buckets {K V : Type} (ht : hasht K V) (full_hash : Nat) : Int :=
  (ht.div_func full_hash : Int)

def hasht_idx_mod_buckets {K V : Type} (ht : hasht K V) (idx : Int) : Int :=
  if idx < 0 then ht.nbuckets - 1
  else if idx ≥ ht.nbuckets then 0
  else idx

def hasht_n_unused_buckets {K V : Type} (ht : hasht K V) : Int :=
  ht.nbuckets - ht.nelements

def hasht_n_empty_buckets {K V : Type} (ht : hasht K V) : Int :=
  ht.nbuckets - ht.nelements - ht.ndeleted

def hasht_n_nonempty_buckets {K V : Type} (ht : hasht K V) : Int :=
  ht.nelements + ht.ndeleted

def hasht_n_used_buckets {K V : Type} (ht : hasht K V) : Int :=
  ht.nelements

/-- Writes bucket `ht->tab + idx`. -/
def hasht_tab_set {K V : Type} (ht : hasht K V) (idx : Int) (pair : hasht_pair_type K V) :
    hasht K V :=
  if idx < 0 then ht else { ht with tab := ht.tab.set idx.toNat pair }

/-! ## Probing -/

def hasht_cmp {K V : Type} (env : Env K) (_ht : hasht K V) (key1 : K) (partial_hash_1 : Nat)
    (pair : hasht_pair_type K V) : Int :=
  if hasht_pr_get_partial_hash pair ≠ partial_hash_1 then 1
  else env.hasht_key_eq_cmp key1 pair.key

/-- The `while (1)` loop of `hasht_find_pos__`; the result is the return value
and the index stored in `*out_idx`. -/
def hasht_find_pos_loop {K V : Type} [Inhabited K] [Inhabited V] (env : Env K) (ht : hasht K V)
    (key : K) (partial_hash : Nat) : Nat → Int → Int → Option (Int × Int)
  | 0, _, _ => none
  | fuel + 1, idx, suggested =>
    let pair := hasht_tab_at ht idx
    if hasht_pr_is_occupied pair then
      if hasht_cmp env ht key partial_hash pair = 0 then
        some (HASHT_OK, idx)
      else
        hasht_find_pos_loop env ht key partial_hash fuel (hasht_idx_mod_buckets ht (idx + 1))
          suggested
    else if hasht_pr_is_deleted pair then
      let suggested := if suggested = HASHT_NOT_FOUND then idx else suggested
      hasht_find_pos_loop env ht key partial_hash fuel (hasht_idx_mod_buckets ht (idx + 1))
        suggested
    else if hasht_pr_is_empty pair then
      let suggested := if suggested = HASHT_NOT_FOUND then idx else suggested
      some (HASHT_NOT_FOUND, suggested)
    else
      hasht_find_pos_loop env ht key partial_hash fuel (hasht_idx_mod_buckets ht (idx + 1))
        suggested

/-- The result is `(return value, *out_idx, *full_hash_out)`; `out_idx` is what
`*out_idx` held on entry. The loop returns within `nbuckets` rounds or never:
no round changes a bucket, and round `nbuckets + i` sees the bucket of round `i`. -/
def hasht_find_pos__ {K V : Type} [Inhabited K] [Inhabited V] (env : Env K) (ht : hasht K V)
    (key : K) (out_idx : Int) : Option (Int × Int × Nat) :=
  let full_hash := env.hasht_hash key
  let partial_hash := hasht_hash_to_partial_hash full_hash
  let idx := hasht_integer_mod_buckets ht full_hash
  let suggested := HASHT_NOT_FOUND
  if hasht_n_empty_buckets ht < 1 then
    some (HASHT_INVALID_TABLE_STATE, out_idx, full_hash)
  else
    match hasht_find_pos_loop env ht key partial_hash ht.nbuckets.toNat idx suggested with
    | none => none
    | some (rv, found) => some (rv, found, full_hash)

/-! ## Iteration over occupied buckets -/

def hasht_index_within (start_idx cursor_idx end_idx_inclusive : Int) : Bool :=
  if (decide (start_idx ≤ end_idx_inclusive) && decide (cursor_idx > end_idx_inclusive)) ||
     (decide (start_idx > end_idx_inclusive) && decide (cursor_idx ≤ start_idx) &&
        decide (cursor_idx > end_idx_inclusive)) ||
     decide (cursor_idx = start_idx) then
    false
  else
    true

/-- The `for` loop of `hasht_skip_to_next__`, with `fuel` rounds left. -/
def hasht_skip_to_next_loop {K V : Type} [Inhabited K] [Inhabited V] (ht : hasht K V)
    (start_idx end_idx_inclusive : Int) : Nat → Int → Int
  | 0, _ => HASHT_INVALID_TABLE_STATE
  | fuel + 1, cursor_idx =>
    if hasht_pr_is_occupied (hasht_tab_at ht cursor_idx) then
      cursor_idx
    else
      let cursor_idx := hasht_idx_mod_buckets ht (cursor_idx + 1)
      if !hasht_index_within start_idx cursor_idx end_idx_inclusive then
        HASHT_ITER_STOP
      else
        hasht_skip_to_next_loop ht start_idx end_idx_inclusive fuel cursor_idx

def hasht_skip_to_next__ {K V : Type} [Inhabited K] [Inhabited V] (ht : hasht K V)
    (start_idx cursor_idx end_idx_inclusive : Int) : Int :=
  if ht.nelements = 0 then
    HASHT_ITER_STOP
  else if cursor_idx = HASHT_ITER_FIRST then
    hasht_skip_to_next_loop ht start_idx end_idx_inclusive ht.nbuckets.toNat start_idx
  else
    let cursor_idx := hasht_idx_mod_buckets ht (cursor_idx + 1)
    if !hasht_index_within start_idx cursor_idx end_idx_inclusive then
      HASHT_ITER_STOP
    else
      hasht_skip_to_next_loop ht start_idx end_idx_inclusive ht.nbuckets.toNat cursor_idx

/-! ## Insertion and resizing

`hasht_copy_all_to` calls `hasht_insert`, which the header declares ahead of its
definition; the functions between the declaration and the definition take it
as the argument `insert`. -/

/-- The `while (idx >= 0)` loop of `hasht_copy_all_to`. -/
def hasht_copy_all_to_loop {K V : Type} [Inhabited K] [Inhabited V]
    (insert : hasht K V → K → V → Option (Int × hasht K V)) (source : hasht K V) :
    Nat → hasht K V → Int → Option (Int × hasht K V)
  | 0, _, _ => none
  | fuel + 1, destination, idx =>
    if idx ≥ 0 then
      let pair := hasht_tab_at source idx
      match insert destination pair.key pair.value with
      | none => none
      | some (rv, destination) =>
        if rv ≠ HASHT_OK then
          some (rv, destination)
        else
          hasht_copy_all_to_loop insert source fuel destination
            (hasht_skip_to_next__ source 0 idx (source.nbuckets - 1))
    else if idx ≠ HASHT_ITER_STOP then
      some (idx, destination)
    else
      some (HASHT_OK, destination)

/-- Every round but the last moves `idx` to a later bucket of `source`, so
`nbuckets + 1` rounds are enough. -/
def hasht_copy_all_to {K V : Type} [Inhabited K] [Inhabited V]
    (insert : hasht K V → K → V → Option (Int × hasht K V))
    (destination source : hasht K V) : Option (Int × hasht K V) :=
  hasht_copy_all_to_loop insert source (source.nbuckets.toNat + 1) destination
    (hasht_skip_to_next__ source 0 HASHT_ITER_FIRST (source.nbuckets - 1))

/-- The local `new_ht` starts out with unknown content; `hasht_init_ex` writes
every field of it before it returns `HASHT_OK`. -/
def hasht_resize__ {K V : Type} [Inhabited K] [Inhabited V]
    (insert : hasht K V → K → V → Option (Int × hasht K V)) (env : Env K)
    (ht : hasht K V) (new_element_count : Int) : Option (Int × hasht K V) :=
  let new_bucket_count := hasht_calc_nelements_to_nbuckets new_element_count
    ht.shrink_at_percentage ht.grow_at_percentage
  if ht.nbuckets_po2 = hasht_get_adiv_power_idx env new_bucket_count then
    some (HASHT_OK, ht)
  else
    let (rv, new_ht) := hasht_init_copy_settings env ht new_bucket_count ht
    if rv ≠ HASHT_OK then
      some (rv, ht)
    else
      match hasht_copy_all_to insert new_ht ht with
      | none => none
      | some (rv, new_ht) =>
        if rv ≠ HASHT_OK then
          some (rv, ht)
        else
          some (HASHT_OK, new_ht)

def hasht_if_needed_try_resize {K V : Type} [Inhabited K] [Inhabited V]
    (insert : hasht K V → K → V → Option (Int × hasht K V)) (env : Env K)
    (ht : hasht K V) (hint : Int) : Option (Int × hasht K V) :=
  if ht.nelements ≥ ht.grow_at_gt_n ∧ hint ≠ HASHT_HINT_DELETING then
    hasht_resize__ insert env ht ht.nelements
  else if ht.nelements < ht.shrink_at_lt_n ∧ ht.nbuckets.tdiv 2 < HASHT_MIN_TABLESIZE ∧
      hint ≠ HASHT_HINT_INSERTING then
    hasht_resize__ insert env ht ht.nelements
  else
    some (HASHT_OK, ht)

def hasht_at_insert_must_resize {K V : Type} (ht : hasht K V) : Bool :=
  decide (hasht_n_unused_buckets ht ≤ 1)

def hasht_set_pair_at_pos__ {K V : Type} (ht : hasht K V) (full_hash : Nat) (key : K)
    (value : V) (place_to_insert_idx : Int) : Int × hasht K V :=
  let pair : hasht_pair_type K V :=
    { pair_data := hasht_pr_combine_flags_and_partial_hash HASHT_VLT_IS_NOT_EMPTY
        (hasht_hash_to_partial_hash full_hash),
      key := key, value := value }
  (HASHT_OK, hasht_tab_set ht place_to_insert_idx pair)

/-- The result is `(return value, *found_idx_out, table)`; `found_idx_out` is
what `*found_idx_out` held on entry. The local `found_idx` is not initialised:
it starts as `0` here. `hasht_find_pos__` leaves it as it was only when it
returns `HASHT_INVALID_TABLE_STATE`, and then `hasht_insert__` returns that
code whatever `found_idx` holds. -/
def hasht_insert__ {K V : Type} [Inhabited K] [Inhabited V]
    (insert : hasht K V → K → V → Option (Int × hasht K V)) (env : Env K)
    (ht : hasht K V) (key : K) (value : V) (found_idx_out : Int) (or_replace : Bool) :
    Option (Int × Int × hasht K V) :=
  match hasht_if_needed_try_resize insert env ht HASHT_HINT_INSERTING with
  | none => none
  | some (rv, ht) =>
    if rv ≠ HASHT_OK ∧ hasht_at_insert_must_resize ht = true then
      if rv = HASHT_INVALID_TABLE_STATE ∨ rv = HASHT_ALLOC_ERR then
        some (rv, found_idx_out, ht)
      else
        some (HASHT_FAILED_AT_RESIZE, found_idx_out, ht)
    else
      match hasht_find_pos__ env ht key 0 with
      | none => none
      | some (rv, found_idx, full_hash) =>
        if found_idx = HASHT_NOT_FOUND then
          some (HASHT_INVALID_TABLE_STATE, HASHT_NOT_FOUND, ht)
        else if rv = HASHT_OK ∧ or_replace = false then
          some (HASHT_DUPLICATE_KEY, found_idx, ht)
        else if rv = HASHT_NOT_FOUND then
          let pair := hasht_tab_at ht found_idx
          let ht :=
            if hasht_pr_is_deleted pair then { ht with ndeleted := ht.ndeleted - 1 } else ht
          let ht := { ht with nelements := ht.nelements + 1 }
          let (rv, ht) := hasht_set_pair_at_pos__ ht full_hash key value found_idx
          some (rv, found_idx, ht)
        else if rv ≠ HASHT_OK then
          some (rv, HASHT_NOT_FOUND, ht)
        else
          let (rv, ht) := hasht_set_pair_at_pos__ ht full_hash key value found_idx
          some (rv, found_idx, ht)

/-- A call of `hasht_insert` nested `fuel` deep: an insert may resize, a resize
inserts every entry into the new table, and so on. -/
def hasht_insert {K V : Type} [Inhabited K] [Inhabited V] (env : Env K) :
    Nat → hasht K V → K → V → Option (Int × hasht K V)
  | 0 => fun _ _ _ => none
  | fuel + 1 => fun ht key value =>
    match hasht_insert__ (hasht_insert env fuel) env ht key value 0 false with
    | none => none
    | some (rv, _, ht) => some (rv, ht)

/-! ## Removal -/

def hasht_mark_as_empty__ {K V : Type} [Inhabited K] [Inhabited V] (ht : hasht K V)
    (at_index : Int) : hasht K V :=
  let pair := hasht_tab_at ht at_index
  hasht_tab_set ht at_index
    (hasht_pr_set_flags pair
      (hasht_pr_flags pair &&& (0xFFFFFFFF - (HASHT_VLT_IS_NOT_EMPTY ||| HASHT_VLT_IS_DELETED))))

def hasht_mark_as_occupied__ {K V : Type} [Inhabited K] [Inhabited V] (ht : hasht K V)
    (at_index : Int) : hasht K V :=
  let pair := hasht_tab_at ht at_index
  hasht_tab_set ht at_index
    (hasht_pr_set_flags pair
      ((hasht_pr_flags pair &&& (0xFFFFFFFF - HASHT_VLT_IS_DELETED)) |||
        HASHT_VLT_IS_NOT_EMPTY))

def hasht_mark_as_deleted__ {K V : Type} [Inhabited K] [Inhabited V] (ht : hasht K V)
    (at_index : Int) : hasht K V :=
  let pair := hasht_tab_at ht at_index
  hasht_tab_set ht at_index
    (hasht_pr_set_flags pair (hasht_pr_flags pair ||| HASHT_VLT_IS_DELETED))

/-- The `while (hasht_pr_is_deleted(prev_pair))` loop of `hasht_remove`. -/
def hasht_remove_cleanup_loop {K V : Type} [Inhabited K] [Inhabited V] :
    Nat → hasht K V → Int → Option (hasht K V)
  | 0, _, _ => none
  | fuel + 1, ht, prev_idx =>
    if hasht_pr_is_deleted (hasht_tab_at ht prev_idx) then
      hasht_remove_cleanup_loop fuel (hasht_mark_as_empty__ ht prev_idx)
        (hasht_idx_mod_buckets ht (prev_idx - 1))
    else
      some ht

/-- Every round of the cleanup loop empties one more bucket, so with
`nbuckets + 1` rounds it has met a bucket that is not deleted. -/
def hasht_remove {K V : Type} [Inhabited K] [Inhabited V] (env : Env K) (ht : hasht K V)
    (key : K) : Option (Int × hasht K V) :=
  match hasht_find_pos__ env ht key 0 with
  | none => none
  | some (rv, found_idx, _) =>
    if rv = HASHT_NOT_FOUND then
      some (rv, ht)
    else if rv ≠ HASHT_OK then
      some (rv, ht)
    else
      let next_idx := hasht_idx_mod_buckets ht (found_idx + 1)
      let next_pair := hasht_tab_at ht next_idx
      if hasht_pr_is_empty next_pair then
        let ht := hasht_mark_as_empty__ ht found_idx
        let prev_idx := hasht_idx_mod_buckets ht (found_idx - 1)
        match hasht_remove_cleanup_loop (ht.nbuckets.toNat + 1) ht prev_idx with
        | none => none
        | some ht => some (HASHT_OK, { ht with nelements := ht.nelements - 1 })
      else
        let ht := hasht_mark_as_deleted__ ht found_idx
        let ht := { ht with ndeleted := ht.ndeleted + 1 }
        some (HASHT_OK, { ht with nelements := ht.nelements - 1 })

/-! ## Iterators -/

/-- The field `pair` points into the bucket array: it is the index of the
bucket, or `none` for the null pointer. -/
structure hasht_iter where
  started_at_idx : Int
  current_idx : Int
  pair : Option Int
deriving DecidableEq, Repr

def hasht_mk_invalid_iter : hasht_iter :=
  ⟨HASHT_ITER_STOP, HASHT_ITER_STOP, none⟩

def hasht_mk_iter (start_idx : Int) (pair : Option Int) : hasht_iter :=
  ⟨start_idx, HASHT_ITER_FIRST, pair⟩

def hasht_iter_check (iter : hasht_iter) : Bool :=
  iter.current_idx != HASHT_ITER_STOP

def hasht_begin_iterator {K V : Type} [Inhabited K] [Inhabited V] (ht : hasht K V)
    (iter : hasht_iter) : Int × hasht_iter :=
  let next_idx := hasht_skip_to_next__ ht 0 HASHT_ITER_FIRST (ht.nbuckets - 1)
  if next_idx < 0 then
    (HASHT_ITER_STOP, hasht_mk_invalid_iter)
  else
    (HASHT_OK, { iter with started_at_idx := 0, current_idx := next_idx, pair := some next_idx })

def hasht_iter_next {K V : Type} [Inhabited K] [Inhabited V] (ht : hasht K V)
    (iter : hasht_iter) : Int × hasht_iter :=
  if iter.current_idx = HASHT_ITER_STOP then
    (HASHT_ITER_STOP, iter)
  else
    let next_idx := hasht_skip_to_next__ ht iter.started_at_idx iter.current_idx (ht.nbuckets - 1)
    if next_idx < 0 then
      (HASHT_ITER_STOP, hasht_mk_invalid_iter)
    else
      (HASHT_OK, { iter with current_idx := next_idx, pair := some next_idx })

def hasht_find {K V : Type} [Inhabited K] [Inhabited V] (env : Env K) (ht : hasht K V)
    (key : K) : Option (Int × hasht_iter) :=
  match hasht_find_pos__ env ht key 0 with
  | none => none
  | some (rv, found_idx, _) =>
    if rv = HASHT_NOT_FOUND then
      some (rv, hasht_mk_invalid_iter)
    else if rv ≠ HASHT_OK then
      some (rv, hasht_mk_invalid_iter)
    else
      some (HASHT_OK, hasht_mk_iter found_idx (some found_idx))

def hasht_find_or_insert {K V : Type} [Inhabited K] [Inhabited V] (env : Env K) (fuel : Nat)
    (ht : hasht K V) (key : K) (value : V) : Option (Int × hasht_iter × hasht K V) :=
  match hasht_insert__ (hasht_insert env fuel) env ht key value 0 true with
  | none => none
  | some (rv, found_idx, ht) =>
    if rv = HASHT_OK then
      some (rv, hasht_mk_iter found_idx (some found_idx), ht)
    else
      some (rv, hasht_mk_invalid_iter, ht)

/-! ## A concrete instance -/

/-- Keys are natural numbers that hash to themselves; the capacity table holds
the least prime above each power of two. -/
def example_env : Env Nat :=
  { adiv_values := [2, 3, 5, 11, 17, 37, 67, 131, 257, 521, 1031],
    hasht_hash := fun k => k,
    hasht_key_eq_cmp := fun a b => if a = b then 0 else 1,
    sizeof_pair := 24 }

/-- The same instance with a capacity table that has both 5 and 7 buckets. -/
def example_env_dense : Env Nat :=
  { adiv_values := [2, 3, 5, 7, 11, 13, 17, 19, 23, 29, 31],
    hasht_hash := fun k => k,
    hasht_key_eq_cmp := fun a b => if a = b then 0 else 1,
    sizeof_pair := 24 }

/-- A table struct before `hasht_init_ex` has run. -/
def example_blank (alloc : Nat → Bool) : hasht Nat Nat :=
  { tab := [], div_func := fun _ => 0, nelements := 0, ndeleted := 0, nbuckets := 0,
    nbuckets_po2 := 0, grow_at_gt_n := 0, shrink_at_lt_n := 0, grow_at_percentage := 0,
    shrink_at_percentage := 0, memfuncs := ⟨alloc⟩, userdata := 0 }

/-- Runs `hasht_insert` on the table of an earlier result. -/
def example_insert (env : Env Nat) (key value : Nat) (r : Option (Int × hasht Nat Nat)) :
    Option (Int × hasht Nat Nat) :=
  r.bind fun p => hasht_insert env 4 p.2 key value

/-- Runs `hasht_remove` on the table of an earlier result. -/
def example_remove (env : Env Nat) (key : Nat) (r : Option (Int × hasht Nat Nat)) :
    Option (Int × hasht Nat Nat) :=
  r.bind fun p => hasht_remove env p.2 key

/-- The table made by `hasht_init_ex` with every allocation succeeding. -/
def example_init (env : Env Nat) (initial_nelements shrink_at grow_at : Int) :
    Option (Int × hasht Nat Nat) :=
  some (hasht_init_ex env (example_blank fun _ => true) initial_nelements (fun _ => true) 0
    shrink_at grow_at)

/-- With the default percentages: insert 0 and 1, remove 0, insert 2, remove 1,
insert 3, remove 2. Buckets 0, 1, 2 are tombstones, bucket 3 holds key 3 and
bucket 4 is the only empty one. -/
def example_tombstones : Option (Int × hasht Nat Nat) :=
  example_remove example_env 2 (example_insert example_env 3 103
    (example_remove example_env 1 (example_insert example_env 2 102
      (example_remove example_env 0 (example_insert example_env 1 101
        (example_insert example_env 0 100 (example_init example_env 0 20 60)))))))

/-- The outcome of a step: return value, element count, tombstone count, bucket count. -/
def example_view (r : Option (Int × hasht Nat Nat)) : Option (Int × Int × Int × Int) :=
  r.map fun p => (p.1, p.2.nelements, p.2.ndeleted, p.2.nbuckets)

/-- The state word of every bucket. -/
def example_words (r : Option (Int × hasht Nat Nat)) : List Nat :=
  match r with
  | none => []
  | some p => p.2.tab.map fun b => b.pair_data

/-- The table of an outcome. -/
def example_table (r : Option (Int × hasht Nat Nat)) : hasht Nat Nat :=
  match r with
  | none => example_blank fun _ => true
  | some p => p.2

/-! ## Notions the statements use -/

/-- The number of buckets of the array that are in the deleted state. -/
def hasht_count_deleted {K V : Type} (ht : hasht K V) : Nat :=
  (ht.tab.filter fun b => hasht_pr_is_deleted b).length

/-- The number of buckets of the array that are occupied. -/
def hasht_count_occupied {K V : Type} (ht : hasht K V) : Nat :=
  (ht.tab.filter fun b => hasht_pr_is_occupied b).length

/-- The number of buckets of the array that are empty. -/
def hasht_count_empty {K V : Type} (ht : hasht K V) : Nat :=
  (ht.tab.filter fun b => hasht_pr_is_empty b).length

/-- With the default percentages and an allocator that refuses more than five
buckets: keys 0, 1, 2 and 3 fill four of the five buckets (the growth attempt
before the fourth insert fails and is tolerated). -/
def example_no_memory : Option (Int × hasht Nat Nat) :=
  example_insert example_env 3 103 (example_insert example_env 2 102
    (example_insert example_env 1 101 (example_insert example_env 0 100
      (some (hasht_init_ex example_env (example_blank fun _ => true) 0
        (fun sz => decide (sz ≤ 24 * 5)) 0 20 60)))))

/-- With the default percentages: keys 0, 1 and 2 in five buckets. -/
def example_three : Option (Int × hasht Nat Nat) :=
  example_insert example_env 2 102 (example_insert example_env 1 101
    (example_insert example_env 0 100 (example_init example_env 0 20 60)))

/-- With the default percentages: eleven buckets, key 1 in bucket 1 and a
tombstone in bucket 0. -/
def example_eleven : Option (Int × hasht Nat Nat) :=
  example_remove example_env 0 (example_insert example_env 1 101
    (example_insert example_env 0 100 (example_init example_env 5 20 60)))

/-- The bucket at position `n` of the array. -/
def hasht_slot {K V : Type} [Inhabited K] [Inhabited V] (ht : hasht K V) (n : Nat) :
    hasht_pair_type K V :=
  ht.tab.getD n default

/-- The position `d` steps after position `h` on the probe path, which wraps
around at the end of the array. -/
def hasht_pos {K V : Type} (ht : hasht K V) (h d : Nat) : Nat :=
  (h + d) % ht.tab.length

/-- The home position of a key: its hash through the division routine. -/
def hasht_home {K V : Type} (env : Env K) (ht : hasht K V) (k : K) : Nat :=
  ht.div_func (env.hasht_hash k)

/-- What the claims assume of the environment: a strictly ascending capacity
table, and a key comparison that is an equivalence and is respected by the hash. -/
def hasht_env_ok {K : Type} (env : Env K) : Prop :=
  env.adiv_values.Pairwise (fun a b => a < b) ∧
  (∀ a, env.hasht_key_eq_cmp a a = 0) ∧
  (∀ a b, env.hasht_key_eq_cmp a b = 0 → env.hasht_key_eq_cmp b a = 0) ∧
  (∀ a b c, env.hasht_key_eq_cmp a b = 0 → env.hasht_key_eq_cmp b c = 0 →
    env.hasht_key_eq_cmp a c = 0) ∧
  (∀ a b, env.hasht_key_eq_cmp a b = 0 → env.hasht_hash a = env.hasht_hash b)

/-- Some occupied bucket holds a key that compares equal to `k`. -/
def hasht_present {K V : Type} [Inhabited K] [Inhabited V] (env : Env K) (ht : hasht K V)
    (k : K) : Prop :=
  ∃ i, i < ht.tab.length ∧ hasht_pr_is_occupied (hasht_slot ht i) = true ∧
    env.hasht_key_eq_cmp k (hasht_slot ht i).key = 0

/-- Some occupied bucket holds exactly the key `k` with the value `v`. -/
def hasht_holds {K V : Type} [Inhabited K] [Inhabited V] (ht : hasht K V) (k : K) (v : V) :
    Prop :=
  ∃ i, i < ht.tab.length ∧ hasht_pr_is_occupied (hasht_slot ht i) = true ∧
    (hasht_slot ht i).key = k ∧ (hasht_slot ht i).value = v

/-- Some occupied bucket holds a key that compares equal to `k`, with the value `v`. -/
def hasht_maps {K V : Type} [Inhabited K] [Inhabited V] (env : Env K) (ht : hasht K V)
    (k : K) (v : V) : Prop :=
  ∃ i, i < ht.tab.length ∧ hasht_pr_is_occupied (hasht_slot ht i) = true ∧
    env.hasht_key_eq_cmp k (hasht_slot ht i).key = 0 ∧ (hasht_slot ht i).value = v

/-- The shape of a table in use: the array has `nbuckets` buckets, `nbuckets` is
the size of the table's size class, and the division routine is the one of
that class. -/
def hasht_shape_ok {K V : Type} (env : Env K) (ht : hasht K V) : Prop :=
  (ht.tab.length : Int) = ht.nbuckets ∧ 0 < ht.tab.length ∧
  2 ≤ ht.nbuckets_po2 ∧
  ht.nbuckets = (env.adiv_values.getD ht.nbuckets_po2.toNat 0 : Nat) ∧
  ht.div_func = adiv_funcs env ht.nbuckets_po2.toNat

/-- The counters and the state words agree with the array: no bucket is corrupt,
`nelements` counts the occupied buckets, `ndeleted` is at least the number of
deleted buckets, and an occupied bucket stores the partial hash of its key. -/
def hasht_slots_ok {K V : Type} [Inhabited K] [Inhabited V] (env : Env K) (ht : hasht K V) :
    Prop :=
  (∀ i, i < ht.tab.length → hasht_pr_is_corrupt (hasht_slot ht i) = false) ∧
  ht.nelements = (hasht_count_occupied ht : Int) ∧
  (hasht_count_deleted ht : Int) ≤ ht.ndeleted ∧
  (∀ i, i < ht.tab.length → hasht_pr_is_occupied (hasht_slot ht i) = true →
    hasht_pr_get_partial_hash (hasht_slot ht i) =
      hasht_hash_to_partial_hash (env.hasht_hash (hasht_slot ht i).key))

/-- The probe-chain invariant: no bucket between the home position of an
occupied bucket's key and that bucket is empty. -/
def hasht_chain_ok {K V : Type} [Inhabited K] [Inhabited V] (env : Env K) (ht : hasht K V) :
    Prop :=
  ∀ i d, i < ht.tab.length → hasht_pr_is_occupied (hasht_slot ht i) = true →
    d < ht.tab.length → hasht_pos ht (hasht_home env ht (hasht_slot ht i).key) d = i →
    ∀ e, e < d →
      hasht_pr_is_empty (hasht_slot ht
        (hasht_pos ht (hasht_home env ht (hasht_slot ht i).key) e)) = false

/-- No two occupied buckets hold keys that compare equal. -/
def hasht_unique_ok {K V : Type} [Inhabited K] [Inhabited V] (env : Env K) (ht : hasht K V) :
    Prop :=
  ∀ i j, i < ht.tab.length → j < ht.tab.length →
    hasht_pr_is_occupied (hasht_slot ht i) = true →
    hasht_pr_is_occupied (hasht_slot ht j) = true →
    env.hasht_key_eq_cmp (hasht_slot ht i).key (hasht_slot ht j).key = 0 → i = j

/-- The invariant of a table in use. -/
def hasht_inv {K V : Type} [Inhabited K] [Inhabited V] (env : Env K) (ht : hasht K V) : Prop :=
  hasht_shape_ok env ht ∧ hasht_slots_ok env ht ∧ hasht_chain_ok env ht ∧
    hasht_unique_ok env ht

/-- The table a call leaves: the table of its outcome, or the table it was
given when the call does not return. -/
def hasht_after {K V : Type} (r : Option (Int × hasht K V)) (ht : hasht K V) : hasht K V :=
  match r with
  | none => ht
  | some p => p.2

/-- The tables a caller can get: one made by a successful `hasht_init_ex`, and
what `hasht_insert`, `hasht_find_or_insert` and `hasht_remove` leave of one. -/
inductive hasht_reachable {K V : Type} [Inhabited K] [Inhabited V] (env : Env K) :
    hasht K V → Prop
  | init (ht0 : hasht K V) (n : Int) (alloc : Nat → Bool) (userdata : Nat) (s g : Int) :
      (hasht_init_ex env ht0 n alloc userdata s g).1 = HASHT_OK →
      hasht_reachable env (hasht_init_ex env ht0 n alloc userdata s g).2
  | insert (ht : hasht K V) (fuel : Nat) (k : K) (v : V) :
      hasht_reachable env ht →
      hasht_reachable env (hasht_after (hasht_insert env fuel ht k v) ht)
  | find_or_insert (ht : hasht K V) (fuel : Nat) (k : K) (v : V) :
      hasht_reachable env ht →
      hasht_reachable env
        (hasht_after ((hasht_find_or_insert env fuel ht k v).map fun r => (r.1, r.2.2)) ht)
  | remove (ht : hasht K V) (k : K) :
      hasht_reachable env ht →
      hasht_reachable env (hasht_after (hasht_remove env ht k) ht)

/-- The position `t` steps before position `i` on the probe path. -/
def hasht_back {K V : Type} (ht : hasht K V) (i t : Nat) : Nat :=
  hasht_pos ht i (t * (ht.tab.length - 1))

/-- The bucket `hasht_mark_as_empty__` writes in place of `p`. -/
def hasht_pr_emptied {K V : Type} (p : hasht_pair_type K V) : hasht_pair_type K V :=
  hasht_pr_set_flags p
    (hasht_pr_flags p &&& (0xFFFFFFFF - (HASHT_VLT_IS_NOT_EMPTY ||| HASHT_VLT_IS_DELETED)))

/-- The bucket `hasht_mark_as_deleted__` writes in place of `p`. -/
def hasht_pr_tombstoned {K V : Type} (p : hasht_pair_type K V) : hasht_pair_type K V :=
  hasht_pr_set_flags p (hasht_pr_flags p ||| HASHT_VLT_IS_DELETED)

/-- The bucket `hasht_set_pair_at_pos__` writes. -/
def hasht_pr_filled {K V : Type} (full_hash : Nat) (key : K) (value : V) :
    hasht_pair_type K V :=
  { pair_data := hasht_pr_combine_flags_and_partial_hash HASHT_VLT_IS_NOT_EMPTY
      (hasht_hash_to_partial_hash full_hash),
    key := key, value := value }

/-- The part of `hasht_insert__` that follows the trigger check: the probe and
what is done with its outcome. It is `hasht_insert__` on a table in which the
trigger check attempts no resize. -/
def hasht_insert_probe {K V : Type} [Inhabited K] [Inhabited V] (env : Env K) (ht : hasht K V)
    (key : K) (value : V) (or_replace : Bool) : Option (Int × Int × hasht K V) :=
  match hasht_find_pos__ env ht key 0 with
  | none => none
  | some (rv, found_idx, full_hash) =>
    if found_idx = HASHT_NOT_FOUND then
      some (HASHT_INVALID_TABLE_STATE, HASHT_NOT_FOUND, ht)
    else if rv = HASHT_OK ∧ or_replace = false then
      some (HASHT_DUPLICATE_KEY, found_idx, ht)
    else if rv = HASHT_NOT_FOUND then
      let pair := hasht_tab_at ht found_idx
      let ht :=
        if hasht_pr_is_deleted pair then { ht with ndeleted := ht.ndeleted - 1 } else ht
      let ht := { ht with nelements := ht.nelements + 1 }
      let (rv, ht) := hasht_set_pair_at_pos__ ht full_hash key value found_idx
      some (rv, found_idx, ht)
    else if rv ≠ HASHT_OK then
      some (rv, HASHT_NOT_FOUND, ht)
    else
      let (rv, ht) := hasht_set_pair_at_pos__ ht full_hash key value found_idx
      some (rv, found_idx, ht)

/-- No bucket is a tombstone and the tombstone counter is zero. -/
def hasht_clean {K V : Type} (ht : hasht K V) : Prop :=
  hasht_count_deleted ht = 0 ∧ ht.ndeleted = 0

/-- Two tables hold the same (key, value) pairs in their occupied buckets. -/
def hasht_same_content {K V : Type} [Inhabited K] [Inhabited V] (a b : hasht K V) : Prop :=
  ∀ k v, hasht_holds a k v ↔ hasht_holds b k v

/-- What a call `hasht_insert(ht, k, v)` that returns `r.1` and leaves the table
`r.2` has done: the invariant holds, `HASHT_OK` means the key was absent and is
now the one entry added, any other code means the entries are the same, and
`HASHT_DUPLICATE_KEY` is returned only for a key that is present. -/
def hasht_insert_post {K V : Type} [Inhabited K] [Inhabited V] (env : Env K) (ht : hasht K V)
    (k : K) (v : V) (r : Int × hasht K V) : Prop :=
  hasht_inv env r.2 ∧
  (r.1 = HASHT_OK → ¬ hasht_present env ht k ∧ r.2.nelements = ht.nelements + 1 ∧
    ∀ k' v', hasht_holds r.2 k' v' ↔ (hasht_holds ht k' v' ∨ (k' = k ∧ v' = v))) ∧
  (r.1 ≠ HASHT_OK → r.2.nelements = ht.nelements ∧ hasht_same_content r.2 ht) ∧
  (r.1 = HASHT_DUPLICATE_KEY → hasht_present env ht k) ∧
  (hasht_clean ht → hasht_clean r.2)

/-- The contract of the function that `hasht_copy_all_to` calls as
`hasht_insert`: on a table with fewer than `n` entries it returns, and what it
returns satisfies `hasht_insert_post`. -/
def hasht_insert_spec {K V : Type} [Inhabited K] [Inhabited V] (env : Env K)
    (ins : hasht K V → K → V → Option (Int × hasht K V)) (n : Nat) : Prop :=
  ∀ ht k v, hasht_inv env ht →
    (ht.nelements < (n : Int) → ∃ r, ins ht k v = some r) ∧
    ∀ r, ins ht k v = some r → hasht_insert_post env ht k v r

/-- The entries of `dest` are the entries that `source` holds in buckets below `c`. -/
def hasht_copied {K V : Type} [Inhabited K] [Inhabited V] (source dest : hasht K V) (c : Nat) :
    Prop :=
  ∀ k v, hasht_holds dest k v ↔
    ∃ j, j < c ∧ j < source.tab.length ∧ hasht_pr_is_occupied (hasht_slot source j) = true ∧
      (hasht_slot source j).key = k ∧ (hasht_slot source j).value = v

/-- The number of occupied buckets below `c`. -/
def hasht_count_occupied_below {K V : Type} (ht : hasht K V) (c : Nat) : Nat :=
  ((ht.tab.take c).filter fun b => hasht_pr_is_occupied b).length

/-- The index `idx` is the first occupied bucket at or after `c`, or
`HASHT_ITER_STOP` when there is none. -/
def hasht_next_from {K V : Type} [Inhabited K] [Inhabited V] (ht : hasht K V) (c : Nat)
    (idx : Int) : Prop :=
  (idx = HASHT_ITER_STOP ∧
    ∀ e, c ≤ e → e < ht.tab.length → hasht_pr_is_occupied (hasht_slot ht e) = false) ∨
  (∃ i, c ≤ i ∧ i < ht.tab.length ∧ hasht_pr_is_occupied (hasht_slot ht i) = true ∧
    (∀ e, c ≤ e → e < i → hasht_pr_is_occupied (hasht_slot ht e) = false) ∧ idx = (i : Int))

/-- With the default percentages: key 0 in bucket 0 and key 5, whose home is
bucket 0 as well, in bucket 1. -/
def example_displaced : Option (Int × hasht Nat Nat) :=
  example_insert example_env 5 105 (example_insert example_env 0 100
    (example_init example_env 0 20 60))

/-- With the default percentages: keys 5, 6 and 7 in buckets 0, 1 and 2 of five. -/
def example_shifted : Option (Int × hasht Nat Nat) :=
  example_insert example_env 7 107 (example_insert example_env 6 106
    (example_insert example_env 5 105 (example_init example_env 0 20 60)))

/-- Modelled from the claim's words: the probe loop of `hasht_find_pos__`
without the partial-hash comparison, so that the key equality function is
called on every occupied bucket the probe visits. -/
def hasht_find_pos_loop_naive {K V : Type} [Inhabited K] [Inhabited V] (env : Env K)
    (ht : hasht K V) (key : K) : Nat → Int → Int → Option (Int × Int)
  | 0, _, _ => none
  | fuel + 1, idx, suggested =>
    let pair := hasht_tab_at ht idx
    if hasht_pr_is_occupied pair then
      if env.hasht_key_eq_cmp key pair.key = 0 then
        some (HASHT_OK, idx)
      else
        hasht_find_pos_loop_naive env ht key fuel (hasht_idx_mod_buckets ht (idx + 1)) suggested
    else if hasht_pr_is_deleted pair then
      let suggested := if suggested = HASHT_NOT_FOUND then idx else suggested
      hasht_find_pos_loop_naive env ht key fuel (hasht_idx_mod_buckets ht (idx + 1)) suggested
    else if hasht_pr_is_empty pair then
      let suggested := if suggested = HASHT_NOT_FOUND then idx else suggested
      some (HASHT_NOT_FOUND, suggested)
    else
      hasht_find_pos_loop_naive env ht key fuel (hasht_idx_mod_buckets ht (idx + 1)) suggested

/-- Modelled from the claim's words: `hasht_find_pos__` with the naive probe loop. -/
def hasht_find_pos_naive {K V : Type} [Inhabited K] [Inhabited V] (env : Env K) (ht : hasht K V)
    (key : K) (out_idx : Int) : Option (Int × Int × Nat) :=
  let full_hash := env.hasht_hash key
  let idx := hasht_integer_mod_buckets ht full_hash
  let suggested := HASHT_NOT_FOUND
  if hasht_n_empty_buckets ht < 1 then
    some (HASHT_INVALID_TABLE_STATE, out_idx, full_hash)
  else
    match hasht_find_pos_loop_naive env ht key ht.nbuckets.toNat idx suggested with
    | none => none
    | some (rv, found) => some (rv, found, full_hash)

/-- The buckets a pass yields after the iterator `iter`: what `hasht_iter_next`
stores in the field `pair`, call after call until it returns
`HASHT_ITER_STOP`; `none` when `fuel` calls do not reach that. -/
def hasht_iter_pass_loop {K V : Type} [Inhabited K] [Inhabited V] (ht : hasht K V) :
    Nat → hasht_iter → Option (List (Option Int))
  | 0, _ => none
  | fuel + 1, iter =>
    let (rv, iter) := hasht_iter_next ht iter
    if rv = HASHT_ITER_STOP then some []
    else (hasht_iter_pass_loop ht fuel iter).map fun l => iter.pair :: l

/-- The buckets a full pass yields: `hasht_begin_iterator`, then
`hasht_iter_next` until it returns `HASHT_ITER_STOP`. -/
def hasht_iter_pass {K V : Type} [Inhabited K] [Inhabited V] (ht : hasht K V)
    (iter0 : hasht_iter) (fuel : Nat) : Option (List (Option Int)) :=
  let (rv, iter) := hasht_begin_iterator ht iter0
  if rv = HASHT_ITER_STOP then some []
  else (hasht_iter_pass_loop ht fuel iter).map fun l => iter.pair :: l

/-! # Theorems -/

set_option linter.unusedSectionVars false
set_option linter.unusedVariables false


/-- Every path of `hasht_resize__` that returns a code other than `HASHT_OK`
returns the table it was given. -/
theorem hasht_resize_failure_paths {K V : Type} [Inhabited K] [Inhabited V]
    (insert : hasht K V → K → V → Option (Int × hasht K V)) (env : Env K) (ht : hasht K V)
    (n rv : Int)
    (h : (hasht_resize__ insert env ht n).map Prod.fst = some rv) (hrv : rv ≠ HASHT_OK) :
    (hasht_resize__ insert env ht n).map Prod.snd = some ht := by
  unfold hasht_resize__ at h ⊢
  simp only at h ⊢
  split
  · rename_i hpo
    rw [if_pos hpo] at h
    simp only [Option.map_some', Option.some.injEq] at h
    exact absurd h.symm hrv
  · rename_i hpo
    rw [if_neg hpo] at h
    split
    · rfl
    · rename_i hinit
      rw [if_neg hinit] at h
      split
      · rename_i hc
        rw [hc] at h
        simp at h
      · rename_i rv2 nh hc
        rw [hc] at h
        simp only at h
        split
        · rfl
        · rename_i hok
          rw [if_neg hok] at h
          simp only [Option.map_some', Option.some.injEq] at h
          exact absurd h.symm hrv

/-- Claim C9: when `hasht_resize__` returns anything but `HASHT_OK`, the table it
hands back is the table it was given, every field and every bucket. -/
theorem hasht_resize_failure_leaves_table {K V : Type} [Inhabited K] [Inhabited V]
    (insert : hasht K V → K → V → Option (Int × hasht K V)) (env : Env K) (ht : hasht K V)
    (n rv : Int)
    (h : (hasht_resize__ insert env ht n).map Prod.fst = some rv) (hrv : rv ≠ HASHT_OK) :
    (hasht_resize__ insert env ht n).map Prod.snd = some ht := by
  cases hr : hasht_resize__ insert env ht n with
  | none =>
    rw [hr] at h
    exact absurd h (by simp)
  | some r =>
    have hp := hasht_resize_failure_paths insert env ht n rv h hrv
    rw [hr] at hp
    exact hp

/-- A table of five buckets whose allocator refuses the larger array: the
resize returns `HASHT_ALLOC_ERR` and the table is the same. -/
theorem hasht_resize_failure_leaves_table_witness :
    (hasht_resize__ (hasht_insert example_env 4) example_env (example_table example_no_memory)
        4).map Prod.fst = some HASHT_ALLOC_ERR ∧
      HASHT_ALLOC_ERR ≠ HASHT_OK ∧
      (hasht_resize__ (hasht_insert example_env 4) example_env (example_table example_no_memory)
        4).map Prod.snd = some (example_table example_no_memory) :=
  ⟨by decide!, by decide!,
    hasht_resize_failure_leaves_table (hasht_insert example_env 4) example_env
      (example_table example_no_memory) 4 HASHT_ALLOC_ERR (by decide!) (by decide!)⟩

/-- Claim C1 fails on the code: after insert 0, insert 1, remove 0, insert 2,
remove 1, insert 3, remove 2 under the default percentages, `hasht_insert` of
the absent key 4 returns `HASHT_OK` and uses the last empty bucket; the
`hasht_find` of key 4 that follows returns `HASHT_INVALID_TABLE_STATE`. -/
theorem round_trip_lost_when_tombstones_fill_table :
    example_view example_tombstones = some (HASHT_OK, 1, 3, 5) ∧
    example_view (example_insert example_env 4 104 example_tombstones)
      = some (HASHT_OK, 2, 3, 5) ∧
    hasht_find example_env
        (example_table (example_insert example_env 4 104 example_tombstones)) 4
      = some (HASHT_INVALID_TABLE_STATE, hasht_mk_invalid_iter) := by
  decide!

/-- Claim C7 fails on the code: with the accepted percentages 49 and 99 and five
buckets, the resize before the fifth insert is skipped as a no-op and the
insert fills the last bucket, so `nelements = nbuckets = 5`. -/
theorem free_slot_lost_at_49_99 :
    (hasht_init_ex example_env (example_blank fun _ => true) 0 (fun _ => true) 0 49 99).1
      = HASHT_OK ∧
    example_view (example_insert example_env 3 103 (example_insert example_env 2 102
      (example_insert example_env 1 101 (example_insert example_env 0 100
        (example_init example_env 0 49 99))))) = some (HASHT_OK, 4, 0, 5) ∧
    example_view (example_insert example_env 4 104 (example_insert example_env 3 103
      (example_insert example_env 2 102 (example_insert example_env 1 101
        (example_insert example_env 0 100 (example_init example_env 0 49 99))))))
      = some (HASHT_OK, 5, 0, 5) := by
  decide!

/-- Claim C8 fails on the code: `hasht_init_ex` accepts the percentages 0 and 1,
and both cached thresholds of the new table are 0. -/
theorem thresholds_equal_at_0_1 :
    (hasht_init_ex example_env (example_blank fun _ => true) 0 (fun _ => true) 0 0 1).1
      = HASHT_OK ∧
    (hasht_init_ex example_env (example_blank fun _ => true) 0 (fun _ => true) 0 0
      1).2.shrink_at_lt_n = 0 ∧
    (hasht_init_ex example_env (example_blank fun _ => true) 0 (fun _ => true) 0 0
      1).2.grow_at_gt_n = 0 := by
  decide!

/-- Claim C12 fails on the code: eleven buckets, one element, shrink threshold 2
and hint `HASHT_HINT_DELETING`. Halving leaves 5 buckets, not fewer than the
minimum, yet `hasht_if_needed_try_resize` hands the table back as it is, the
tombstone with it; the resize it does not attempt would have dropped the
tombstone. -/
theorem no_shrink_when_halving_allowed :
    example_view example_eleven = some (HASHT_OK, 1, 1, 11) ∧
    (example_table example_eleven).shrink_at_lt_n = 2 ∧
    (example_table example_eleven).nbuckets.tdiv 2 ≥ HASHT_MIN_TABLESIZE ∧
    example_view (hasht_if_needed_try_resize (hasht_insert example_env 4) example_env
      (example_table example_eleven) HASHT_HINT_DELETING) = some (HASHT_OK, 1, 1, 11) ∧
    example_view (hasht_resize__ (hasht_insert example_env 4) example_env
      (example_table example_eleven) 1) = some (HASHT_OK, 1, 0, 11) := by
  decide!

/-- Claim C13 fails on the code: with a capacity table that has 5 and 7, a table
of seven buckets holds key 0 alone. `hasht_remove` of key 0 returns `HASHT_OK`
and leaves seven buckets; the trigger policy with hint `HASHT_HINT_DELETING`,
run on the table `hasht_remove` leaves, resizes it to eleven buckets. -/
theorem remove_skips_trigger_policy :
    example_view (example_remove example_env_dense 0 (example_insert example_env_dense 0 100
      (example_init example_env_dense 3 20 60))) = some (HASHT_OK, 0, 0, 7) ∧
    example_view (hasht_if_needed_try_resize (hasht_insert example_env_dense 4)
      example_env_dense
      (example_table (example_remove example_env_dense 0
        (example_insert example_env_dense 0 100 (example_init example_env_dense 3 20 60))))
      HASHT_HINT_DELETING) = some (HASHT_OK, 0, 0, 11) := by
  decide!

/-- Claim C14 fails on the code: insert 0, insert 1, remove 0 (bucket 0 becomes a
tombstone), remove 1 (bucket 1 and the tombstone before it become empty). No
bucket is deleted any more, and `ndeleted` is still 1. -/
theorem tombstone_count_stale_after_cleanup :
    example_view (example_remove example_env 1 (example_remove example_env 0
      (example_insert example_env 1 101 (example_insert example_env 0 100
        (example_init example_env 0 20 60))))) = some (HASHT_OK, 0, 1, 5) ∧
    hasht_count_deleted (example_table (example_remove example_env 1
      (example_remove example_env 0 (example_insert example_env 1 101
        (example_insert example_env 0 100 (example_init example_env 0 20 60)))))) = 0 := by
  decide!

/-- Claim C19 fails on the code: five buckets hold keys 0, 1, 2 and
`hasht_resize__` is asked for 3 elements. The planner gives 6 buckets, whose
size class has 11; the new table has 17, the size class of the planner applied
to its own result. -/
theorem resize_applies_planner_twice :
    example_view example_three = some (HASHT_OK, 3, 0, 5) ∧
    hasht_calc_nelements_to_nbuckets 3 20 60 = 6 ∧
    example_env.adiv_values.getD (hasht_get_adiv_power_idx example_env
      (max HASHT_MIN_TABLESIZE (hasht_calc_nelements_to_nbuckets 3 20 60))).toNat 0 = 11 ∧
    hasht_calc_nelements_to_nbuckets (hasht_calc_nelements_to_nbuckets 3 20 60) 20 60 = 12 ∧
    example_view (hasht_resize__ (hasht_insert example_env 4) example_env
      (example_table example_three) 3) = some (HASHT_OK, 3, 0, 17) := by
  decide!

/-- Claim C20 fails on the code: for 4 elements and the accepted percentages 49
and 99 the midpoint candidate is 5, above the minimum, and the planner returns
4 buckets, a load of 100 percent. -/
theorem planner_band_broken_at_49_99 :
    (4 * 100 : Int).tdiv ((49 + 99 : Int).tdiv 2) = 5 ∧
    hasht_calc_nelements_to_nbuckets 4 49 99 = 4 ∧
    ¬ (100 * 4 < 99 * hasht_calc_nelements_to_nbuckets 4 49 99) := by
  decide!

/-- Claim C29 fails on the code: for 4 elements and the accepted percentages 49
and 99 the planner returns 4 buckets, which is not more than 4. -/
theorem planner_leaves_no_room_at_49_99 :
    (hasht_init_parameters (example_blank fun _ => true) 49 99).1 = HASHT_OK ∧
    ¬ (hasht_calc_nelements_to_nbuckets 4 49 99 > 4) := by
  decide!

/-- Counterexample to claim C16 as stated: keys 0, 1, 2 sit in buckets 0, 1, 2.
The iterator `hasht_find` returns for key 0 has `current_idx = HASHT_ITER_FIRST`,
and `hasht_iter_next` on it yields bucket 0 again, not bucket 1. -/
theorem iter_next_after_find_yields_same_bucket :
    hasht_find example_env (example_table example_three) 0
      = some (HASHT_OK, ⟨0, HASHT_ITER_FIRST, some 0⟩) ∧
    hasht_iter_next (example_table example_three) ⟨0, HASHT_ITER_FIRST, some 0⟩
      = (HASHT_OK, ⟨0, 0, some 0⟩) := by
  decide!

/-- Claim C10 fails on the code for `hasht_init_ex`: the percentages 20 and 60 are
valid, and with a hint of 100000 elements `hasht_init_ex` returns
`HASHT_INVALID_REQ_SZ`, because the capacity table has no size class that large. -/
theorem init_ex_invalid_size_with_valid_percentages :
    (hasht_init_parameters (example_blank fun _ => true) 20 60).1 = HASHT_OK ∧
    (hasht_init_ex example_env (example_blank fun _ => true) 100000 (fun _ => true) 0 20 60).1
      = HASHT_INVALID_REQ_SZ := by
  decide!

/-- Claim C10, amended: `hasht_init_parameters` and `hasht_set_parameters` return
`HASHT_INVALID_REQ_SZ` exactly when a percentage lies outside `[0, 99]` or
`shrink * 2 ≥ grow`; then `hasht_set_parameters` leaves the table as it is and
`hasht_init_ex` returns `HASHT_INVALID_REQ_SZ` too; otherwise
`hasht_init_parameters` stores the two percentages and returns `HASHT_OK`. -/
theorem hasht_init_parameters_validation {K V : Type} [Inhabited K] [Inhabited V]
    (ht : hasht K V) (shrink grow : Int) :
    ((hasht_init_parameters ht shrink grow).1 = HASHT_INVALID_REQ_SZ ↔
        (shrink < 0 ∨ 99 < shrink ∨ grow < 0 ∨ 99 < grow ∨ grow ≤ shrink * 2)) ∧
    ((hasht_set_parameters ht shrink grow).1 = HASHT_INVALID_REQ_SZ ↔
        (shrink < 0 ∨ 99 < shrink ∨ grow < 0 ∨ 99 < grow ∨ grow ≤ shrink * 2)) ∧
    ((shrink < 0 ∨ 99 < shrink ∨ grow < 0 ∨ 99 < grow ∨ grow ≤ shrink * 2) →
        hasht_init_parameters ht shrink grow = (HASHT_INVALID_REQ_SZ, ht) ∧
        hasht_set_parameters ht shrink grow = (HASHT_INVALID_REQ_SZ, ht) ∧
        ∀ (env : Env K) (n : Int) (alloc : Nat → Bool) (userdata : Nat),
          (hasht_init_ex env ht n alloc userdata shrink grow).1 = HASHT_INVALID_REQ_SZ) ∧
    (¬ (shrink < 0 ∨ 99 < shrink ∨ grow < 0 ∨ 99 < grow ∨ grow ≤ shrink * 2) →
        hasht_init_parameters ht shrink grow =
          (HASHT_OK, { ht with grow_at_percentage := grow, shrink_at_percentage := shrink }) ∧
        (hasht_set_parameters ht shrink grow).1 = HASHT_OK ∧
        (hasht_set_parameters ht shrink grow).2.grow_at_percentage = grow ∧
        (hasht_set_parameters ht shrink grow).2.shrink_at_percentage = shrink) := by
  by_cases hbad : (shrink < 0 ∨ 99 < shrink ∨ grow < 0 ∨ 99 < grow ∨ grow ≤ shrink * 2)
  · have hcond : ((decide (shrink > 99) || decide (shrink < 0) || decide (grow > 99) ||
        decide (grow < 0)) || decide (shrink * 2 ≥ grow)) = true := by
      simp only [Bool.or_eq_true, decide_eq_true_eq]
      omega
    have h1 : hasht_init_parameters ht shrink grow = (HASHT_INVALID_REQ_SZ, ht) := by
      unfold hasht_init_parameters
      simp only [hcond, if_true]
    have h1' : ∀ ht' : hasht K V,
        hasht_init_parameters ht' shrink grow = (HASHT_INVALID_REQ_SZ, ht') := by
      intro ht'
      unfold hasht_init_parameters
      simp only [hcond, if_true]
    have h2 : hasht_set_parameters ht shrink grow = (HASHT_INVALID_REQ_SZ, ht) := by
      unfold hasht_set_parameters
      rw [h1]
      simp
    refine ⟨?_, ?_, ?_, ?_⟩
    · rw [h1]; simp [hbad]
    · rw [h2]; simp [hbad]
    · intro _
      refine ⟨h1, h2, ?_⟩
      intro env n alloc userdata
      unfold hasht_init_ex
      simp only [h1']
      simp
    · intro h; exact absurd hbad h
  · have hcond : ((decide (shrink > 99) || decide (shrink < 0) || decide (grow > 99) ||
        decide (grow < 0)) || decide (shrink * 2 ≥ grow)) = false := by
      rw [Bool.eq_false_iff]
      simp only [ne_eq, Bool.or_eq_true, decide_eq_true_eq]
      omega
    have h1 : hasht_init_parameters ht shrink grow =
        (HASHT_OK, { ht with grow_at_percentage := grow, shrink_at_percentage := shrink }) := by
      unfold hasht_init_parameters
      simp only [hcond]
      simp
    have h2 : hasht_set_parameters ht shrink grow =
        (HASHT_OK, { ht with grow_at_percentage := grow, shrink_at_percentage := shrink,
                             grow_at_gt_n := (ht.nbuckets * grow).tdiv 100,
                             shrink_at_lt_n := (ht.nbuckets * shrink).tdiv 100 }) := by
      unfold hasht_set_parameters
      rw [h1]
      simp
    refine ⟨?_, ?_, ?_, ?_⟩
    · rw [h1]; simp [hbad]
    · rw [h2]; simp [hbad]
    · intro h; exact absurd h hbad
    · intro _
      refine ⟨h1, ?_, ?_, ?_⟩ <;> rw [h2]

/-! ## Bits of the state word -/

theorem hasht_byte_testBit (i : Nat) : (0xFF : Nat).testBit i = decide (i < 8) := by
  have h : (0xFF : Nat) = 2 ^ 8 - 1 := by norm_num
  rw [h, Nat.testBit_two_pow_sub_one]

theorem hasht_mask_testBit (i : Nat) :
    (0xFFFFFF00 : Nat).testBit i = (decide (8 ≤ i) && decide (i < 32)) := by
  have h : (0xFFFFFF00 : Nat) = (2 ^ 24 - 1) <<< 8 := by decide
  rw [h, Nat.testBit_shiftLeft, Nat.testBit_two_pow_sub_one]
  by_cases h8 : 8 ≤ i
  · by_cases h32 : i < 32
    · simp [h8, h32]; omega
    · simp [h8, h32]; omega
  · simp [h8]

theorem hasht_testBit_of_lt {x n i : Nat} (hx : x < 2 ^ n) (hi : n ≤ i) :
    x.testBit i = false :=
  Nat.testBit_lt_two_pow (lt_of_lt_of_le hx (Nat.pow_le_pow_right (by norm_num) hi))

theorem hasht_testBit_of_mod {x n i : Nat} (hx : x % 2 ^ n = 0) (hi : i < n) :
    x.testBit i = false := by
  have h := Nat.testBit_mod_two_pow x n i
  rw [hx] at h
  simp [hi] at h
  exact h

theorem hasht_and_byte_lt (x : Nat) : x &&& 0xFF < 256 :=
  Nat.and_lt_two_pow x (n := 8) (by norm_num)

theorem hasht_mask_mod (x : Nat) : (x &&& 0xFFFFFF00) % 2 ^ 8 = 0 := by
  apply Nat.eq_of_testBit_eq
  intro i
  rw [Nat.testBit_mod_two_pow, Nat.testBit_and, hasht_mask_testBit]
  by_cases h8 : i < 8
  · have : ¬ 8 ≤ i := by omega
    simp [this]
  · simp [h8]

theorem hasht_mask_lt (x : Nat) : x &&& 0xFFFFFF00 < 2 ^ 32 :=
  Nat.and_lt_two_pow x (by norm_num)

/-- Flags in the low byte and a word with a zero low byte do not overlap. -/
theorem hasht_combine_flags {p f : Nat} (hp : p % 2 ^ 8 = 0) (hf : f < 256) :
    (p ||| f) &&& 0xFF = f := by
  apply Nat.eq_of_testBit_eq
  intro i
  rw [Nat.testBit_and, Nat.testBit_or, hasht_byte_testBit]
  by_cases h8 : i < 8
  · rw [hasht_testBit_of_mod hp h8]; simp [h8]
  · have hfi : f.testBit i = false := hasht_testBit_of_lt (n := 8) (by norm_num; exact hf) (by omega)
    simp [h8, hfi]

theorem hasht_combine_hash {p f : Nat} (hp : p % 2 ^ 8 = 0) (hp32 : p < 2 ^ 32) (hf : f < 256) :
    (p ||| f) &&& 0xFFFFFF00 = p := by
  apply Nat.eq_of_testBit_eq
  intro i
  rw [Nat.testBit_and, Nat.testBit_or, hasht_mask_testBit]
  by_cases h8 : i < 8
  · have : ¬ 8 ≤ i := by omega
    rw [hasht_testBit_of_mod hp h8]; simp [this]
  · have hfi : f.testBit i = false := hasht_testBit_of_lt (n := 8) (by norm_num; exact hf) (by omega)
    by_cases h32 : i < 32
    · have : 8 ≤ i := by omega
      simp [hfi, this, h32]
    · have hpi : p.testBit i = false := hasht_testBit_of_lt hp32 (by omega)
      simp [hfi, hpi]

theorem hasht_hash_to_partial_hash_eq (h : Nat) :
    hasht_hash_to_partial_hash h = (h % 2 ^ 24) * 2 ^ 8 := by
  unfold hasht_hash_to_partial_hash
  have h1 : h &&& 0x00FFFFFF = h % 2 ^ 24 := by
    have : (0x00FFFFFF : Nat) = 2 ^ 24 - 1 := by norm_num
    rw [this, Nat.and_pow_two_sub_one_eq_mod]
  rw [h1, Nat.shiftLeft_eq]
  apply Nat.mod_eq_of_lt
  have : h % 2 ^ 24 < 2 ^ 24 := Nat.mod_lt _ (by norm_num)
  omega

theorem hasht_hash_to_partial_hash_mod (h : Nat) : hasht_hash_to_partial_hash h % 2 ^ 8 = 0 := by
  rw [hasht_hash_to_partial_hash_eq]
  exact Nat.mul_mod_left _ _

theorem hasht_hash_to_partial_hash_lt (h : Nat) : hasht_hash_to_partial_hash h < 2 ^ 32 := by
  rw [hasht_hash_to_partial_hash_eq]
  have : h % 2 ^ 24 < 2 ^ 24 := Nat.mod_lt _ (by norm_num)
  omega

theorem hasht_and_byte_eq_mod (x : Nat) : x &&& 0xFF = x % 2 ^ 8 := by
  have : (0xFF : Nat) = 2 ^ 8 - 1 := by norm_num
  rw [this, Nat.and_pow_two_sub_one_eq_mod]

theorem hasht_pr_flags_lt {K V : Type} (p : hasht_pair_type K V) : hasht_pr_flags p < 256 :=
  hasht_and_byte_lt p.pair_data

theorem hasht_pr_flags_set_flags {K V : Type} (prt : hasht_pair_type K V) (flags : Nat) :
    hasht_pr_flags (hasht_pr_set_flags prt flags) = flags % 256 := by
  unfold hasht_pr_flags hasht_pr_set_flags hasht_pr_combine_flags_and_partial_hash
    hasht_pr_get_partial_hash
  exact hasht_combine_flags (hasht_mask_mod _) (Nat.mod_lt _ (by norm_num))

theorem hasht_pr_get_partial_hash_set_flags {K V : Type} (prt : hasht_pair_type K V)
    (flags : Nat) :
    hasht_pr_get_partial_hash (hasht_pr_set_flags prt flags) = hasht_pr_get_partial_hash prt := by
  unfold hasht_pr_set_flags hasht_pr_combine_flags_and_partial_hash hasht_pr_get_partial_hash
  exact hasht_combine_hash (hasht_mask_mod _) (hasht_mask_lt _) (Nat.mod_lt _ (by norm_num))

/-- The states of every flags byte, by enumeration. -/
theorem hasht_flags_state_cases :
    ∀ f, f < 256 →
      ((((f &&& 8) != 0 || (f &&& (4 ||| 2)) == (4 ||| 0)) = false →
        (((f &&& 2) == 0) = true ∧ (!((f &&& 2) == 0) && !((f &&& 4) != 0)) = false ∧
            ((f &&& 4) != 0) = false) ∨
        (((f &&& 2) == 0) = false ∧ (!((f &&& 2) == 0) && !((f &&& 4) != 0)) = true ∧
            ((f &&& 4) != 0) = false) ∨
        (((f &&& 2) == 0) = false ∧ (!((f &&& 2) == 0) && !((f &&& 4) != 0)) = false ∧
            ((f &&& 4) != 0) = true)) ∧
       (f &&& 4 ≠ 0 ∧ f &&& 2 = 0 →
          ((f &&& 8) != 0 || (f &&& (4 ||| 2)) == (4 ||| 0)) = true)) := by
  decide!

/-- A bucket that is not corrupt is empty, occupied or deleted, and only one of them. -/
theorem hasht_pr_state_cases {K V : Type} (p : hasht_pair_type K V)
    (hc : hasht_pr_is_corrupt p = false) :
    (hasht_pr_is_empty p = true ∧ hasht_pr_is_occupied p = false ∧
        hasht_pr_is_deleted p = false) ∨
    (hasht_pr_is_empty p = false ∧ hasht_pr_is_occupied p = true ∧
        hasht_pr_is_deleted p = false) ∨
    (hasht_pr_is_empty p = false ∧ hasht_pr_is_occupied p = false ∧
        hasht_pr_is_deleted p = true) :=
  (hasht_flags_state_cases (hasht_pr_flags p) (hasht_pr_flags_lt p)).1 hc

/-- Claim C23: a state word that is not corrupt is in exactly one of the states
empty, occupied, deleted; the all-zero word is empty; a word whose DELETED bit
is set and whose NOT_EMPTY bit is clear is corrupt. -/
theorem hasht_slot_states_partition {K V : Type} (p : hasht_pair_type K V) :
    (hasht_pr_is_corrupt p = false →
      (hasht_pr_is_empty p = true ∧ hasht_pr_is_occupied p = false ∧
          hasht_pr_is_deleted p = false) ∨
      (hasht_pr_is_empty p = false ∧ hasht_pr_is_occupied p = true ∧
          hasht_pr_is_deleted p = false) ∨
      (hasht_pr_is_empty p = false ∧ hasht_pr_is_occupied p = false ∧
          hasht_pr_is_deleted p = true)) ∧
    (∀ (k : K) (v : V), hasht_pr_is_empty (⟨0, k, v⟩ : hasht_pair_type K V) = true) ∧
    (p.pair_data &&& HASHT_VLT_IS_DELETED ≠ 0 ∧ p.pair_data &&& HASHT_VLT_IS_NOT_EMPTY = 0 →
      hasht_pr_is_corrupt p = true) := by
  have hk := hasht_flags_state_cases (hasht_pr_flags p) (hasht_pr_flags_lt p)
  refine ⟨hk.1, ?_, ?_⟩
  · intro k v
    show (((0 : Nat) &&& 0xFF) &&& HASHT_VLT_IS_NOT_EMPTY == 0) = true
    decide
  · intro h
    apply hk.2
    have e4 : hasht_pr_flags p &&& 4 = p.pair_data &&& 4 := by
      unfold hasht_pr_flags
      rw [Nat.and_assoc]
      rfl
    have e2 : hasht_pr_flags p &&& 2 = p.pair_data &&& 2 := by
      unfold hasht_pr_flags
      rw [Nat.and_assoc]
      rfl
    rw [e4, e2]
    exact h

/-- Claim C24: the partial hash is `(h mod 2^24) * 2^8` and its low 8 bits are
zero; combining a flags byte with a 32-bit partial hash whose low 8 bits are
zero loses neither; `hasht_pr_set_flags` sets the flags and keeps the stored
partial hash, the key and the value. -/
theorem hasht_partial_hash_and_flags_disjoint {K V : Type} (h f p flags : Nat)
    (prt : hasht_pair_type K V) (k : K) (v : V) :
    hasht_hash_to_partial_hash h = (h % 2 ^ 24) * 2 ^ 8 ∧
    hasht_hash_to_partial_hash h &&& 0xFF = 0 ∧
    (f < 256 → p < 2 ^ 32 → p &&& 0xFF = 0 →
      hasht_pr_flags (⟨hasht_pr_combine_flags_and_partial_hash f p, k, v⟩ :
          hasht_pair_type K V) = f ∧
        hasht_pr_get_partial_hash (⟨hasht_pr_combine_flags_and_partial_hash f p, k, v⟩ :
          hasht_pair_type K V) = p) ∧
    hasht_pr_flags (hasht_pr_set_flags prt flags) = flags % 256 ∧
    hasht_pr_get_partial_hash (hasht_pr_set_flags prt flags) = hasht_pr_get_partial_hash prt ∧
    (hasht_pr_set_flags prt flags).key = prt.key ∧
    (hasht_pr_set_flags prt flags).value = prt.value := by
  refine ⟨hasht_hash_to_partial_hash_eq h, ?_, ?_, hasht_pr_flags_set_flags prt flags,
    hasht_pr_get_partial_hash_set_flags prt flags, rfl, rfl⟩
  · rw [hasht_and_byte_eq_mod]
    exact hasht_hash_to_partial_hash_mod h
  · intro hf hp32 hp0
    rw [hasht_and_byte_eq_mod] at hp0
    exact ⟨hasht_combine_flags hp0 hf, hasht_combine_hash hp0 hp32 hf⟩

/-! ## Reading and writing buckets -/

section Buckets
variable {K V : Type} [Inhabited K] [Inhabited V]

theorem hasht_tab_at_nat (ht : hasht K V) (n : Nat) :
    hasht_tab_at ht (n : Int) = hasht_slot ht n := by
  unfold hasht_tab_at hasht_slot
  have : ¬ ((n : Int) < 0) := by omega
  rw [if_neg this, Int.toNat_ofNat]

theorem hasht_tab_set_nat (ht : hasht K V) (n : Nat) (p : hasht_pair_type K V) :
    hasht_tab_set ht (n : Int) p = { ht with tab := ht.tab.set n p } := by
  unfold hasht_tab_set
  have : ¬ ((n : Int) < 0) := by omega
  rw [if_neg this, Int.toNat_ofNat]

theorem hasht_slot_set (ht : hasht K V) (n m : Nat) (p : hasht_pair_type K V)
    (hn : n < ht.tab.length) :
    hasht_slot { ht with tab := ht.tab.set n p } m = if m = n then p else hasht_slot ht m := by
  unfold hasht_slot
  simp only [List.getD_eq_getElem?_getD, List.getElem?_set]
  by_cases h : n = m
  · subst h
    simp [hn]
  · have h' : ¬ m = n := fun e => h e.symm
    simp [h, h']

theorem hasht_pos_zero (ht : hasht K V) (h : Nat) (hh : h < ht.tab.length) :
    hasht_pos ht h 0 = h := by
  unfold hasht_pos
  rw [Nat.add_zero, Nat.mod_eq_of_lt hh]

theorem hasht_pos_lt (ht : hasht K V) (h d : Nat) (hpos : 0 < ht.tab.length) :
    hasht_pos ht h d < ht.tab.length :=
  Nat.mod_lt _ hpos

theorem hasht_pos_pos (ht : hasht K V) (h a b : Nat) :
    hasht_pos ht (hasht_pos ht h a) b = hasht_pos ht h (a + b) := by
  unfold hasht_pos
  rw [Nat.add_mod, Nat.mod_mod, ← Nat.add_mod, Nat.add_assoc]

theorem hasht_idx_mod_succ (ht : hasht K V) (hlen : (ht.tab.length : Int) = ht.nbuckets)
    (n : Nat) (hn : n < ht.tab.length) :
    hasht_idx_mod_buckets ht ((n : Int) + 1) = ((hasht_pos ht n 1 : Nat) : Int) := by
  unfold hasht_idx_mod_buckets hasht_pos
  have h0 : ¬ ((n : Int) + 1 < 0) := by omega
  rw [if_neg h0]
  by_cases h : n + 1 = ht.tab.length
  · have : (n : Int) + 1 ≥ ht.nbuckets := by omega
    rw [if_pos this, h, Nat.mod_self]
    rfl
  · have : ¬ ((n : Int) + 1 ≥ ht.nbuckets) := by omega
    rw [if_neg this, Nat.mod_eq_of_lt (by omega)]
    push_cast
    rfl

theorem hasht_idx_mod_pred (ht : hasht K V) (hlen : (ht.tab.length : Int) = ht.nbuckets)
    (n : Nat) (hn : n < ht.tab.length) :
    hasht_idx_mod_buckets ht ((n : Int) - 1) =
      ((hasht_pos ht n (ht.tab.length - 1) : Nat) : Int) := by
  unfold hasht_idx_mod_buckets hasht_pos
  by_cases h : n = 0
  · subst h
    have : ((0 : Nat) : Int) - 1 < 0 := by omega
    rw [if_pos this, Nat.zero_add, Nat.mod_eq_of_lt (by omega)]
    omega
  · have h0 : ¬ ((n : Int) - 1 < 0) := by omega
    have h1 : ¬ ((n : Int) - 1 ≥ ht.nbuckets) := by omega
    rw [if_neg h0, if_neg h1]
    have e : n + (ht.tab.length - 1) = (n - 1) + ht.tab.length := by omega
    rw [e, Nat.add_mod_right, Nat.mod_eq_of_lt (by omega)]
    omega

theorem hasht_filter_length_set {α : Type} (P : α → Bool) (l : List α) (n : Nat) (a : α)
    (hn : n < l.length) :
    ((l.set n a).filter P).length + (if P (l.getD n a) then 1 else 0) =
      (l.filter P).length + (if P a then 1 else 0) := by
  induction l generalizing n with
  | nil => simp at hn
  | cons x xs ih =>
    cases n with
    | zero =>
      simp only [List.set_cons_zero, List.getD_cons_zero, List.filter_cons]
      by_cases hx : P x <;> by_cases ha : P a <;> simp [hx, ha]
    | succ m =>
      have hm : m < xs.length := by simpa using hn
      have := ih m hm
      simp only [List.getD_eq_getElem?_getD] at this
      simp only [List.set_cons_succ, List.getD_cons_succ, List.filter_cons]
      by_cases hx : P x <;> simp [hx] <;> omega

end Buckets

/-! ## The probe loop -/

section Probe
variable {K V : Type} [Inhabited K] [Inhabited V]

theorem hasht_pr_is_occupied_of_empty (p : hasht_pair_type K V)
    (h : hasht_pr_is_empty p = true) : hasht_pr_is_occupied p = false := by
  unfold hasht_pr_is_occupied
  rw [h]
  rfl

theorem hasht_pr_is_occupied_of_deleted (p : hasht_pair_type K V)
    (h : hasht_pr_is_deleted p = true) : hasht_pr_is_occupied p = false := by
  unfold hasht_pr_is_occupied
  rw [h]
  simp

/-- The loop returns `HASHT_OK` at the first bucket that ends the walk when that
bucket is occupied with a matching key. -/
theorem hasht_find_pos_loop_found (env : Env K) (ht : hasht K V)
    (hlen : (ht.tab.length : Int) = ht.nbuckets) (key : K) (ph : Nat) :
    ∀ (d fuel p : Nat) (sug : Int), p < ht.tab.length → d < fuel →
      (∀ e, e < d →
        (hasht_pr_is_deleted (hasht_slot ht (hasht_pos ht p e)) = true ∨
          hasht_pr_is_empty (hasht_slot ht (hasht_pos ht p e)) = false) ∧
        (hasht_pr_is_occupied (hasht_slot ht (hasht_pos ht p e)) = true →
          hasht_cmp env ht key ph (hasht_slot ht (hasht_pos ht p e)) ≠ 0)) →
      hasht_pr_is_occupied (hasht_slot ht (hasht_pos ht p d)) = true →
      hasht_cmp env ht key ph (hasht_slot ht (hasht_pos ht p d)) = 0 →
      hasht_find_pos_loop env ht key ph fuel (p : Int) sug =
        some (HASHT_OK, ((hasht_pos ht p d : Nat) : Int)) := by
  intro d
  induction d with
  | zero =>
    intro fuel p sug hp hfuel _ hocc hcmp
    obtain ⟨f, rfl⟩ : ∃ f, fuel = f + 1 := ⟨fuel - 1, by omega⟩
    rw [hasht_pos_zero ht p hp] at hocc hcmp ⊢
    rw [hasht_find_pos_loop]
    simp only [hasht_tab_at_nat]
    rw [if_pos hocc, if_pos hcmp]
  | succ d ih =>
    intro fuel p sug hp hfuel hmin hocc hcmp
    obtain ⟨f, rfl⟩ : ∃ f, fuel = f + 1 := ⟨fuel - 1, by omega⟩
    have h0 := hmin 0 (by omega)
    rw [hasht_pos_zero ht p hp] at h0
    have hpos : 0 < ht.tab.length := by omega
    have hrec : ∀ sug' : Int,
        hasht_find_pos_loop env ht key ph f (hasht_idx_mod_buckets ht ((p : Int) + 1)) sug' =
          some (HASHT_OK, ((hasht_pos ht p (d + 1) : Nat) : Int)) := by
      intro sug'
      rw [hasht_idx_mod_succ ht hlen p hp]
      have := ih f (hasht_pos ht p 1) sug' (hasht_pos_lt ht p 1 hpos) (by omega)
        (by
          intro e he
          rw [hasht_pos_pos]
          exact hmin (1 + e) (by omega))
        (by rw [hasht_pos_pos, Nat.add_comm]; exact hocc)
        (by rw [hasht_pos_pos, Nat.add_comm]; exact hcmp)
      rw [this, hasht_pos_pos, Nat.add_comm]
    rw [hasht_find_pos_loop]
    simp only [hasht_tab_at_nat]
    by_cases hocc0 : hasht_pr_is_occupied (hasht_slot ht p) = true
    · rw [if_pos hocc0, if_neg (h0.2 hocc0)]
      exact hrec sug
    · rw [if_neg hocc0]
      by_cases hdel0 : hasht_pr_is_deleted (hasht_slot ht p) = true
      · rw [if_pos hdel0]
        exact hrec _
      · rw [if_neg hdel0]
        have hne : ¬ (hasht_pr_is_empty (hasht_slot ht p) = true) := by
          rcases h0.1 with h | h
          · exact absurd h hdel0
          · rw [h]; simp
        rw [if_neg hne]
        exact hrec sug

/-- The loop returns `HASHT_NOT_FOUND` at the first bucket that ends the walk
when that bucket is empty; the index it suggests is the one it was given, or
else the first deleted bucket it passed, or else the empty bucket. -/
theorem hasht_find_pos_loop_not_found (env : Env K) (ht : hasht K V)
    (hlen : (ht.tab.length : Int) = ht.nbuckets) (key : K) (ph : Nat) :
    ∀ (d fuel p : Nat) (sug : Int), p < ht.tab.length → d < fuel →
      (∀ e, e < d →
        (hasht_pr_is_deleted (hasht_slot ht (hasht_pos ht p e)) = true ∨
          hasht_pr_is_empty (hasht_slot ht (hasht_pos ht p e)) = false) ∧
        (hasht_pr_is_occupied (hasht_slot ht (hasht_pos ht p e)) = true →
          hasht_cmp env ht key ph (hasht_slot ht (hasht_pos ht p e)) ≠ 0)) →
      hasht_pr_is_empty (hasht_slot ht (hasht_pos ht p d)) = true →
      hasht_pr_is_deleted (hasht_slot ht (hasht_pos ht p d)) = false →
      ∃ s : Int, hasht_find_pos_loop env ht key ph fuel (p : Int) sug
          = some (HASHT_NOT_FOUND, s) ∧
        ((sug ≠ HASHT_NOT_FOUND ∧ s = sug) ∨
         (sug = HASHT_NOT_FOUND ∧
          ((∃ j, j < d ∧ hasht_pr_is_deleted (hasht_slot ht (hasht_pos ht p j)) = true ∧
              (∀ j', j' < j →
                hasht_pr_is_deleted (hasht_slot ht (hasht_pos ht p j')) = false) ∧
              s = ((hasht_pos ht p j : Nat) : Int)) ∨
           ((∀ j, j < d → hasht_pr_is_deleted (hasht_slot ht (hasht_pos ht p j)) = false) ∧
              s = ((hasht_pos ht p d : Nat) : Int))))) := by
  intro d
  induction d with
  | zero =>
    intro fuel p sug hp hfuel _ hemp hnd
    obtain ⟨f, rfl⟩ : ∃ f, fuel = f + 1 := ⟨fuel - 1, by omega⟩
    rw [hasht_pos_zero ht p hp] at hemp hnd ⊢
    have hocc := hasht_pr_is_occupied_of_empty _ hemp
    rw [hasht_find_pos_loop]
    simp only [hasht_tab_at_nat]
    have hocc' : ¬ (hasht_pr_is_occupied (hasht_slot ht p) = true) := by rw [hocc]; simp
    have hdel0 : ¬ (hasht_pr_is_deleted (hasht_slot ht p) = true) := by rw [hnd]; simp
    rw [if_neg hocc', if_neg hdel0, if_pos hemp]
    by_cases hs : sug = HASHT_NOT_FOUND
    · refine ⟨(p : Int), ?_, Or.inr ⟨hs, Or.inr ⟨?_, rfl⟩⟩⟩
      · rw [if_pos hs]
      · intro j hj; omega
    · refine ⟨sug, ?_, Or.inl ⟨hs, rfl⟩⟩
      rw [if_neg hs]
  | succ d ih =>
    intro fuel p sug hp hfuel hmin hemp hnd
    obtain ⟨f, rfl⟩ : ∃ f, fuel = f + 1 := ⟨fuel - 1, by omega⟩
    have h0 := hmin 0 (by omega)
    rw [hasht_pos_zero ht p hp] at h0
    have hpos : 0 < ht.tab.length := by omega
    have hshift : ∀ e, hasht_pos ht (hasht_pos ht p 1) e = hasht_pos ht p (e + 1) := by
      intro e
      rw [hasht_pos_pos, Nat.add_comm]
    have hrec := fun sug' : Int =>
      ih f (hasht_pos ht p 1) sug' (hasht_pos_lt ht p 1 hpos) (by omega)
        (by
          intro e he
          rw [hshift]
          exact hmin (e + 1) (by omega))
        (by rw [hshift]; exact hemp)
        (by rw [hshift]; exact hnd)
    simp only [hshift] at hrec
    rw [hasht_find_pos_loop]
    simp only [hasht_tab_at_nat]
    rw [hasht_idx_mod_succ ht hlen p hp]
    -- the case in which bucket `p` is passed without a change of the suggestion
    have hsame : hasht_pr_is_deleted (hasht_slot ht p) = false →
        ∃ s : Int, hasht_find_pos_loop env ht key ph f ((hasht_pos ht p 1 : Nat) : Int) sug
            = some (HASHT_NOT_FOUND, s) ∧
          ((sug ≠ HASHT_NOT_FOUND ∧ s = sug) ∨
           (sug = HASHT_NOT_FOUND ∧
            ((∃ j, j < d + 1 ∧
                hasht_pr_is_deleted (hasht_slot ht (hasht_pos ht p j)) = true ∧
                (∀ j', j' < j →
                  hasht_pr_is_deleted (hasht_slot ht (hasht_pos ht p j')) = false) ∧
                s = ((hasht_pos ht p j : Nat) : Int)) ∨
             ((∀ j, j < d + 1 →
                hasht_pr_is_deleted (hasht_slot ht (hasht_pos ht p j)) = false) ∧
                s = ((hasht_pos ht p (d + 1) : Nat) : Int))))) := by
      intro hnd0
      obtain ⟨s, hs, hcase⟩ := hrec sug
      refine ⟨s, hs, ?_⟩
      rcases hcase with h | ⟨hsug, h⟩
      · exact Or.inl h
      · refine Or.inr ⟨hsug, ?_⟩
        rcases h with ⟨j, hj, hdj, hminj, hsj⟩ | ⟨hall, hsd⟩
        · refine Or.inl ⟨j + 1, by omega, hdj, ?_, hsj⟩
          intro j' hj'
          cases j' with
          | zero => rw [hasht_pos_zero ht p hp]; exact hnd0
          | succ j'' => exact hminj j'' (by omega)
        · refine Or.inr ⟨?_, hsd⟩
          intro j hj
          cases j with
          | zero => rw [hasht_pos_zero ht p hp]; exact hnd0
          | succ j'' => exact hall j'' (by omega)
    by_cases hocc0 : hasht_pr_is_occupied (hasht_slot ht p) = true
    · rw [if_pos hocc0, if_neg (h0.2 hocc0)]
      apply hsame
      cases hd : hasht_pr_is_deleted (hasht_slot ht p) with
      | false => rfl
      | true =>
        rw [hasht_pr_is_occupied_of_deleted _ hd] at hocc0
        exact absurd hocc0 (by simp)
    · rw [if_neg hocc0]
      by_cases hdel0 : hasht_pr_is_deleted (hasht_slot ht p) = true
      · rw [if_pos hdel0]
        by_cases hsug : sug = HASHT_NOT_FOUND
        · rw [if_pos hsug]
          obtain ⟨s, hs, hcase⟩ := hrec ((p : Nat) : Int)
          have hpne : ((p : Nat) : Int) ≠ HASHT_NOT_FOUND := by
            show ((p : Nat) : Int) ≠ -1
            omega
          rcases hcase with ⟨_, hsp⟩ | ⟨hbad, _⟩
          · refine ⟨s, hs, Or.inr ⟨hsug, Or.inl ⟨0, by omega, ?_, ?_, ?_⟩⟩⟩
            · rw [hasht_pos_zero ht p hp]; exact hdel0
            · intro j' hj'; omega
            · rw [hasht_pos_zero ht p hp]; exact hsp
          · exact absurd hbad hpne
        · rw [if_neg hsug]
          obtain ⟨s, hs, hcase⟩ := hrec sug
          rcases hcase with h | ⟨hbad, _⟩
          · exact ⟨s, hs, Or.inl h⟩
          · exact absurd hbad hsug
      · rw [if_neg hdel0]
        have hne : ¬ (hasht_pr_is_empty (hasht_slot ht p) = true) := by
          rcases h0.1 with h | h
          · exact absurd h hdel0
          · rw [h]; simp
        rw [if_neg hne]
        apply hsame
        cases hd : hasht_pr_is_deleted (hasht_slot ht p) with
        | false => rfl
        | true => exact absurd hd hdel0

end Probe

/-! ## Counting buckets -/

section Counting
variable {K V : Type} [Inhabited K] [Inhabited V]

theorem hasht_pr_not_deleted_of_empty (p : hasht_pair_type K V)
    (hc : hasht_pr_is_corrupt p = false) (h : hasht_pr_is_empty p = true) :
    hasht_pr_is_deleted p = false := by
  rcases hasht_pr_state_cases p hc with h1 | h1 | h1
  · exact h1.2.2
  · rw [h1.1] at h; exact absurd h (by simp)
  · rw [h1.1] at h; exact absurd h (by simp)

theorem hasht_pr_empty_of_not (p : hasht_pair_type K V)
    (ho : hasht_pr_is_occupied p = false) (hd : hasht_pr_is_deleted p = false) :
    hasht_pr_is_empty p = true := by
  unfold hasht_pr_is_occupied at ho
  rw [hd] at ho
  simpa using ho

theorem hasht_pr_of_occupied (p : hasht_pair_type K V) (ho : hasht_pr_is_occupied p = true) :
    hasht_pr_is_empty p = false ∧ hasht_pr_is_deleted p = false := by
  unfold hasht_pr_is_occupied at ho
  simpa using ho

theorem hasht_count_partition_list (l : List (hasht_pair_type K V))
    (hc : ∀ x ∈ l, hasht_pr_is_corrupt x = false) :
    (l.filter fun b => hasht_pr_is_occupied b).length +
      (l.filter fun b => hasht_pr_is_deleted b).length +
      (l.filter fun b => hasht_pr_is_empty b).length = l.length := by
  induction l with
  | nil => rfl
  | cons x xs ih =>
    have hx := hc x (List.mem_cons_self x xs)
    have ih' := ih (fun y hy => hc y (List.mem_cons_of_mem x hy))
    simp only [List.filter_cons, List.length_cons]
    rcases hasht_pr_state_cases x hx with h | h | h <;>
      simp [h.1, h.2.1, h.2.2] <;> omega

theorem hasht_slot_mem (ht : hasht K V) (i : Nat) (hi : i < ht.tab.length) :
    hasht_slot ht i ∈ ht.tab := by
  unfold hasht_slot
  rw [List.getD_eq_getElem _ _ hi]
  exact List.getElem_mem hi

theorem hasht_mem_slot (ht : hasht K V) (x : hasht_pair_type K V) (hx : x ∈ ht.tab) :
    ∃ i, i < ht.tab.length ∧ hasht_slot ht i = x := by
  obtain ⟨i, hi, he⟩ := List.getElem_of_mem hx
  refine ⟨i, hi, ?_⟩
  unfold hasht_slot
  rw [List.getD_eq_getElem _ _ hi]
  exact he

theorem hasht_count_partition (ht : hasht K V)
    (hc : ∀ i, i < ht.tab.length → hasht_pr_is_corrupt (hasht_slot ht i) = false) :
    hasht_count_occupied ht + hasht_count_deleted ht + hasht_count_empty ht
      = ht.tab.length := by
  unfold hasht_count_occupied hasht_count_deleted hasht_count_empty
  apply hasht_count_partition_list
  intro x hx
  obtain ⟨i, hi, he⟩ := hasht_mem_slot ht x hx
  rw [← he]
  exact hc i hi

theorem hasht_exists_empty (ht : hasht K V) (h : 0 < hasht_count_empty ht) :
    ∃ i, i < ht.tab.length ∧ hasht_pr_is_empty (hasht_slot ht i) = true := by
  unfold hasht_count_empty at h
  obtain ⟨x, hx⟩ := List.exists_mem_of_length_pos h
  rw [List.mem_filter] at hx
  obtain ⟨i, hi, he⟩ := hasht_mem_slot ht x hx.1
  exact ⟨i, hi, by rw [he]; exact hx.2⟩

/-- Every position is reached from every other within one turn of the array. -/
theorem hasht_pos_reach (ht : hasht K V) (h i : Nat) (hh : h < ht.tab.length)
    (hi : i < ht.tab.length) : ∃ d, d < ht.tab.length ∧ hasht_pos ht h d = i := by
  unfold hasht_pos
  by_cases hle : h ≤ i
  · refine ⟨i - h, by omega, ?_⟩
    have : h + (i - h) = i := by omega
    rw [this, Nat.mod_eq_of_lt hi]
  · refine ⟨i + ht.tab.length - h, by omega, ?_⟩
    have : h + (i + ht.tab.length - h) = i + ht.tab.length := by omega
    rw [this, Nat.add_mod_right, Nat.mod_eq_of_lt hi]

theorem hasht_pos_inj (ht : hasht K V) (h a b : Nat) (ha : a < ht.tab.length)
    (hb : b < ht.tab.length) (he : hasht_pos ht h a = hasht_pos ht h b) : a = b := by
  unfold hasht_pos at he
  have h1 : (h + a) % ht.tab.length = (h + b) % ht.tab.length := he
  have h2 : (h + a) ≡ (h + b) [MOD ht.tab.length] := h1
  have h3 : a ≡ b [MOD ht.tab.length] := Nat.ModEq.add_left_cancel' h h2
  have h4 : a % ht.tab.length = b % ht.tab.length := h3
  rw [Nat.mod_eq_of_lt ha, Nat.mod_eq_of_lt hb] at h4
  exact h4

theorem hasht_home_lt (env : Env K) (ht : hasht K V) (hs : hasht_shape_ok env ht) (k : K) :
    hasht_home env ht k < ht.tab.length := by
  obtain ⟨hlen, hpos, _, hnb, hdiv⟩ := hs
  unfold hasht_home
  rw [hdiv]
  unfold adiv_funcs
  have : env.adiv_values.getD ht.nbuckets_po2.toNat 0 = ht.tab.length := by
    have : ((env.adiv_values.getD ht.nbuckets_po2.toNat 0 : Nat) : Int)
        = (ht.tab.length : Int) := by rw [← hnb, hlen]
    exact_mod_cast this
  rw [this]
  exact Nat.mod_lt _ hpos

theorem hasht_home_eq (env : Env K) (ht : hasht K V) (hs : hasht_shape_ok env ht) (k : K) :
    hasht_home env ht k = env.hasht_hash k % ht.tab.length := by
  obtain ⟨hlen, hpos, _, hnb, hdiv⟩ := hs
  unfold hasht_home
  rw [hdiv]
  unfold adiv_funcs
  have : env.adiv_values.getD ht.nbuckets_po2.toNat 0 = ht.tab.length := by
    have : ((env.adiv_values.getD ht.nbuckets_po2.toNat 0 : Nat) : Int)
        = (ht.tab.length : Int) := by rw [← hnb, hlen]
    exact_mod_cast this
  rw [this]

end Counting

/-! ## What `hasht_find_pos__` returns -/

section FindPos
variable {K V : Type} [Inhabited K] [Inhabited V]

theorem hasht_find_pos_guard (env : Env K) (ht : hasht K V) (key : K) (o : Int)
    (hg : hasht_n_empty_buckets ht < 1) :
    hasht_find_pos__ env ht key o
      = some (HASHT_INVALID_TABLE_STATE, o, env.hasht_hash key) := by
  unfold hasht_find_pos__
  simp only [if_pos hg]

theorem hasht_empty_of_guard (env : Env K) (ht : hasht K V) (hs : hasht_shape_ok env ht)
    (hk : hasht_slots_ok env ht) (hg : ¬ hasht_n_empty_buckets ht < 1) :
    0 < hasht_count_empty ht := by
  obtain ⟨hlen, _, _, _, _⟩ := hs
  obtain ⟨hc, hne, hnd, _⟩ := hk
  have hp := hasht_count_partition ht hc
  unfold hasht_n_empty_buckets at hg
  omega

/-- The walk of `hasht_find_pos__` when the guard lets it start: it ends at the
first bucket, `d` steps from the home position, that is empty or holds a
matching key. -/
theorem hasht_find_pos_walk (env : Env K) (ht : hasht K V) (hs : hasht_shape_ok env ht)
    (hc : ∀ i, i < ht.tab.length → hasht_pr_is_corrupt (hasht_slot ht i) = false)
    (key : K) (o : Int) (hg : ¬ hasht_n_empty_buckets ht < 1)
    (hemp : 0 < hasht_count_empty ht) :
    ∃ d, d < ht.tab.length ∧
      (∀ e, e < d →
        hasht_pr_is_empty (hasht_slot ht (hasht_pos ht (hasht_home env ht key) e)) = false ∧
        (hasht_pr_is_occupied (hasht_slot ht (hasht_pos ht (hasht_home env ht key) e)) = true →
          hasht_cmp env ht key (hasht_hash_to_partial_hash (env.hasht_hash key))
            (hasht_slot ht (hasht_pos ht (hasht_home env ht key) e)) ≠ 0)) ∧
      ((hasht_pr_is_occupied (hasht_slot ht (hasht_pos ht (hasht_home env ht key) d)) = true ∧
        hasht_cmp env ht key (hasht_hash_to_partial_hash (env.hasht_hash key))
            (hasht_slot ht (hasht_pos ht (hasht_home env ht key) d)) = 0 ∧
        hasht_find_pos__ env ht key o =
          some (HASHT_OK, ((hasht_pos ht (hasht_home env ht key) d : Nat) : Int),
            env.hasht_hash key)) ∨
       (hasht_pr_is_empty (hasht_slot ht (hasht_pos ht (hasht_home env ht key) d)) = true ∧
        ∃ s : Int, hasht_find_pos__ env ht key o
            = some (HASHT_NOT_FOUND, s, env.hasht_hash key) ∧
          ((∃ j, j < d ∧
              hasht_pr_is_deleted
                (hasht_slot ht (hasht_pos ht (hasht_home env ht key) j)) = true ∧
              (∀ j', j' < j → hasht_pr_is_deleted
                (hasht_slot ht (hasht_pos ht (hasht_home env ht key) j')) = false) ∧
              s = ((hasht_pos ht (hasht_home env ht key) j : Nat) : Int)) ∨
           ((∀ j, j < d → hasht_pr_is_deleted
                (hasht_slot ht (hasht_pos ht (hasht_home env ht key) j)) = false) ∧
              s = ((hasht_pos ht (hasht_home env ht key) d : Nat) : Int))))) := by
  have hlen := hs.1
  have hpos := hs.2.1
  have hhome := hasht_home_lt env ht hs key
  obtain ⟨ie, hie, hiemp⟩ := hasht_exists_empty ht hemp
  obtain ⟨de, hde, hdee⟩ := hasht_pos_reach ht (hasht_home env ht key) ie hhome hie
  have hex : ∃ d, d < ht.tab.length ∧
      ((hasht_pr_is_occupied (hasht_slot ht (hasht_pos ht (hasht_home env ht key) d)) = true ∧
        hasht_cmp env ht key (hasht_hash_to_partial_hash (env.hasht_hash key))
            (hasht_slot ht (hasht_pos ht (hasht_home env ht key) d)) = 0) ∨
        hasht_pr_is_empty (hasht_slot ht (hasht_pos ht (hasht_home env ht key) d)) = true) :=
    ⟨de, hde, Or.inr (by rw [hdee]; exact hiemp)⟩
  classical
  have hd := Nat.find_spec hex
  have hmin := fun e (he : e < Nat.find hex) => Nat.find_min hex he
  generalize Nat.find hex = d at hd hmin
  obtain ⟨hdlt, hstop⟩ := hd
  have hpath : ∀ e, e < d →
      hasht_pr_is_empty (hasht_slot ht (hasht_pos ht (hasht_home env ht key) e)) = false ∧
      (hasht_pr_is_occupied (hasht_slot ht (hasht_pos ht (hasht_home env ht key) e)) = true →
        hasht_cmp env ht key (hasht_hash_to_partial_hash (env.hasht_hash key))
          (hasht_slot ht (hasht_pos ht (hasht_home env ht key) e)) ≠ 0) := by
    intro e he
    have hn := hmin e he
    have helt : e < ht.tab.length := by omega
    constructor
    · cases hx : hasht_pr_is_empty
          (hasht_slot ht (hasht_pos ht (hasht_home env ht key) e)) with
      | false => rfl
      | true => exact absurd ⟨helt, Or.inr hx⟩ hn
    · intro ho hcm
      exact hn ⟨helt, Or.inl ⟨ho, hcm⟩⟩
  have hpath' : ∀ e, e < d →
      (hasht_pr_is_deleted (hasht_slot ht (hasht_pos ht (hasht_home env ht key) e)) = true ∨
        hasht_pr_is_empty (hasht_slot ht (hasht_pos ht (hasht_home env ht key) e)) = false) ∧
      (hasht_pr_is_occupied (hasht_slot ht (hasht_pos ht (hasht_home env ht key) e)) = true →
        hasht_cmp env ht key (hasht_hash_to_partial_hash (env.hasht_hash key))
          (hasht_slot ht (hasht_pos ht (hasht_home env ht key) e)) ≠ 0) :=
    fun e he => ⟨Or.inr (hpath e he).1, (hpath e he).2⟩
  have hfuel : ht.nbuckets.toNat = ht.tab.length := by omega
  have hunf : hasht_find_pos__ env ht key o =
      match hasht_find_pos_loop env ht key (hasht_hash_to_partial_hash (env.hasht_hash key))
        ht.tab.length ((hasht_home env ht key : Nat) : Int) HASHT_NOT_FOUND with
      | none => none
      | some (rv, found) => some (rv, found, env.hasht_hash key) := by
    unfold hasht_find_pos__
    simp only [if_neg hg, hfuel]
    rfl
  refine ⟨d, hdlt, hpath, ?_⟩
  rcases hstop with ⟨hocc, hcmp⟩ | hempd
  · left
    refine ⟨hocc, hcmp, ?_⟩
    rw [hunf, hasht_find_pos_loop_found env ht hlen key _ d ht.tab.length
      (hasht_home env ht key) HASHT_NOT_FOUND hhome hdlt hpath' hocc hcmp]
  · right
    refine ⟨hempd, ?_⟩
    have hnd := hasht_pr_not_deleted_of_empty _
      (hc _ (hasht_pos_lt ht (hasht_home env ht key) d hpos)) hempd
    obtain ⟨s, hs1, hs2⟩ := hasht_find_pos_loop_not_found env ht hlen key _ d ht.tab.length
      (hasht_home env ht key) HASHT_NOT_FOUND hhome hdlt hpath' hempd hnd
    refine ⟨s, ?_, ?_⟩
    · rw [hunf, hs1]
    · rcases hs2 with ⟨hbad, _⟩ | ⟨_, h⟩
      · exact absurd rfl hbad
      · exact h

end FindPos

/-! ## The insert after its trigger check -/

section InsertProbe
variable {K V : Type} [Inhabited K] [Inhabited V]

theorem hasht_insert___unfold (insert : hasht K V → K → V → Option (Int × hasht K V))
    (env : Env K) (ht : hasht K V) (key : K) (value : V) (o : Int) (rep : Bool) :
    hasht_insert__ insert env ht key value o rep =
      match hasht_if_needed_try_resize insert env ht HASHT_HINT_INSERTING with
      | none => none
      | some (rv, ht1) =>
        if rv ≠ HASHT_OK ∧ hasht_at_insert_must_resize ht1 = true then
          if rv = HASHT_INVALID_TABLE_STATE ∨ rv = HASHT_ALLOC_ERR then
            some (rv, o, ht1)
          else
            some (HASHT_FAILED_AT_RESIZE, o, ht1)
        else
          hasht_insert_probe env ht1 key value rep := by
  rfl

theorem hasht_if_needed_try_resize_fail (insert : hasht K V → K → V → Option (Int × hasht K V))
    (env : Env K) (ht : hasht K V) (hint rv : Int)
    (h : (hasht_if_needed_try_resize insert env ht hint).map Prod.fst = some rv)
    (hrv : rv ≠ HASHT_OK) :
    hasht_if_needed_try_resize insert env ht hint = some (rv, ht) := by
  unfold hasht_if_needed_try_resize at h ⊢
  have key : ∀ n, (hasht_resize__ insert env ht n).map Prod.fst = some rv →
      hasht_resize__ insert env ht n = some (rv, ht) := by
    intro n hn
    have h2 := hasht_resize_failure_paths insert env ht n rv hn hrv
    cases hr : hasht_resize__ insert env ht n with
    | none => rw [hr] at hn; simp at hn
    | some r =>
      rw [hr] at hn h2
      simp only [Option.map_some', Option.some.injEq] at hn h2
      rw [← hn, ← h2]
  split
  · rename_i hc
    rw [if_pos hc] at h
    exact key _ h
  · rename_i hc
    rw [if_neg hc] at h
    split
    · rename_i hc2
      rw [if_pos hc2] at h
      exact key _ h
    · rename_i hc2
      rw [if_neg hc2] at h
      simp only [Option.map_some', Option.some.injEq] at h
      exact absurd h.symm hrv

/-- Claim C11: when the trigger check before an insert attempts a resize and the
resize fails, then with fewer than 2 unused buckets `hasht_insert__`,
`hasht_insert` and `hasht_find_or_insert` return an error and the table they
were given; with 2 or more they do what the insert does on that table when no
resize is attempted. -/
theorem hasht_insert_under_failed_resize (env : Env K) (fuel : Nat) (ht : hasht K V) (key : K)
    (value : V) (o : Int) (rep : Bool) (rv : Int)
    (h : (hasht_if_needed_try_resize (hasht_insert env fuel) env ht
      HASHT_HINT_INSERTING).map Prod.fst = some rv)
    (hrv : rv ≠ HASHT_OK) :
    (ht.nbuckets - ht.nelements ≤ 1 →
      ∃ code, code ≠ HASHT_OK ∧
        hasht_insert__ (hasht_insert env fuel) env ht key value o rep = some (code, o, ht) ∧
        hasht_insert env (fuel + 1) ht key value = some (code, ht) ∧
        hasht_find_or_insert env fuel ht key value
          = some (code, hasht_mk_invalid_iter, ht)) ∧
    (2 ≤ ht.nbuckets - ht.nelements →
      hasht_insert__ (hasht_insert env fuel) env ht key value o rep
        = hasht_insert_probe env ht key value rep ∧
      hasht_insert env (fuel + 1) ht key value
        = (hasht_insert_probe env ht key value false).map (fun r => (r.1, r.2.2)) ∧
      hasht_find_or_insert env fuel ht key value
        = (hasht_insert_probe env ht key value true).map
            (fun r => if r.1 = HASHT_OK then (r.1, hasht_mk_iter r.2.1 (some r.2.1), r.2.2)
                      else (r.1, hasht_mk_invalid_iter, r.2.2))) := by
  have hres := hasht_if_needed_try_resize_fail (hasht_insert env fuel) env ht
    HASHT_HINT_INSERTING rv h hrv
  constructor
  · intro hun
    have hmust : hasht_at_insert_must_resize ht = true := by
      unfold hasht_at_insert_must_resize hasht_n_unused_buckets
      simp only [decide_eq_true_eq]
      exact hun
    have hI : ∀ (o' : Int) (rep' : Bool), ∃ code, code ≠ HASHT_OK ∧
        (code = rv ∨ code = HASHT_FAILED_AT_RESIZE) ∧
        hasht_insert__ (hasht_insert env fuel) env ht key value o' rep' = some (code, o', ht) := by
      intro o' rep'
      rw [hasht_insert___unfold, hres]
      simp only
      rw [if_pos ⟨hrv, hmust⟩]
      by_cases hc : rv = HASHT_INVALID_TABLE_STATE ∨ rv = HASHT_ALLOC_ERR
      · rw [if_pos hc]
        exact ⟨rv, hrv, Or.inl rfl, rfl⟩
      · rw [if_neg hc]
        exact ⟨HASHT_FAILED_AT_RESIZE, by decide, Or.inr rfl, rfl⟩
    have hcode : ∃ code, code ≠ HASHT_OK ∧ ∀ (o' : Int) (rep' : Bool),
        hasht_insert__ (hasht_insert env fuel) env ht key value o' rep' = some (code, o', ht) := by
      by_cases hc : rv = HASHT_INVALID_TABLE_STATE ∨ rv = HASHT_ALLOC_ERR
      · refine ⟨rv, hrv, ?_⟩
        intro o' rep'
        rw [hasht_insert___unfold, hres]
        simp only
        rw [if_pos ⟨hrv, hmust⟩, if_pos hc]
      · refine ⟨HASHT_FAILED_AT_RESIZE, by decide, ?_⟩
        intro o' rep'
        rw [hasht_insert___unfold, hres]
        simp only
        rw [if_pos ⟨hrv, hmust⟩, if_neg hc]
    obtain ⟨code, hne, hall⟩ := hcode
    refine ⟨code, hne, hall o rep, ?_, ?_⟩
    · show (match hasht_insert__ (hasht_insert env fuel) env ht key value 0 false with
        | none => none
        | some (rv, _, ht) => some (rv, ht)) = some (code, ht)
      rw [hall 0 false]
    · unfold hasht_find_or_insert
      rw [hall 0 true]
      simp only
      rw [if_neg hne]
  · intro hun
    have hmust : ¬ (rv ≠ HASHT_OK ∧ hasht_at_insert_must_resize ht = true) := by
      unfold hasht_at_insert_must_resize hasht_n_unused_buckets
      simp only [decide_eq_true_eq]
      omega
    have hall : ∀ (o' : Int) (rep' : Bool),
        hasht_insert__ (hasht_insert env fuel) env ht key value o' rep'
          = hasht_insert_probe env ht key value rep' := by
      intro o' rep'
      rw [hasht_insert___unfold, hres]
      simp only
      rw [if_neg hmust]
    refine ⟨hall o rep, ?_, ?_⟩
    · show (match hasht_insert__ (hasht_insert env fuel) env ht key value 0 false with
        | none => none
        | some (rv, _, ht) => some (rv, ht)) = _
      rw [hall 0 false]
      cases hasht_insert_probe env ht key value false with
      | none => rfl
      | some r => rfl
    · unfold hasht_find_or_insert
      rw [hall 0 true]
      cases hasht_insert_probe env ht key value true with
      | none => rfl
      | some r =>
        obtain ⟨a, b, c⟩ := r
        simp only [Option.map_some']
        by_cases ha : a = HASHT_OK
        · rw [if_pos ha, if_pos ha]
        · rw [if_neg ha, if_neg ha]

/-- Five buckets hold four keys and the allocator refuses a larger array: the
trigger check fails with `HASHT_ALLOC_ERR` and one bucket is unused. -/
theorem hasht_insert_under_failed_resize_witness :
    (hasht_if_needed_try_resize (hasht_insert example_env 3) example_env
      (example_table example_no_memory) HASHT_HINT_INSERTING).map Prod.fst
        = some HASHT_ALLOC_ERR ∧
    HASHT_ALLOC_ERR ≠ HASHT_OK ∧
    ((example_table example_no_memory).nbuckets - (example_table example_no_memory).nelements
        ≤ 1 →
      ∃ code, code ≠ HASHT_OK ∧
        hasht_insert__ (hasht_insert example_env 3) example_env
          (example_table example_no_memory) 7 107 0 false
            = some (code, 0, example_table example_no_memory) ∧
        hasht_insert example_env (3 + 1) (example_table example_no_memory) 7 107
          = some (code, example_table example_no_memory) ∧
        hasht_find_or_insert example_env 3 (example_table example_no_memory) 7 107
          = some (code, hasht_mk_invalid_iter, example_table example_no_memory)) :=
  ⟨by decide!, by decide!,
    (hasht_insert_under_failed_resize example_env 3 (example_table example_no_memory) 7 107 0
      false HASHT_ALLOC_ERR (by decide!) (by decide!)).1⟩

end InsertProbe

/-! ## The state of a bucket after a write -/

section Marks
variable {K V : Type} [Inhabited K] [Inhabited V]

theorem hasht_pr_emptied_state (p : hasht_pair_type K V) :
    hasht_pr_is_empty (hasht_pr_emptied p) = true ∧
    hasht_pr_is_deleted (hasht_pr_emptied p) = false ∧
    hasht_pr_is_occupied (hasht_pr_emptied p) = false ∧
    (hasht_pr_is_corrupt p = false → hasht_pr_is_corrupt (hasht_pr_emptied p) = false) ∧
    (hasht_pr_emptied p).key = p.key ∧ (hasht_pr_emptied p).value = p.value ∧
    hasht_pr_get_partial_hash (hasht_pr_emptied p) = hasht_pr_get_partial_hash p := by
  have key : ∀ f, f < 256 →
      ((((f &&& (0xFFFFFFFF - (2 ||| 4))) % 256 &&& 2) == 0) = true ∧
       (((f &&& (0xFFFFFFFF - (2 ||| 4))) % 256 &&& 4) != 0) = false ∧
       (((f &&& 8) != 0 || (f &&& (4 ||| 2)) == (4 ||| 0)) = false →
         ((((f &&& (0xFFFFFFFF - (2 ||| 4))) % 256 &&& 8) != 0 ||
           ((f &&& (0xFFFFFFFF - (2 ||| 4))) % 256 &&& (4 ||| 2)) == (4 ||| 0)) = false))) := by
    decide!
  have hk := key (hasht_pr_flags p) (hasht_pr_flags_lt p)
  have hf : hasht_pr_flags (hasht_pr_emptied p) =
      (hasht_pr_flags p &&& (0xFFFFFFFF - (2 ||| 4))) % 256 :=
    hasht_pr_flags_set_flags p _
  have h1 : hasht_pr_is_empty (hasht_pr_emptied p) = true := by
    unfold hasht_pr_is_empty
    rw [hf]
    exact hk.1
  have h2 : hasht_pr_is_deleted (hasht_pr_emptied p) = false := by
    unfold hasht_pr_is_deleted
    rw [hf]
    exact hk.2.1
  refine ⟨h1, h2, hasht_pr_is_occupied_of_empty _ h1, ?_, rfl, rfl,
    hasht_pr_get_partial_hash_set_flags p _⟩
  intro hc
  unfold hasht_pr_is_corrupt
  simp only
  rw [hf]
  exact hk.2.2 hc

theorem hasht_pr_tombstoned_state (p : hasht_pair_type K V)
    (ho : hasht_pr_is_occupied p = true) :
    hasht_pr_is_empty (hasht_pr_tombstoned p) = false ∧
    hasht_pr_is_deleted (hasht_pr_tombstoned p) = true ∧
    hasht_pr_is_occupied (hasht_pr_tombstoned p) = false ∧
    (hasht_pr_is_corrupt p = false → hasht_pr_is_corrupt (hasht_pr_tombstoned p) = false) ∧
    (hasht_pr_tombstoned p).key = p.key ∧ (hasht_pr_tombstoned p).value = p.value ∧
    hasht_pr_get_partial_hash (hasht_pr_tombstoned p) = hasht_pr_get_partial_hash p := by
  have key : ∀ f, f < 256 → (!((f &&& 2) == 0) && !((f &&& 4) != 0)) = true →
      ((((f ||| 4) % 256 &&& 2) == 0) = false ∧
       (((f ||| 4) % 256 &&& 4) != 0) = true ∧
       (((f &&& 8) != 0 || (f &&& (4 ||| 2)) == (4 ||| 0)) = false →
         ((((f ||| 4) % 256 &&& 8) != 0 ||
           ((f ||| 4) % 256 &&& (4 ||| 2)) == (4 ||| 0)) = false))) := by
    decide!
  have hk := key (hasht_pr_flags p) (hasht_pr_flags_lt p) ho
  have hf : hasht_pr_flags (hasht_pr_tombstoned p) = (hasht_pr_flags p ||| 4) % 256 :=
    hasht_pr_flags_set_flags p _
  have h1 : hasht_pr_is_empty (hasht_pr_tombstoned p) = false := by
    unfold hasht_pr_is_empty
    rw [hf]
    exact hk.1
  have h2 : hasht_pr_is_deleted (hasht_pr_tombstoned p) = true := by
    unfold hasht_pr_is_deleted
    rw [hf]
    exact hk.2.1
  refine ⟨h1, h2, hasht_pr_is_occupied_of_deleted _ h2, ?_, rfl, rfl,
    hasht_pr_get_partial_hash_set_flags p _⟩
  intro hc
  unfold hasht_pr_is_corrupt
  simp only
  rw [hf]
  exact hk.2.2 hc

theorem hasht_pr_filled_state (h : Nat) (k : K) (v : V) :
    hasht_pr_is_empty (hasht_pr_filled h k v) = false ∧
    hasht_pr_is_deleted (hasht_pr_filled h k v) = false ∧
    hasht_pr_is_occupied (hasht_pr_filled h k v) = true ∧
    hasht_pr_is_corrupt (hasht_pr_filled h k v) = false ∧
    hasht_pr_get_partial_hash (hasht_pr_filled h k v) = hasht_hash_to_partial_hash h := by
  have hf : hasht_pr_flags (hasht_pr_filled h k v) = 2 := by
    unfold hasht_pr_flags hasht_pr_filled hasht_pr_combine_flags_and_partial_hash
    exact hasht_combine_flags (hasht_hash_to_partial_hash_mod h) (by decide)
  have hp : hasht_pr_get_partial_hash (hasht_pr_filled h k v) = hasht_hash_to_partial_hash h := by
    unfold hasht_pr_get_partial_hash hasht_pr_filled hasht_pr_combine_flags_and_partial_hash
    exact hasht_combine_hash (hasht_hash_to_partial_hash_mod h)
      (hasht_hash_to_partial_hash_lt h) (by decide)
  have h1 : hasht_pr_is_empty (hasht_pr_filled h k v) = false := by
    unfold hasht_pr_is_empty
    rw [hf]
    decide
  have h2 : hasht_pr_is_deleted (hasht_pr_filled h k v) = false := by
    unfold hasht_pr_is_deleted
    rw [hf]
    decide
  refine ⟨h1, h2, ?_, ?_, hp⟩
  · unfold hasht_pr_is_occupied
    rw [h1, h2]
    rfl
  · unfold hasht_pr_is_corrupt
    simp only
    rw [hf]
    decide

theorem hasht_mark_as_empty_nat (ht : hasht K V) (n : Nat) :
    hasht_mark_as_empty__ ht (n : Int) =
      { ht with tab := ht.tab.set n (hasht_pr_emptied (hasht_slot ht n)) } := by
  unfold hasht_mark_as_empty__
  simp only [hasht_tab_at_nat, hasht_tab_set_nat]
  rfl

theorem hasht_mark_as_deleted_nat (ht : hasht K V) (n : Nat) :
    hasht_mark_as_deleted__ ht (n : Int) =
      { ht with tab := ht.tab.set n (hasht_pr_tombstoned (hasht_slot ht n)) } := by
  unfold hasht_mark_as_deleted__
  simp only [hasht_tab_at_nat, hasht_tab_set_nat]
  rfl

theorem hasht_set_pair_at_pos_nat (ht : hasht K V) (h : Nat) (k : K) (v : V) (n : Nat) :
    hasht_set_pair_at_pos__ ht h k v (n : Int) =
      (HASHT_OK, { ht with tab := ht.tab.set n (hasht_pr_filled h k v) }) := by
  unfold hasht_set_pair_at_pos__
  simp only [hasht_tab_set_nat]
  rfl

end Marks

/-! ## Walking backwards and the cleanup loop of `hasht_remove` -/

section Cleanup
variable {K V : Type} [Inhabited K] [Inhabited V]

theorem hasht_pos_congr (ht ht' : hasht K V) (h : ht'.tab.length = ht.tab.length) (a b : Nat) :
    hasht_pos ht' a b = hasht_pos ht a b := by
  unfold hasht_pos
  rw [h]

theorem hasht_back_congr (ht ht' : hasht K V) (h : ht'.tab.length = ht.tab.length) (a b : Nat) :
    hasht_back ht' a b = hasht_back ht a b := by
  unfold hasht_back hasht_pos
  rw [h]

theorem hasht_back_zero (ht : hasht K V) (i : Nat) (hi : i < ht.tab.length) :
    hasht_back ht i 0 = i := by
  unfold hasht_back
  rw [Nat.zero_mul]
  exact hasht_pos_zero ht i hi

theorem hasht_back_lt (ht : hasht K V) (i t : Nat) (hpos : 0 < ht.tab.length) :
    hasht_back ht i t < ht.tab.length :=
  hasht_pos_lt ht _ _ hpos

theorem hasht_back_succ (ht : hasht K V) (i t : Nat) :
    hasht_pos ht (hasht_back ht i t) (ht.tab.length - 1) = hasht_back ht i (t + 1) := by
  unfold hasht_back
  rw [hasht_pos_pos]
  congr 1
  rw [Nat.add_mul, Nat.one_mul]

theorem hasht_back_back (ht : hasht K V) (i a b : Nat) :
    hasht_back ht (hasht_back ht i a) b = hasht_back ht i (a + b) := by
  unfold hasht_back
  rw [hasht_pos_pos, Nat.add_mul]

theorem hasht_pos_back (ht : hasht K V) (i t s : Nat) (hi : i < ht.tab.length) (hs : s ≤ t) :
    hasht_pos ht (hasht_back ht i t) s = hasht_back ht i (t - s) := by
  unfold hasht_back hasht_pos
  have hpos : 0 < ht.tab.length := by omega
  rw [Nat.mod_add_mod]
  have e : i + t * (ht.tab.length - 1) + s
      = (i + (t - s) * (ht.tab.length - 1)) + s * ht.tab.length := by
    obtain ⟨u, rfl⟩ : ∃ u, t = s + u := ⟨t - s, by omega⟩
    obtain ⟨n, hn⟩ : ∃ n, ht.tab.length = n + 1 := ⟨ht.tab.length - 1, by omega⟩
    rw [hn]
    simp only [Nat.add_sub_cancel, Nat.add_sub_cancel_left]
    ring
  rw [e, Nat.add_mul_mod_self_right]

theorem hasht_pos_back_self (ht : hasht K V) (i t : Nat) (hi : i < ht.tab.length) :
    hasht_pos ht (hasht_back ht i t) t = i := by
  rw [hasht_pos_back ht i t t hi (le_refl t), Nat.sub_self, hasht_back_zero ht i hi]

theorem hasht_back_inj (ht : hasht K V) (i a b : Nat) (hi : i < ht.tab.length)
    (ha : a < ht.tab.length) (hb : b < ht.tab.length)
    (he : hasht_back ht i a = hasht_back ht i b) : a = b := by
  have h1 := hasht_pos_back_self ht i a hi
  have h2 := hasht_pos_back_self ht i b hi
  rw [he] at h1
  exact hasht_pos_inj ht (hasht_back ht i b) a b ha hb (by rw [h1, h2])

/-- The cleanup loop empties the run of `r` deleted buckets that ends at `p` and
changes nothing else. -/
theorem hasht_remove_cleanup_loop_spec :
    ∀ (r fuel : Nat) (ht : hasht K V) (p : Nat),
      (ht.tab.length : Int) = ht.nbuckets → p < ht.tab.length → r < fuel →
      r < ht.tab.length →
      (∀ t, t < r → hasht_pr_is_deleted (hasht_slot ht (hasht_back ht p t)) = true) →
      hasht_pr_is_deleted (hasht_slot ht (hasht_back ht p r)) = false →
      ∃ ht' : hasht K V, hasht_remove_cleanup_loop fuel ht (p : Int) = some ht' ∧
        ht'.tab.length = ht.tab.length ∧ ht' = { ht with tab := ht'.tab } ∧
        (∀ t, t < r → hasht_slot ht' (hasht_back ht p t)
            = hasht_pr_emptied (hasht_slot ht (hasht_back ht p t))) ∧
        (∀ m, m < ht.tab.length → (∀ t, t < r → hasht_back ht p t ≠ m) →
            hasht_slot ht' m = hasht_slot ht m) := by
  intro r
  induction r with
  | zero =>
    intro fuel ht p hlen hp hfuel hr _ hnd
    obtain ⟨f, rfl⟩ : ∃ f, fuel = f + 1 := ⟨fuel - 1, by omega⟩
    rw [hasht_back_zero ht p hp] at hnd
    refine ⟨ht, ?_, rfl, rfl, ?_, ?_⟩
    · rw [hasht_remove_cleanup_loop]
      simp only [hasht_tab_at_nat]
      rw [if_neg (by rw [hnd]; simp)]
    · intro t ht'; omega
    · intro m _ _; rfl
  | succ r ih =>
    intro fuel ht p hlen hp hfuel hr hdel hnd
    obtain ⟨f, rfl⟩ : ∃ f, fuel = f + 1 := ⟨fuel - 1, by omega⟩
    have hpos : 0 < ht.tab.length := by omega
    have hd0 := hdel 0 (by omega)
    rw [hasht_back_zero ht p hp] at hd0
    let ht1 : hasht K V := { ht with tab := ht.tab.set p (hasht_pr_emptied (hasht_slot ht p)) }
    have hlen1 : ht1.tab.length = ht.tab.length := by
      show (ht.tab.set p _).length = ht.tab.length
      rw [List.length_set]
    have hslot1 : ∀ m, hasht_slot ht1 m =
        if m = p then hasht_pr_emptied (hasht_slot ht p) else hasht_slot ht m :=
      fun m => hasht_slot_set ht p m _ hp
    have hb1 : ∀ t, hasht_back ht1 (hasht_back ht p 1) t = hasht_back ht p (t + 1) := by
      intro t
      rw [hasht_back_congr ht ht1 hlen1, hasht_back_back, Nat.add_comm]
    have hne : ∀ t, t + 1 < ht.tab.length → hasht_back ht p (t + 1) ≠ p := by
      intro t ht' he
      have := hasht_back_inj ht p (t + 1) 0 hp ht' hpos
        (by rw [he, hasht_back_zero ht p hp])
      omega
    obtain ⟨ht', hrun, hl', hf', hin, hout⟩ := ih f ht1 (hasht_back ht p 1)
      (by rw [hlen1]; exact hlen) (by rw [hlen1]; exact hasht_back_lt ht p 1 hpos)
      (by omega) (by rw [hlen1]; omega)
      (by
        intro t ht''
        rw [hb1, hslot1, if_neg (hne t (by omega))]
        exact hdel (t + 1) (by omega))
      (by
        rw [hb1, hslot1, if_neg (hne r (by omega))]
        exact hnd)
    refine ⟨ht', ?_, by rw [hl', hlen1], ?_, ?_, ?_⟩
    · rw [hasht_remove_cleanup_loop]
      simp only [hasht_tab_at_nat]
      rw [if_pos hd0, hasht_mark_as_empty_nat, hasht_idx_mod_pred ht hlen p hp]
      have e : hasht_pos ht p (ht.tab.length - 1) = hasht_back ht p 1 := by
        unfold hasht_back
        rw [Nat.one_mul]
      rw [e]
      exact hrun
    · rw [hf']
    · intro t ht''
      cases t with
      | zero =>
        rw [hasht_back_zero ht p hp]
        have := hout p (by rw [hlen1]; exact hp) (by
          intro t' ht3
          rw [hb1]
          exact hne t' (by omega))
        rw [this, hslot1, if_pos rfl]
      | succ t' =>
        have := hin t' (by omega)
        rw [hb1, hslot1, if_neg (hne t' (by omega))] at this
        exact this
    · intro m hm hall
      have hmp : m ≠ p := by
        intro he
        exact hall 0 (by omega) (by rw [hasht_back_zero ht p hp, he])
      have := hout m (by rw [hlen1]; exact hm) (by
        intro t' ht3
        rw [hb1]
        exact hall (t' + 1) (by omega))
      rw [this, hslot1, if_neg hmp]

end Cleanup

/-! ## What `hasht_remove` does to the array -/

section Remove
variable {K V : Type} [Inhabited K] [Inhabited V]

theorem hasht_back_last (ht : hasht K V) (i : Nat) (hi : i < ht.tab.length) :
    hasht_back ht i (ht.tab.length - 1) = hasht_pos ht i 1 := by
  have h := hasht_pos_back ht i (ht.tab.length - 1) (ht.tab.length - 1) hi (le_refl _)
  rw [Nat.sub_self, hasht_back_zero ht i hi] at h
  -- both sides are the position one step after `i`
  have hpos : 0 < ht.tab.length := by omega
  have h1 : hasht_pos ht (hasht_pos ht i 1) (ht.tab.length - 1) = i := by
    rw [hasht_pos_pos]
    unfold hasht_pos
    have : i + (1 + (ht.tab.length - 1)) = i + ht.tab.length := by omega
    rw [this, Nat.add_mod_right, Nat.mod_eq_of_lt hi]
  -- positions that reach `i` in the same number of steps are equal
  have hb := hasht_back_lt ht i (ht.tab.length - 1) hpos
  have hp := hasht_pos_lt ht i 1 hpos
  have e : (hasht_back ht i (ht.tab.length - 1) + (ht.tab.length - 1)) ≡
      (hasht_pos ht i 1 + (ht.tab.length - 1)) [MOD ht.tab.length] := by
    show hasht_pos ht (hasht_back ht i (ht.tab.length - 1)) (ht.tab.length - 1)
      = hasht_pos ht (hasht_pos ht i 1) (ht.tab.length - 1)
    rw [h, h1]
  have e2 := Nat.ModEq.add_right_cancel' _ e
  have e3 : hasht_back ht i (ht.tab.length - 1) % ht.tab.length
      = hasht_pos ht i 1 % ht.tab.length := e2
  rw [Nat.mod_eq_of_lt hb, Nat.mod_eq_of_lt hp] at e3
  exact e3

/-- The tombstone branch of `hasht_remove`. -/
theorem hasht_remove_tombstone (env : Env K) (ht : hasht K V) (hs : hasht_shape_ok env ht)
    (key : K) (i fh : Nat) (hi : i < ht.tab.length)
    (hfind : hasht_find_pos__ env ht key 0 = some (HASHT_OK, (i : Int), fh))
    (hnext : hasht_pr_is_empty (hasht_slot ht (hasht_pos ht i 1)) = false) :
    hasht_remove env ht key = some (HASHT_OK,
      { ht with tab := ht.tab.set i (hasht_pr_tombstoned (hasht_slot ht i)),
                ndeleted := ht.ndeleted + 1, nelements := ht.nelements - 1 }) := by
  unfold hasht_remove
  rw [hfind]
  simp only
  rw [if_neg (by decide), if_neg (by simp)]
  rw [hasht_idx_mod_succ ht hs.1 i hi, hasht_tab_at_nat]
  rw [if_neg (by rw [hnext]; simp), hasht_mark_as_deleted_nat]

/-- The branch of `hasht_remove` that empties the bucket and the run of deleted
buckets before it. -/
theorem hasht_remove_cleanup (env : Env K) (ht : hasht K V) (hs : hasht_shape_ok env ht)
    (hc : ∀ i, i < ht.tab.length → hasht_pr_is_corrupt (hasht_slot ht i) = false)
    (key : K) (i fh : Nat) (hi : i < ht.tab.length)
    (hocc : hasht_pr_is_occupied (hasht_slot ht i) = true)
    (hfind : hasht_find_pos__ env ht key 0 = some (HASHT_OK, (i : Int), fh))
    (hnext : hasht_pr_is_empty (hasht_slot ht (hasht_pos ht i 1)) = true) :
    ∃ (r : Nat) (ht' : hasht K V), r + 1 < ht.tab.length ∧
      (∀ t, 1 ≤ t → t ≤ r → hasht_pr_is_deleted (hasht_slot ht (hasht_back ht i t)) = true) ∧
      hasht_pr_is_deleted (hasht_slot ht (hasht_back ht i (r + 1))) = false ∧
      hasht_remove env ht key = some (HASHT_OK, ht') ∧
      ht' = { ht with tab := ht'.tab, nelements := ht.nelements - 1 } ∧
      ht'.tab.length = ht.tab.length ∧
      (∀ t, t ≤ r → hasht_slot ht' (hasht_back ht i t)
          = hasht_pr_emptied (hasht_slot ht (hasht_back ht i t))) ∧
      (∀ m, m < ht.tab.length → (∀ t, t ≤ r → hasht_back ht i t ≠ m) →
          hasht_slot ht' m = hasht_slot ht m) := by
  have hlen := hs.1
  have hpos := hs.2.1
  have hnextnd : hasht_pr_is_deleted (hasht_slot ht (hasht_pos ht i 1)) = false :=
    hasht_pr_not_deleted_of_empty _ (hc _ (hasht_pos_lt ht i 1 hpos)) hnext
  -- the array has at least two buckets: the next bucket is not bucket `i`
  have hN : 2 ≤ ht.tab.length := by
    by_contra hlt
    have h1 : ht.tab.length = 1 := by omega
    have h0 : i = 0 := by omega
    have : hasht_pos ht i 1 = i := by
      unfold hasht_pos
      rw [h1, h0]
    rw [this, (hasht_pr_of_occupied _ hocc).1] at hnext
    exact absurd hnext (by simp)
  -- the first bucket before `i` that is not deleted
  have hex : ∃ u, hasht_pr_is_deleted (hasht_slot ht (hasht_back ht i (u + 1))) = false :=
    ⟨ht.tab.length - 2, by
      have : ht.tab.length - 2 + 1 = ht.tab.length - 1 := by omega
      rw [this, hasht_back_last ht i hi]
      exact hnextnd⟩
  classical
  have hr := Nat.find_spec hex
  have hmin := fun u (hu : u < Nat.find hex) => Nat.find_min hex hu
  have hle : Nat.find hex ≤ ht.tab.length - 2 := Nat.find_le (by
    have : ht.tab.length - 2 + 1 = ht.tab.length - 1 := by omega
    rw [this, hasht_back_last ht i hi]
    exact hnextnd)
  generalize Nat.find hex = r at hr hmin hle
  have hrun : ∀ t, 1 ≤ t → t ≤ r →
      hasht_pr_is_deleted (hasht_slot ht (hasht_back ht i t)) = true := by
    intro t h1 h2
    obtain ⟨u, rfl⟩ : ∃ u, t = u + 1 := ⟨t - 1, by omega⟩
    have := hmin u (by omega)
    cases hx : hasht_pr_is_deleted (hasht_slot ht (hasht_back ht i (u + 1))) with
    | true => rfl
    | false => exact absurd hx this
  -- the table after the found bucket is marked empty
  let ht1 : hasht K V := { ht with tab := ht.tab.set i (hasht_pr_emptied (hasht_slot ht i)) }
  have hlen1 : ht1.tab.length = ht.tab.length := by
    show (ht.tab.set i _).length = ht.tab.length
    rw [List.length_set]
  have hslot1 : ∀ m, hasht_slot ht1 m =
      if m = i then hasht_pr_emptied (hasht_slot ht i) else hasht_slot ht m :=
    fun m => hasht_slot_set ht i m _ hi
  have hb1 : ∀ t, hasht_back ht1 (hasht_back ht i 1) t = hasht_back ht i (t + 1) := by
    intro t
    rw [hasht_back_congr ht ht1 hlen1, hasht_back_back, Nat.add_comm]
  have hne : ∀ t, t + 1 < ht.tab.length → hasht_back ht i (t + 1) ≠ i := by
    intro t ht' he
    have := hasht_back_inj ht i (t + 1) 0 hi ht' hpos (by rw [he, hasht_back_zero ht i hi])
    omega
  obtain ⟨ht', hrun', hl', hf', hin, hout⟩ := hasht_remove_cleanup_loop_spec r
    (ht1.nbuckets.toNat + 1) ht1 (hasht_back ht i 1)
    (by rw [hlen1]; exact hlen) (by rw [hlen1]; exact hasht_back_lt ht i 1 hpos)
    (by
      have : ht1.nbuckets = ht.nbuckets := rfl
      rw [this]
      omega)
    (by rw [hlen1]; omega)
    (by
      intro t ht''
      rw [hb1, hslot1, if_neg (hne t (by omega))]
      exact hrun (t + 1) (by omega) (by omega))
    (by
      rw [hb1, hslot1, if_neg (hne r (by omega))]
      exact hr)
  refine ⟨r, { ht' with nelements := ht'.nelements - 1 }, by omega, hrun, hr, ?_, ?_, ?_, ?_, ?_⟩
  · unfold hasht_remove
    rw [hfind]
    simp only
    rw [if_neg (by decide), if_neg (by simp)]
    rw [hasht_idx_mod_succ ht hlen i hi, hasht_tab_at_nat]
    rw [if_pos hnext, hasht_mark_as_empty_nat]
    have hp : hasht_idx_mod_buckets ht1 ((i : Int) - 1)
        = ((hasht_back ht i 1 : Nat) : Int) := by
      rw [hasht_idx_mod_pred ht1 (by rw [hlen1]; exact hlen) i (by rw [hlen1]; exact hi)]
      unfold hasht_back
      rw [Nat.one_mul, hasht_pos_congr ht ht1 hlen1, hlen1]
    show (match hasht_remove_cleanup_loop (ht1.nbuckets.toNat + 1) ht1
        (hasht_idx_mod_buckets ht1 ((i : Int) - 1)) with
      | none => none
      | some ht => some (HASHT_OK, { ht with nelements := ht.nelements - 1 })) = _
    rw [hp, hrun']
  · show _ = { ht with tab := ht'.tab, nelements := ht.nelements - 1 }
    rw [hf']
  · show ht'.tab.length = ht.tab.length
    rw [hl', hlen1]
  · intro t ht''
    show hasht_slot ht' (hasht_back ht i t) = _
    cases t with
    | zero =>
      rw [hasht_back_zero ht i hi]
      have := hout i (by rw [hlen1]; exact hi) (by
        intro t' ht3
        rw [hb1]
        exact hne t' (by omega))
      rw [this, hslot1, if_pos rfl]
    | succ t' =>
      have := hin t' (by omega)
      rw [hb1, hslot1, if_neg (hne t' (by omega))] at this
      exact this
  · intro m hm hall
    show hasht_slot ht' m = _
    have hmi : m ≠ i := by
      intro he
      exact hall 0 (by omega) (by rw [hasht_back_zero ht i hi, he])
    have := hout m (by rw [hlen1]; exact hm) (by
      intro t' ht3
      rw [hb1]
      exact hall (t' + 1) (by omega))
    rw [this, hslot1, if_neg hmi]

end Remove

/-! ## Lookup finds every key that is present -/

section Complete
variable {K V : Type} [Inhabited K] [Inhabited V]

theorem hasht_home_congr (env : Env K) (ht : hasht K V) (henv : hasht_env_ok env) (a b : K)
    (h : env.hasht_key_eq_cmp a b = 0) : hasht_home env ht a = hasht_home env ht b := by
  unfold hasht_home
  rw [henv.2.2.2.2 a b h]

theorem hasht_cmp_eq_zero_iff (env : Env K) (ht : hasht K V) (henv : hasht_env_ok env)
    (hk : hasht_slots_ok env ht) (key : K) (m : Nat) (hm : m < ht.tab.length)
    (hocc : hasht_pr_is_occupied (hasht_slot ht m) = true) :
    hasht_cmp env ht key (hasht_hash_to_partial_hash (env.hasht_hash key)) (hasht_slot ht m) = 0
      ↔ env.hasht_key_eq_cmp key (hasht_slot ht m).key = 0 := by
  unfold hasht_cmp
  constructor
  · intro h
    by_cases hp : hasht_pr_get_partial_hash (hasht_slot ht m)
        ≠ hasht_hash_to_partial_hash (env.hasht_hash key)
    · rw [if_pos hp] at h
      exact absurd h (by decide)
    · rw [if_neg hp] at h
      exact h
  · intro h
    have hp : ¬ (hasht_pr_get_partial_hash (hasht_slot ht m)
        ≠ hasht_hash_to_partial_hash (env.hasht_hash key)) := by
      rw [hk.2.2.2 m hm hocc, henv.2.2.2.2 _ _ h]
      simp
    rw [if_neg hp]
    exact h

/-- When the guard lets the probe start, a key that is present is found, in the
one occupied bucket that holds it. -/
theorem hasht_find_pos_complete (env : Env K) (ht : hasht K V) (henv : hasht_env_ok env)
    (hinv : hasht_inv env ht) (key : K) (o : Int) (i : Nat) (hi : i < ht.tab.length)
    (hocc : hasht_pr_is_occupied (hasht_slot ht i) = true)
    (heq : env.hasht_key_eq_cmp key (hasht_slot ht i).key = 0)
    (hg : ¬ hasht_n_empty_buckets ht < 1) :
    hasht_find_pos__ env ht key o = some (HASHT_OK, (i : Int), env.hasht_hash key) := by
  obtain ⟨hs, hk, hch, hun⟩ := hinv
  have hemp := hasht_empty_of_guard env ht hs hk hg
  obtain ⟨d, hd, hpath, hcase⟩ := hasht_find_pos_walk env ht hs hk.1 key o hg hemp
  have hpos := hs.2.1
  have hhome := hasht_home_lt env ht hs key
  have hhe : hasht_home env ht key = hasht_home env ht (hasht_slot ht i).key :=
    hasht_home_congr env ht henv _ _ heq
  obtain ⟨di, hdi, hdie⟩ := hasht_pos_reach ht (hasht_home env ht key) i hhome hi
  have hchain := hch i di hi hocc hdi (by rw [← hhe]; exact hdie)
  rw [← hhe] at hchain
  have hcmpi := (hasht_cmp_eq_zero_iff env ht henv hk key i hi hocc).2 heq
  rcases hcase with ⟨ho, hc, hres⟩ | ⟨he, _⟩
  · have hj := hasht_pos_lt ht (hasht_home env ht key) d hpos
    have heqj := (hasht_cmp_eq_zero_iff env ht henv hk key _ hj ho).1 hc
    have hji : env.hasht_key_eq_cmp
        (hasht_slot ht (hasht_pos ht (hasht_home env ht key) d)).key (hasht_slot ht i).key = 0 :=
      henv.2.2.2.1 _ _ _ (henv.2.2.1 _ _ heqj) heq
    have := hun _ i hj hi ho hocc hji
    rw [hres, this]
  · exfalso
    rcases Nat.lt_trichotomy d di with hlt | heqd | hgt
    · rw [hchain d hlt] at he
      exact absurd he (by simp)
    · rw [heqd, hdie, (hasht_pr_of_occupied _ hocc).1] at he
      exact absurd he (by simp)
    · have := (hpath di hgt).2 (by rw [hdie]; exact hocc)
      rw [hdie] at this
      exact this hcmpi

/-- The outcomes of `hasht_find_pos__` on a table that satisfies the invariant. -/
theorem hasht_find_pos_cases (env : Env K) (ht : hasht K V) (henv : hasht_env_ok env)
    (hinv : hasht_inv env ht) (key : K) (o : Int) :
    (hasht_n_empty_buckets ht < 1 ∧
      hasht_find_pos__ env ht key o
        = some (HASHT_INVALID_TABLE_STATE, o, env.hasht_hash key)) ∨
    (¬ hasht_n_empty_buckets ht < 1 ∧ ∃ i, i < ht.tab.length ∧
      hasht_pr_is_occupied (hasht_slot ht i) = true ∧
      env.hasht_key_eq_cmp key (hasht_slot ht i).key = 0 ∧
      hasht_find_pos__ env ht key o = some (HASHT_OK, (i : Int), env.hasht_hash key)) ∨
    (¬ hasht_n_empty_buckets ht < 1 ∧ ¬ hasht_present env ht key ∧
      ∃ s d, s < ht.tab.length ∧ d < ht.tab.length ∧
        hasht_pr_is_occupied (hasht_slot ht s) = false ∧
        hasht_pos ht (hasht_home env ht key) d = s ∧
        (∀ e, e < d →
          hasht_pr_is_empty (hasht_slot ht (hasht_pos ht (hasht_home env ht key) e)) = false) ∧
        hasht_find_pos__ env ht key o
          = some (HASHT_NOT_FOUND, (s : Int), env.hasht_hash key)) := by
  by_cases hg : hasht_n_empty_buckets ht < 1
  · exact Or.inl ⟨hg, hasht_find_pos_guard env ht key o hg⟩
  · right
    have hinv' := hinv
    obtain ⟨hs, hk, hch, hun⟩ := hinv
    have hemp := hasht_empty_of_guard env ht hs hk hg
    obtain ⟨d, hd, hpath, hcase⟩ := hasht_find_pos_walk env ht hs hk.1 key o hg hemp
    have hpos := hs.2.1
    rcases hcase with ⟨ho, hc, hres⟩ | ⟨he, s, hres, hsug⟩
    · left
      have hj := hasht_pos_lt ht (hasht_home env ht key) d hpos
      exact ⟨hg, _, hj, ho, (hasht_cmp_eq_zero_iff env ht henv hk key _ hj ho).1 hc, hres⟩
    · right
      refine ⟨hg, ?_, ?_⟩
      · intro hpr
        obtain ⟨i, hi, hocc, heq⟩ := hpr
        have := hasht_find_pos_complete env ht henv hinv' key o i hi hocc heq hg
        rw [this] at hres
        simp only [Option.some.injEq, Prod.mk.injEq] at hres
        exact absurd hres.1 (by decide)
      · rcases hsug with ⟨j, hj, hdj, _, hsj⟩ | ⟨_, hsd⟩
        · refine ⟨hasht_pos ht (hasht_home env ht key) j, j,
            hasht_pos_lt ht _ j hpos, by omega, hasht_pr_is_occupied_of_deleted _ hdj, rfl,
            fun e he => (hpath e (by omega)).1, ?_⟩
          rw [hres, hsj]
        · refine ⟨hasht_pos ht (hasht_home env ht key) d, d,
            hasht_pos_lt ht _ d hpos, hd, hasht_pr_is_occupied_of_empty _ he, rfl,
            fun e he' => (hpath e he').1, ?_⟩
          rw [hres, hsd]

end Complete

/-! ## Counters under a write -/

section Counters
variable {K V : Type} [Inhabited K] [Inhabited V]

theorem hasht_count_occupied_set (ht : hasht K V) (n : Nat) (q : hasht_pair_type K V)
    (hn : n < ht.tab.length) (ne nd : Int) :
    hasht_count_occupied { ht with tab := ht.tab.set n q, nelements := ne, ndeleted := nd }
        + (if hasht_pr_is_occupied (hasht_slot ht n) then 1 else 0)
      = hasht_count_occupied ht + (if hasht_pr_is_occupied q then 1 else 0) := by
  unfold hasht_count_occupied hasht_slot
  have h := hasht_filter_length_set (fun b => hasht_pr_is_occupied b) ht.tab n q hn
  have e : ht.tab.getD n q = ht.tab.getD n default := by
    rw [List.getD_eq_getElem _ _ hn, List.getD_eq_getElem _ _ hn]
  rw [e] at h
  exact h

theorem hasht_count_deleted_set (ht : hasht K V) (n : Nat) (q : hasht_pair_type K V)
    (hn : n < ht.tab.length) (ne nd : Int) :
    hasht_count_deleted { ht with tab := ht.tab.set n q, nelements := ne, ndeleted := nd }
        + (if hasht_pr_is_deleted (hasht_slot ht n) then 1 else 0)
      = hasht_count_deleted ht + (if hasht_pr_is_deleted q then 1 else 0) := by
  unfold hasht_count_deleted hasht_slot
  have h := hasht_filter_length_set (fun b => hasht_pr_is_deleted b) ht.tab n q hn
  have e : ht.tab.getD n q = ht.tab.getD n default := by
    rw [List.getD_eq_getElem _ _ hn, List.getD_eq_getElem _ _ hn]
  rw [e] at h
  exact h

theorem hasht_default_not_deleted :
    hasht_pr_is_deleted (default : hasht_pair_type K V) = false := by
  show (((0 : Nat) &&& 0xFF) &&& HASHT_VLT_IS_DELETED != 0) = false
  decide

theorem hasht_tab_at_deleted (ht : hasht K V) (p : Int)
    (h : hasht_pr_is_deleted (hasht_tab_at ht p) = true) :
    ∃ n : Nat, p = (n : Int) ∧ n < ht.tab.length := by
  unfold hasht_tab_at at h
  by_cases hp : p < 0
  · rw [if_pos hp, hasht_default_not_deleted] at h
    exact absurd h (by simp)
  · rw [if_neg hp] at h
    refine ⟨p.toNat, by omega, ?_⟩
    by_contra hge
    rw [List.getD_eq_default _ _ (by omega), hasht_default_not_deleted] at h
    exact absurd h (by simp)

/-- The cleanup loop keeps the number of occupied buckets and does not raise the
number of deleted ones. -/
theorem hasht_remove_cleanup_loop_counts :
    ∀ (fuel : Nat) (ht : hasht K V) (p : Int) (ht' : hasht K V),
      hasht_remove_cleanup_loop fuel ht p = some ht' →
      hasht_count_occupied ht' = hasht_count_occupied ht ∧
      hasht_count_deleted ht' ≤ hasht_count_deleted ht := by
  intro fuel
  induction fuel with
  | zero =>
    intro ht p ht' h
    rw [hasht_remove_cleanup_loop] at h
    exact absurd h (by simp)
  | succ f ih =>
    intro ht p ht' h
    rw [hasht_remove_cleanup_loop] at h
    by_cases hd : hasht_pr_is_deleted (hasht_tab_at ht p) = true
    · rw [if_pos hd] at h
      obtain ⟨n, rfl, hn⟩ := hasht_tab_at_deleted ht p hd
      rw [hasht_tab_at_nat] at hd
      have h1 := ih _ _ _ h
      rw [hasht_mark_as_empty_nat] at h1
      have ho := hasht_count_occupied_set ht n (hasht_pr_emptied (hasht_slot ht n)) hn
        ht.nelements ht.ndeleted
      have hdl := hasht_count_deleted_set ht n (hasht_pr_emptied (hasht_slot ht n)) hn
        ht.nelements ht.ndeleted
      rw [hasht_pr_is_occupied_of_deleted _ hd, (hasht_pr_emptied_state _).2.2.1] at ho
      rw [hd, (hasht_pr_emptied_state _).2.1] at hdl
      simp only [if_true, Bool.false_eq_true, if_false, Nat.add_zero] at ho hdl
      constructor
      · rw [h1.1]; exact ho
      · have := h1.2
        omega
    · rw [if_neg hd] at h
      simp only [Option.some.injEq] at h
      rw [← h]
      exact ⟨rfl, le_refl _⟩

end Counters

section RemoveCounts
variable {K V : Type} [Inhabited K] [Inhabited V]

theorem hasht_remove_cleanup_counts (env : Env K) (ht : hasht K V) (hs : hasht_shape_ok env ht)
    (key : K) (i fh : Nat) (hi : i < ht.tab.length)
    (hocc : hasht_pr_is_occupied (hasht_slot ht i) = true)
    (hfind : hasht_find_pos__ env ht key 0 = some (HASHT_OK, (i : Int), fh))
    (hnext : hasht_pr_is_empty (hasht_slot ht (hasht_pos ht i 1)) = true)
    (rv : Int) (ht' : hasht K V) (hrem : hasht_remove env ht key = some (rv, ht')) :
    hasht_count_occupied ht' + 1 = hasht_count_occupied ht ∧
    hasht_count_deleted ht' ≤ hasht_count_deleted ht := by
  unfold hasht_remove at hrem
  rw [hfind] at hrem
  simp only at hrem
  rw [if_neg (by decide), if_neg (by simp)] at hrem
  rw [hasht_idx_mod_succ ht hs.1 i hi, hasht_tab_at_nat] at hrem
  rw [if_pos hnext, hasht_mark_as_empty_nat] at hrem
  have ho := hasht_count_occupied_set ht i (hasht_pr_emptied (hasht_slot ht i)) hi
    ht.nelements ht.ndeleted
  have hdl := hasht_count_deleted_set ht i (hasht_pr_emptied (hasht_slot ht i)) hi
    ht.nelements ht.ndeleted
  rw [hocc, (hasht_pr_emptied_state _).2.2.1] at ho
  rw [(hasht_pr_of_occupied _ hocc).2, (hasht_pr_emptied_state _).2.1] at hdl
  simp only [if_true, Bool.false_eq_true, if_false, Nat.add_zero] at ho hdl
  split at hrem
  · exact absurd hrem (by simp)
  · rename_i ht2 hloop
    have hc := hasht_remove_cleanup_loop_counts _ _ _ _ hloop
    simp only [Option.some.injEq, Prod.mk.injEq] at hrem
    rw [← hrem.2]
    constructor
    · show hasht_count_occupied ht2 + 1 = _
      rw [hc.1]; exact ho
    · show hasht_count_deleted ht2 ≤ _
      have := hc.2
      omega

end RemoveCounts

/-! ## The invariant under a write to one bucket -/

section InvSet
variable {K V : Type} [Inhabited K] [Inhabited V]

/-- Writing the bucket `q` at position `n` keeps the invariant when the counters
follow the states, `q` creates no new empty bucket, and an occupied `q` sits on
an unbroken probe path with a key no other bucket holds. -/
theorem hasht_inv_set (env : Env K) (ht : hasht K V) (henv : hasht_env_ok env)
    (hinv : hasht_inv env ht) (n : Nat) (q : hasht_pair_type K V) (ne nd : Int)
    (hn : n < ht.tab.length)
    (hq : hasht_pr_is_corrupt q = false)
    (hne : ne + (if hasht_pr_is_occupied (hasht_slot ht n) then (1 : Int) else 0)
      = ht.nelements + (if hasht_pr_is_occupied q then (1 : Int) else 0))
    (hnd : ht.ndeleted + (if hasht_pr_is_deleted q then (1 : Int) else 0)
      ≤ nd + (if hasht_pr_is_deleted (hasht_slot ht n) then (1 : Int) else 0))
    (hpart : hasht_pr_is_occupied q = true →
      hasht_pr_get_partial_hash q = hasht_hash_to_partial_hash (env.hasht_hash q.key))
    (hemp : hasht_pr_is_empty q = true → hasht_pr_is_empty (hasht_slot ht n) = true)
    (hchain : hasht_pr_is_occupied q = true → ∃ d, d < ht.tab.length ∧
      hasht_pos ht (hasht_home env ht q.key) d = n ∧
      ∀ e, e < d → hasht_pr_is_empty
        (hasht_slot ht (hasht_pos ht (hasht_home env ht q.key) e)) = false)
    (huniq : hasht_pr_is_occupied q = true → ∀ j, j < ht.tab.length → j ≠ n →
      hasht_pr_is_occupied (hasht_slot ht j) = true →
      env.hasht_key_eq_cmp q.key (hasht_slot ht j).key ≠ 0) :
    hasht_inv env { ht with tab := ht.tab.set n q, nelements := ne, ndeleted := nd } := by
  obtain ⟨hs, hk, hch, hun⟩ := hinv
  have hlen' : (ht.tab.set n q).length = ht.tab.length := List.length_set _ _ _
  have hslot : ∀ m, hasht_slot
      { ht with tab := ht.tab.set n q, nelements := ne, ndeleted := nd } m
        = if m = n then q else hasht_slot ht m := by
    intro m
    exact hasht_slot_set { ht with nelements := ne, ndeleted := nd } n m q hn
  have hposeq : ∀ a b, hasht_pos
      { ht with tab := ht.tab.set n q, nelements := ne, ndeleted := nd } a b
        = hasht_pos ht a b := by
    intro a b
    unfold hasht_pos
    simp only [hlen']
  have hhome : ∀ k, hasht_home env
      { ht with tab := ht.tab.set n q, nelements := ne, ndeleted := nd } k
        = hasht_home env ht k := fun k => rfl
  refine ⟨?_, ?_, ?_, ?_⟩
  · -- shape
    obtain ⟨h1, h2, h3, h4, h5⟩ := hs
    refine ⟨?_, ?_, h3, h4, h5⟩
    · show ((ht.tab.set n q).length : Int) = ht.nbuckets
      rw [hlen']; exact h1
    · show 0 < (ht.tab.set n q).length
      rw [hlen']; exact h2
  · -- slots
    obtain ⟨hc, hcnt, hdel, hp⟩ := hk
    refine ⟨?_, ?_, ?_, ?_⟩
    · intro i hi
      rw [hslot]
      by_cases h : i = n
      · rw [if_pos h]; exact hq
      · rw [if_neg h]
        exact hc i (by rw [← hlen']; exact hi)
    · show ne = _
      have h := hasht_count_occupied_set ht n q hn ne nd
      cases h1 : hasht_pr_is_occupied (hasht_slot ht n) <;>
        cases h2 : hasht_pr_is_occupied q <;>
        simp only [h1, h2, if_true, Bool.false_eq_true, if_false] at h hne <;> omega
    · show _ ≤ nd
      have h := hasht_count_deleted_set ht n q hn ne nd
      cases h1 : hasht_pr_is_deleted (hasht_slot ht n) <;>
        cases h2 : hasht_pr_is_deleted q <;>
        simp only [h1, h2, if_true, Bool.false_eq_true, if_false] at h hnd <;> omega
    · intro i hi
      rw [hslot]
      by_cases h : i = n
      · rw [if_pos h]; exact hpart
      · rw [if_neg h]
        exact hp i (by rw [← hlen']; exact hi)
  · -- chain
    intro j d hj hocc hd hpd e he
    have hj' : j < ht.tab.length := by rw [← hlen']; exact hj
    have hd' : d < ht.tab.length := by rw [← hlen']; exact hd
    rw [hslot] at hocc hpd ⊢
    rw [hhome, hposeq] at hpd ⊢
    rw [hslot]
    by_cases hjn : j = n
    · rw [if_pos hjn] at hocc hpd
      rw [if_pos hjn]
      obtain ⟨d0, hd0, hp0, hpath0⟩ := hchain hocc
      have hhl := hasht_home_lt env ht hs q.key
      have hdd : d = d0 := hasht_pos_inj ht _ d d0 hd' hd0 (by rw [hpd, hp0, hjn])
      by_cases hx : hasht_pos ht (hasht_home env ht q.key) e = n
      · rw [if_pos hx]
        exact (hasht_pr_of_occupied _ hocc).1
      · rw [if_neg hx]
        exact hpath0 e (by omega)
    · rw [if_neg hjn] at hocc hpd
      rw [if_neg hjn]
      have hold := hch j d hj' hocc hd' hpd e he
      by_cases hx : hasht_pos ht (hasht_home env ht (hasht_slot ht j).key) e = n
      · rw [if_pos hx]
        cases hqe : hasht_pr_is_empty q with
        | false => rfl
        | true =>
          have := hemp hqe
          rw [hx, this] at hold
          exact absurd hold (by simp)
      · rw [if_neg hx]
        exact hold
  · -- unique
    intro i j hi hj hoi hoj heq
    have hi' : i < ht.tab.length := by rw [← hlen']; exact hi
    have hj' : j < ht.tab.length := by rw [← hlen']; exact hj
    rw [hslot] at hoi hoj heq
    rw [hslot] at heq
    by_cases hin : i = n
    · by_cases hjn : j = n
      · rw [hin, hjn]
      · exfalso
        rw [if_pos hin] at hoi heq
        rw [if_neg hjn] at hoj heq
        exact huniq hoi j hj' hjn hoj heq
    · by_cases hjn : j = n
      · exfalso
        rw [if_neg hin] at hoi heq
        rw [if_pos hjn] at hoj heq
        exact huniq hoj i hi' hin hoi (henv.2.2.1 _ _ heq)
      · rw [if_neg hin] at hoi heq
        rw [if_neg hjn] at hoj heq
        exact hun i j hi' hj' hoi hoj heq

end InvSet

/-! ## The invariant when buckets are turned back to empty -/

section InvEmptied
variable {K V : Type} [Inhabited K] [Inhabited V]

/-- Emptying a set `E` of buckets keeps the invariant when the walk from every
bucket of `E` stays in `E` until it meets a bucket that was empty before. -/
theorem hasht_inv_emptied (env : Env K) (ht ht' : hasht K V) (henv : hasht_env_ok env)
    (hinv : hasht_inv env ht) (E : Nat → Prop)
    (hf : ht' = { ht with tab := ht'.tab, nelements := ht.nelements - 1 })
    (hlen : ht'.tab.length = ht.tab.length)
    (hin : ∀ m, m < ht.tab.length → E m → hasht_slot ht' m = hasht_pr_emptied (hasht_slot ht m))
    (hout : ∀ m, m < ht.tab.length → ¬ E m → hasht_slot ht' m = hasht_slot ht m)
    (hcount : hasht_count_occupied ht' + 1 = hasht_count_occupied ht)
    (hdel : hasht_count_deleted ht' ≤ hasht_count_deleted ht)
    (hwalk : ∀ x, x < ht.tab.length → E x → ∃ t, (∀ u, u ≤ t → E (hasht_pos ht x u)) ∧
      hasht_pr_is_empty (hasht_slot ht (hasht_pos ht x (t + 1))) = true) :
    hasht_inv env ht' := by
  obtain ⟨hs, hk, hch, hun⟩ := hinv
  have hposN := hs.2.1
  have hposeq : ∀ a b, hasht_pos ht' a b = hasht_pos ht a b :=
    fun a b => hasht_pos_congr ht ht' hlen a b
  have hhome : ∀ k, hasht_home env ht' k = hasht_home env ht k := by
    intro k
    unfold hasht_home
    rw [hf]
  have hnocc : ∀ m, m < ht.tab.length → hasht_pr_is_occupied (hasht_slot ht' m) = true →
      ¬ E m ∧ hasht_slot ht' m = hasht_slot ht m := by
    intro m hm ho
    by_cases hE : E m
    · rw [hin m hm hE, (hasht_pr_emptied_state _).2.2.1] at ho
      exact absurd ho (by simp)
    · exact ⟨hE, hout m hm hE⟩
  refine ⟨?_, ?_, ?_, ?_⟩
  · obtain ⟨h1, h2, h3, h4, h5⟩ := hs
    refine ⟨?_, ?_, ?_, ?_, ?_⟩
    · rw [hlen, hf]; exact h1
    · rw [hlen]; exact h2
    · rw [hf]; exact h3
    · rw [hf]; exact h4
    · rw [hf]; exact h5
  · obtain ⟨hc, hcnt, hdl, hp⟩ := hk
    refine ⟨?_, ?_, ?_, ?_⟩
    · intro i hi
      rw [hlen] at hi
      by_cases hE : E i
      · rw [hin i hi hE]
        exact (hasht_pr_emptied_state _).2.2.2.1 (hc i hi)
      · rw [hout i hi hE]
        exact hc i hi
    · have e1 : ht'.nelements = ht.nelements - 1 := by rw [hf]
      rw [e1, hcnt]
      omega
    · have e1 : ht'.ndeleted = ht.ndeleted := by rw [hf]
      rw [e1]
      omega
    · intro i hi ho
      rw [hlen] at hi
      obtain ⟨_, he⟩ := hnocc i hi ho
      rw [he] at ho ⊢
      exact hp i hi ho
  · intro j d hj hocc hd hpd e he
    rw [hlen] at hj hd
    obtain ⟨hEj, hej⟩ := hnocc j hj hocc
    rw [hej] at hocc hpd ⊢
    rw [hhome, hposeq] at hpd ⊢
    have hold := hch j d hj hocc hd hpd
    have hx : hasht_pos ht (hasht_home env ht (hasht_slot ht j).key) e < ht.tab.length :=
      hasht_pos_lt ht _ _ hposN
    by_cases hE : E (hasht_pos ht (hasht_home env ht (hasht_slot ht j).key) e)
    · exfalso
      obtain ⟨t, hin', hemp'⟩ := hwalk _ hx hE
      rw [hasht_pos_pos] at hemp'
      rcases Nat.lt_trichotomy (d - e) (t + 1) with hlt | heq | hgt
      · have := hin' (d - e) (by omega)
        rw [hasht_pos_pos] at this
        have e2 : e + (d - e) = d := by omega
        rw [e2, hpd] at this
        exact hEj this
      · have e2 : e + (t + 1) = d := by omega
        rw [e2, hpd, (hasht_pr_of_occupied _ hocc).1] at hemp'
        exact absurd hemp' (by simp)
      · have := hold (e + (t + 1)) (by omega)
        rw [this] at hemp'
        exact absurd hemp' (by simp)
    · rw [hout _ hx hE]
      exact hold e he
  · intro i j hi hj hoi hoj heq
    rw [hlen] at hi hj
    obtain ⟨_, hei⟩ := hnocc i hi hoi
    obtain ⟨_, hej⟩ := hnocc j hj hoj
    rw [hei] at hoi heq
    rw [hej] at hoj heq
    exact hun i j hi hj hoi hoj heq

end InvEmptied

/-! ## `hasht_remove` on a table that satisfies the invariant -/

section RemoveInv
variable {K V : Type} [Inhabited K] [Inhabited V]

/-- The outcomes of `hasht_remove`: the guard refuses, the key is absent, or the
bucket that holds the key stops being occupied, every other occupied bucket
stays as it is, and the invariant holds again. -/
theorem hasht_remove_cases (env : Env K) (ht : hasht K V) (henv : hasht_env_ok env)
    (hinv : hasht_inv env ht) (key : K) :
    (hasht_n_empty_buckets ht < 1 ∧
      hasht_remove env ht key = some (HASHT_INVALID_TABLE_STATE, ht)) ∨
    (¬ hasht_n_empty_buckets ht < 1 ∧ ¬ hasht_present env ht key ∧
      hasht_remove env ht key = some (HASHT_NOT_FOUND, ht)) ∨
    (¬ hasht_n_empty_buckets ht < 1 ∧ ∃ (i : Nat) (ht' : hasht K V), i < ht.tab.length ∧
      hasht_pr_is_occupied (hasht_slot ht i) = true ∧
      env.hasht_key_eq_cmp key (hasht_slot ht i).key = 0 ∧
      hasht_find_pos__ env ht key 0 = some (HASHT_OK, (i : Int), env.hasht_hash key) ∧
      hasht_remove env ht key = some (HASHT_OK, ht') ∧
      hasht_inv env ht' ∧
      ht'.tab.length = ht.tab.length ∧ ht'.nbuckets = ht.nbuckets ∧
      ht'.nelements = ht.nelements - 1 ∧
      ht.ndeleted ≤ ht'.ndeleted ∧ ht'.ndeleted ≤ ht.ndeleted + 1 ∧
      ht' = { ht with tab := ht'.tab, nelements := ht'.nelements, ndeleted := ht'.ndeleted } ∧
      hasht_pr_is_occupied (hasht_slot ht' i) = false ∧
      (∀ j, j < ht.tab.length → hasht_pr_is_occupied (hasht_slot ht' j) = true →
        hasht_slot ht' j = hasht_slot ht j) ∧
      (∀ j, j < ht.tab.length → j ≠ i → hasht_pr_is_occupied (hasht_slot ht j) = true →
        hasht_slot ht' j = hasht_slot ht j)) := by
  rcases hasht_find_pos_cases env ht henv hinv key 0 with
    ⟨hg, hf⟩ | ⟨hg, i, hi, hocc, heq, hf⟩ | ⟨hg, hnp, s, d, hs, hd, hno, hps, hpath, hf⟩
  · left
    refine ⟨hg, ?_⟩
    unfold hasht_remove
    rw [hf]
    simp only
    rw [if_neg (by decide), if_pos (by decide)]
  · right; right
    refine ⟨hg, i, ?_⟩
    have hshape := hinv.1
    have hk := hinv.2.1
    have hposN := hshape.2.1
    cases hnext : hasht_pr_is_empty (hasht_slot ht (hasht_pos ht i 1)) with
    | false =>
      have hrem := hasht_remove_tombstone env ht hshape key i _ hi hf hnext
      have hst := hasht_pr_tombstoned_state (hasht_slot ht i) hocc
      have hinv' := hasht_inv_set env ht henv hinv i (hasht_pr_tombstoned (hasht_slot ht i))
        (ht.nelements - 1) (ht.ndeleted + 1) hi (hst.2.2.2.1 (hk.1 i hi))
        (by rw [hocc, hst.2.2.1]; simp)
        (by rw [hst.2.1, (hasht_pr_of_occupied _ hocc).2]; simp)
        (by intro h; rw [hst.2.2.1] at h; exact absurd h (by simp))
        (by intro h; rw [hst.1] at h; exact absurd h (by simp))
        (by intro h; rw [hst.2.2.1] at h; exact absurd h (by simp))
        (by intro h; rw [hst.2.2.1] at h; exact absurd h (by simp))
      have hslot : ∀ m, hasht_slot
          { ht with tab := ht.tab.set i (hasht_pr_tombstoned (hasht_slot ht i)),
                    ndeleted := ht.ndeleted + 1, nelements := ht.nelements - 1 } m
            = if m = i then hasht_pr_tombstoned (hasht_slot ht i) else hasht_slot ht m := by
        intro m
        exact hasht_slot_set
          { ht with ndeleted := ht.ndeleted + 1, nelements := ht.nelements - 1 } i m _ hi
      refine ⟨_, hi, hocc, heq, hf, hrem, hinv', ?_, rfl, rfl, ?_, ?_, rfl, ?_, ?_, ?_⟩
      · show (ht.tab.set i _).length = ht.tab.length
        rw [List.length_set]
      · show ht.ndeleted ≤ ht.ndeleted + 1
        omega
      · show ht.ndeleted + 1 ≤ ht.ndeleted + 1
        omega
      · rw [hslot, if_pos rfl]
        exact hst.2.2.1
      · intro j hj ho
        rw [hslot] at ho ⊢
        by_cases hji : j = i
        · rw [if_pos hji, hst.2.2.1] at ho
          exact absurd ho (by simp)
        · rw [if_neg hji]
      · intro j hj hji _
        rw [hslot, if_neg hji]
    | true =>
      obtain ⟨r, ht', hr, hrun, hstop, hrem, hfld, hlen', hin, hout⟩ :=
        hasht_remove_cleanup env ht hshape hk.1 key i _ hi hocc hf hnext
      have hcounts := hasht_remove_cleanup_counts env ht hshape key i _ hi hocc hf hnext _ _ hrem
      have hEin : ∀ m, m < ht.tab.length → (∃ t, t ≤ r ∧ hasht_back ht i t = m) →
          hasht_slot ht' m = hasht_pr_emptied (hasht_slot ht m) := by
        intro m _ hE
        obtain ⟨t, ht1, hte⟩ := hE
        rw [← hte]
        exact hin t ht1
      have hEout : ∀ m, m < ht.tab.length → ¬ (∃ t, t ≤ r ∧ hasht_back ht i t = m) →
          hasht_slot ht' m = hasht_slot ht m := by
        intro m hm hE
        exact hout m hm (fun t ht1 he => hE ⟨t, ht1, he⟩)
      have hinv' := hasht_inv_emptied env ht ht' henv hinv
        (fun m => ∃ t, t ≤ r ∧ hasht_back ht i t = m) hfld hlen' hEin hEout hcounts.1 hcounts.2
        (by
          intro x hx hE
          obtain ⟨t, ht1, hte⟩ := hE
          refine ⟨t, ?_, ?_⟩
          · intro u hu
            refine ⟨t - u, by omega, ?_⟩
            rw [← hte, hasht_pos_back ht i t u hi hu]
          · rw [← hte, ← hasht_pos_pos, hasht_pos_back_self ht i t hi]
            exact hnext)
      have hnd : ht'.ndeleted = ht.ndeleted := by rw [hfld]
      have hne : ht'.nelements = ht.nelements - 1 := by rw [hfld]
      refine ⟨ht', hi, hocc, heq, hf, hrem, hinv', hlen', by rw [hfld], hne, by omega, by omega,
        ?_, ?_, ?_, ?_⟩
      · rw [hfld]
      · have := hin 0 (by omega)
        rw [hasht_back_zero ht i hi] at this
        rw [this]
        exact (hasht_pr_emptied_state _).2.2.1
      · intro j hj ho
        by_cases hE : ∃ t, t ≤ r ∧ hasht_back ht i t = j
        · rw [hEin j hj hE, (hasht_pr_emptied_state _).2.2.1] at ho
          exact absurd ho (by simp)
        · exact hEout j hj hE
      · intro j hj hji ho
        apply hEout j hj
        rintro ⟨t, ht1, hte⟩
        cases t with
        | zero =>
          rw [hasht_back_zero ht i hi] at hte
          exact hji hte.symm
        | succ t' =>
          have := hrun (t' + 1) (by omega) ht1
          rw [hte, (hasht_pr_of_occupied _ ho).2] at this
          exact absurd this (by simp)
  · right; left
    refine ⟨hg, hnp, ?_⟩
    unfold hasht_remove
    rw [hf]
    simp only [if_true]

end RemoveInv

/-! ## The insert after its trigger check, on a table that satisfies the invariant -/

section InsertInv
variable {K V : Type} [Inhabited K] [Inhabited V]

/-- The outcomes of the probe part of `hasht_insert__`: the guard refuses; the
key is present and is reported as a duplicate or its bucket is overwritten; the
key is absent and is written into a bucket that was not occupied. -/
theorem hasht_insert_probe_cases (env : Env K) (ht : hasht K V) (henv : hasht_env_ok env)
    (hinv : hasht_inv env ht) (key : K) (value : V) (rep : Bool) :
    (hasht_n_empty_buckets ht < 1 ∧
      hasht_insert_probe env ht key value rep
        = some (HASHT_INVALID_TABLE_STATE, HASHT_NOT_FOUND, ht)) ∨
    (¬ hasht_n_empty_buckets ht < 1 ∧ ∃ i, i < ht.tab.length ∧
      hasht_pr_is_occupied (hasht_slot ht i) = true ∧
      env.hasht_key_eq_cmp key (hasht_slot ht i).key = 0 ∧
      hasht_find_pos__ env ht key 0 = some (HASHT_OK, (i : Int), env.hasht_hash key) ∧
      ((rep = false ∧
          hasht_insert_probe env ht key value rep = some (HASHT_DUPLICATE_KEY, (i : Int), ht)) ∨
       (rep = true ∧
          hasht_insert_probe env ht key value rep = some (HASHT_OK, (i : Int),
            { ht with tab := ht.tab.set i (hasht_pr_filled (env.hasht_hash key) key value) }) ∧
          hasht_inv env
            { ht with tab := ht.tab.set i (hasht_pr_filled (env.hasht_hash key) key value) }))) ∨
    (¬ hasht_n_empty_buckets ht < 1 ∧ ¬ hasht_present env ht key ∧
      ∃ s, s < ht.tab.length ∧ hasht_pr_is_occupied (hasht_slot ht s) = false ∧
        hasht_find_pos__ env ht key 0
          = some (HASHT_NOT_FOUND, (s : Int), env.hasht_hash key) ∧
        hasht_insert_probe env ht key value rep = some (HASHT_OK, (s : Int),
          { ht with tab := ht.tab.set s (hasht_pr_filled (env.hasht_hash key) key value),
                    nelements := ht.nelements + 1,
                    ndeleted := if hasht_pr_is_deleted (hasht_slot ht s) then ht.ndeleted - 1
                                else ht.ndeleted }) ∧
        hasht_inv env
          { ht with tab := ht.tab.set s (hasht_pr_filled (env.hasht_hash key) key value),
                    nelements := ht.nelements + 1,
                    ndeleted := if hasht_pr_is_deleted (hasht_slot ht s) then ht.ndeleted - 1
                                else ht.ndeleted }) := by
  have hfs := hasht_pr_filled_state (env.hasht_hash key) key value
  rcases hasht_find_pos_cases env ht henv hinv key 0 with
    ⟨hg, hf⟩ | ⟨hg, i, hi, hocc, heq, hf⟩ | ⟨hg, hnp, s, d, hs, hd, hno, hps, hpath, hf⟩
  · left
    refine ⟨hg, ?_⟩
    unfold hasht_insert_probe
    rw [hf]
    dsimp only
    rw [if_neg (by decide), if_neg (by simp), if_neg (by decide), if_pos (by decide)]
  · right; left
    refine ⟨hg, i, hi, hocc, heq, hf, ?_⟩
    have hne1 : ¬ ((i : Int) = HASHT_NOT_FOUND) := by
      show ¬ ((i : Int) = -1)
      omega
    cases rep with
    | false =>
      left
      refine ⟨rfl, ?_⟩
      unfold hasht_insert_probe
      rw [hf]
      dsimp only
      rw [if_neg hne1, if_pos ⟨rfl, rfl⟩]
    | true =>
      right
      refine ⟨rfl, ?_, ?_⟩
      · unfold hasht_insert_probe
        rw [hf]
        dsimp only
        rw [if_neg hne1, if_neg (by simp), if_neg (by decide), if_neg (by simp),
          hasht_set_pair_at_pos_nat]
      · obtain ⟨hshape, hk, hch, hun⟩ := hinv
        have hhl := hasht_home_lt env ht hshape (hasht_slot ht i).key
        obtain ⟨di, hdi, hdie⟩ := hasht_pos_reach ht _ i hhl hi
        have hhe := hasht_home_congr env ht henv _ _ heq
        exact hasht_inv_set env ht henv ⟨hshape, hk, hch, hun⟩ i
          (hasht_pr_filled (env.hasht_hash key) key value) ht.nelements ht.ndeleted hi
          hfs.2.2.2.1
          (by rw [hocc, hfs.2.2.1])
          (by rw [hfs.2.1, (hasht_pr_of_occupied _ hocc).2])
          (fun _ => hfs.2.2.2.2)
          (by intro h; rw [hfs.1] at h; exact absurd h (by simp))
          (fun _ => ⟨di, hdi, by
            show hasht_pos ht (hasht_home env ht key) di = i
            rw [hhe]; exact hdie, by
            intro e he
            show hasht_pr_is_empty (hasht_slot ht (hasht_pos ht (hasht_home env ht key) e)) = false
            rw [hhe]
            exact hch i di hi hocc hdi hdie e he⟩)
          (by
            intro _ j hj hji hoj hej
            have : env.hasht_key_eq_cmp (hasht_slot ht i).key (hasht_slot ht j).key = 0 :=
              henv.2.2.2.1 _ _ _ (henv.2.2.1 _ _ heq) hej
            exact hji (hun i j hi hj hocc hoj this).symm)
  · right; right
    refine ⟨hg, hnp, s, hs, hno, hf, ?_, ?_⟩
    · have hne1 : ¬ ((s : Int) = HASHT_NOT_FOUND) := by
        show ¬ ((s : Int) = -1)
        omega
      unfold hasht_insert_probe
      rw [hf]
      dsimp only
      rw [if_neg hne1, if_neg (by simp), if_pos rfl, hasht_tab_at_nat]
      cases hdl : hasht_pr_is_deleted (hasht_slot ht s) with
      | false =>
        simp only [Bool.false_eq_true, if_false]
        rw [hasht_set_pair_at_pos_nat]
      | true =>
        simp only [if_true]
        rw [hasht_set_pair_at_pos_nat]
    · exact hasht_inv_set env ht henv hinv s
        (hasht_pr_filled (env.hasht_hash key) key value) (ht.nelements + 1)
        (if hasht_pr_is_deleted (hasht_slot ht s) then ht.ndeleted - 1 else ht.ndeleted) hs
        hfs.2.2.2.1
        (by rw [hno, hfs.2.2.1]; simp)
        (by
          rw [hfs.2.1]
          cases hasht_pr_is_deleted (hasht_slot ht s) <;> simp)
        (fun _ => hfs.2.2.2.2)
        (by intro h; rw [hfs.1] at h; exact absurd h (by simp))
        (fun _ => ⟨d, hd, hps, hpath⟩)
        (by
          intro _ j hj _ hoj hej
          exact hnp ⟨j, hj, hoj, hej⟩)

end InsertInv

/-! ## A freshly initialised table -/

section Init
variable {K V : Type} [Inhabited K] [Inhabited V]

theorem hasht_get_adiv_power_idx_loop_spec (at_least : Nat) :
    ∀ (l : List Nat) (i : Nat), 0 ≤ hasht_get_adiv_power_idx_loop at_least i l →
      ∃ k, k < l.length ∧ hasht_get_adiv_power_idx_loop at_least i l = ((i + k : Nat) : Int) ∧
        at_least ≤ l.getD k 0 := by
  intro l
  induction l with
  | nil =>
    intro i h
    rw [hasht_get_adiv_power_idx_loop] at h
    exact absurd h (by decide)
  | cons v rest ih =>
    intro i h
    rw [hasht_get_adiv_power_idx_loop] at h ⊢
    by_cases hv : v ≥ at_least
    · rw [if_pos hv]
      exact ⟨0, by simp, by simp, by simpa using hv⟩
    · rw [if_neg hv] at h ⊢
      obtain ⟨k, hk, he, hge⟩ := ih (i + 1) h
      refine ⟨k + 1, by simpa using hk, ?_, by simpa using hge⟩
      rw [he]
      congr 1
      omega

theorem hasht_get_adiv_power_idx_spec (env : Env K) (at_least : Int)
    (h : ¬ hasht_get_adiv_power_idx env at_least < 0) :
    2 ≤ hasht_get_adiv_power_idx env at_least ∧
    (hasht_get_adiv_power_idx env at_least).toNat < env.adiv_values.length ∧
    (at_least % 2 ^ 64).toNat
      ≤ env.adiv_values.getD (hasht_get_adiv_power_idx env at_least).toNat 0 := by
  unfold hasht_get_adiv_power_idx at h ⊢
  obtain ⟨k, hk, he, hge⟩ := hasht_get_adiv_power_idx_loop_spec
    (at_least % 2 ^ 64).toNat (env.adiv_values.drop 2) 2 (by omega)
  rw [he]
  rw [List.length_drop] at hk
  refine ⟨by omega, by simp only [Int.toNat_ofNat]; omega, ?_⟩
  simp only [Int.toNat_ofNat]
  have : (List.drop 2 env.adiv_values).getD k 0 = env.adiv_values.getD (2 + k) 0 := by
    simp only [List.getD_eq_getElem?_getD, List.getElem?_drop]
  rw [this] at hge
  exact hge

theorem hasht_adiv_values_pos (env : Env K) (henv : hasht_env_ok env) (i : Nat) (hi : 1 ≤ i)
    (hlt : i < env.adiv_values.length) : 0 < env.adiv_values.getD i 0 := by
  have hp := henv.1
  rw [List.getD_eq_getElem _ _ hlt]
  have h0 : 0 < env.adiv_values.length := by omega
  have := List.pairwise_iff_getElem.1 hp 0 i h0 hlt (by omega)
  omega

theorem hasht_slot_replicate (ht : hasht K V) (n : Nat) (d : hasht_pair_type K V)
    (h : ht.tab = List.replicate n d) (i : Nat) (hi : i < n) : hasht_slot ht i = d := by
  unfold hasht_slot
  rw [h, List.getD_eq_getElem _ _ (by simpa using hi)]
  simp

theorem hasht_default_state :
    hasht_pr_is_empty (default : hasht_pair_type K V) = true ∧
    hasht_pr_is_occupied (default : hasht_pair_type K V) = false ∧
    hasht_pr_is_corrupt (default : hasht_pair_type K V) = false := by
  have h1 : hasht_pr_is_empty (default : hasht_pair_type K V) = true := by
    show (((0 : Nat) &&& 0xFF) &&& HASHT_VLT_IS_NOT_EMPTY == 0) = true
    decide
  refine ⟨h1, hasht_pr_is_occupied_of_empty _ h1, ?_⟩
  show ((((0 : Nat) &&& 0xFF) &&& HASHT_VLT_IS_CORRUPT) != 0 ||
    (((0 : Nat) &&& 0xFF) &&& (HASHT_VLT_IS_DELETED ||| HASHT_VLT_IS_NOT_EMPTY))
      == (HASHT_VLT_IS_DELETED ||| 0)) = false
  decide

theorem hasht_filter_replicate_false {α : Type} (P : α → Bool) (n : Nat) (d : α)
    (h : P d = false) : ((List.replicate n d).filter P).length = 0 := by
  induction n with
  | zero => rfl
  | succ m ih =>
    rw [List.replicate_succ, List.filter_cons, h]
    simpa using ih

/-- A table whose array is all zero buckets, with zero counters and the shape
of a size class, satisfies the invariant. -/
theorem hasht_inv_of_zeroed (env : Env K) (ht : hasht K V) (hs : hasht_shape_ok env ht)
    (htab : ht.tab = List.replicate ht.tab.length default)
    (hne : ht.nelements = 0) (hnd : ht.ndeleted = 0) :
    hasht_inv env ht ∧ hasht_count_deleted ht = 0 ∧
      ∀ i, i < ht.tab.length → hasht_pr_is_occupied (hasht_slot ht i) = false := by
  have hd := hasht_default_state (K := K) (V := V)
  have hsl : ∀ i, i < ht.tab.length → hasht_slot ht i = default :=
    fun i hi => hasht_slot_replicate ht _ _ htab i hi
  have hcd : hasht_count_deleted ht = 0 := by
    unfold hasht_count_deleted
    rw [htab]
    exact hasht_filter_replicate_false _ _ _ hasht_default_not_deleted
  have hco : hasht_count_occupied ht = 0 := by
    unfold hasht_count_occupied
    rw [htab]
    exact hasht_filter_replicate_false _ _ _ hd.2.1
  refine ⟨⟨hs, ⟨?_, ?_, ?_, ?_⟩, ?_, ?_⟩, hcd, ?_⟩
  · intro i hi
    rw [hsl i hi]; exact hd.2.2
  · rw [hne, hco]; rfl
  · rw [hnd, hcd]; rfl
  · intro i hi ho
    rw [hsl i hi, hd.2.1] at ho
    exact absurd ho (by simp)
  · intro i d hi ho
    rw [hsl i hi, hd.2.1] at ho
    exact absurd ho (by simp)
  · intro i j hi _ ho
    rw [hsl i hi, hd.2.1] at ho
    exact absurd ho (by simp)
  · intro i hi
    rw [hsl i hi]; exact hd.2.1

end Init

/-! ## What a successful `hasht_init_ex` leaves -/

section InitEx
variable {K V : Type} [Inhabited K] [Inhabited V]

theorem hasht_init_parameters_bad (ht : hasht K V) (s g : Int)
    (h : ((decide (s > 99) || decide (s < 0) || decide (g > 99) || decide (g < 0)) ||
      decide (s * 2 ≥ g)) = true) :
    hasht_init_parameters ht s g = (HASHT_INVALID_REQ_SZ, ht) := by
  unfold hasht_init_parameters
  dsimp only
  rw [if_pos h]

theorem hasht_init_parameters_good (ht : hasht K V) (s g : Int)
    (h : ((decide (s > 99) || decide (s < 0) || decide (g > 99) || decide (g < 0)) ||
      decide (s * 2 ≥ g)) = false) :
    hasht_init_parameters ht s g
      = (HASHT_OK, { ht with grow_at_percentage := g, shrink_at_percentage := s }) := by
  unfold hasht_init_parameters
  dsimp only
  rw [if_neg (by rw [h]; decide)]

theorem hasht_init_ex_eq (env : Env K) (ht0 : hasht K V) (n : Int)
    (alloc : Nat → Bool) (ud : Nat) (s g : Int)
    (h : (hasht_init_ex env ht0 n alloc ud s g).1 = HASHT_OK) :
    ¬ hasht_get_adiv_power_idx env
        (if hasht_calc_nelements_to_nbuckets n s g < HASHT_MIN_TABLESIZE then HASHT_MIN_TABLESIZE
         else hasht_calc_nelements_to_nbuckets n s g) < 0 ∧
    hasht_init_ex env ht0 n alloc ud s g = (HASHT_OK,
      { tab := List.replicate (env.adiv_values.getD (hasht_get_adiv_power_idx env
            (if hasht_calc_nelements_to_nbuckets n s g < HASHT_MIN_TABLESIZE then
              HASHT_MIN_TABLESIZE
             else hasht_calc_nelements_to_nbuckets n s g)).toNat 0) default,
        div_func := adiv_funcs env (hasht_get_adiv_power_idx env
            (if hasht_calc_nelements_to_nbuckets n s g < HASHT_MIN_TABLESIZE then
              HASHT_MIN_TABLESIZE
             else hasht_calc_nelements_to_nbuckets n s g)).toNat,
        nelements := 0, ndeleted := 0,
        nbuckets := (env.adiv_values.getD (hasht_get_adiv_power_idx env
            (if hasht_calc_nelements_to_nbuckets n s g < HASHT_MIN_TABLESIZE then
              HASHT_MIN_TABLESIZE
             else hasht_calc_nelements_to_nbuckets n s g)).toNat 0 : Nat),
        nbuckets_po2 := hasht_get_adiv_power_idx env
            (if hasht_calc_nelements_to_nbuckets n s g < HASHT_MIN_TABLESIZE then
              HASHT_MIN_TABLESIZE
             else hasht_calc_nelements_to_nbuckets n s g),
        grow_at_gt_n := (((env.adiv_values.getD (hasht_get_adiv_power_idx env
            (if hasht_calc_nelements_to_nbuckets n s g < HASHT_MIN_TABLESIZE then
              HASHT_MIN_TABLESIZE
             else hasht_calc_nelements_to_nbuckets n s g)).toNat 0 : Nat) : Int) * g).tdiv 100,
        shrink_at_lt_n := (((env.adiv_values.getD (hasht_get_adiv_power_idx env
            (if hasht_calc_nelements_to_nbuckets n s g < HASHT_MIN_TABLESIZE then
              HASHT_MIN_TABLESIZE
             else hasht_calc_nelements_to_nbuckets n s g)).toNat 0 : Nat) : Int) * s).tdiv 100,
        grow_at_percentage := g, shrink_at_percentage := s,
        memfuncs := ⟨alloc⟩, userdata := ud }) := by
  generalize hnb : (if hasht_calc_nelements_to_nbuckets n s g < HASHT_MIN_TABLESIZE then
    HASHT_MIN_TABLESIZE else hasht_calc_nelements_to_nbuckets n s g) = nb
  have hok : ¬ (HASHT_OK ≠ HASHT_OK) := by decide
  unfold hasht_init_ex at h ⊢
  dsimp only at h ⊢
  cases hpar : ((decide (s > 99) || decide (s < 0) || decide (g > 99) || decide (g < 0)) ||
      decide (s * 2 ≥ g))
  · rw [hasht_init_parameters_good _ _ _ hpar] at h ⊢
    simp only [if_neg hok] at h ⊢
    unfold hasht_change_sz_field at h ⊢
    dsimp only at h ⊢
    rw [hnb] at h ⊢
    by_cases hpo : hasht_get_adiv_power_idx env nb < 0
    · rw [if_pos hpo] at h
      simp [HASHT_INVALID_REQ_SZ, HASHT_OK] at h
    · rw [if_neg hpo] at h ⊢
      refine ⟨hpo, ?_⟩
      unfold hasht_set_parameters at h ⊢
      dsimp only at h ⊢
      rw [hasht_init_parameters_good _ _ _ hpar] at h ⊢
      dsimp only at h ⊢
      simp only [if_neg hok] at h ⊢
      cases hal : alloc (env.sizeof_pair *
          ((env.adiv_values.getD (hasht_get_adiv_power_idx env nb).toNat 0 : Nat) : Int).toNat)
      · rw [hal] at h
        simp [HASHT_ALLOC_ERR, HASHT_OK] at h
      · rw [if_pos rfl]
        unfold hasht_memset
        simp
  · rw [hasht_init_parameters_bad _ _ _ hpar] at h
    simp [HASHT_INVALID_REQ_SZ, HASHT_OK] at h

theorem hasht_init_ex_ok (env : Env K) (henv : hasht_env_ok env) (ht0 : hasht K V) (n : Int)
    (alloc : Nat → Bool) (ud : Nat) (s g : Int)
    (h : (hasht_init_ex env ht0 n alloc ud s g).1 = HASHT_OK) :
    hasht_inv env (hasht_init_ex env ht0 n alloc ud s g).2 ∧
    hasht_count_deleted (hasht_init_ex env ht0 n alloc ud s g).2 = 0 ∧
    (hasht_init_ex env ht0 n alloc ud s g).2.ndeleted = 0 ∧
    (hasht_init_ex env ht0 n alloc ud s g).2.nelements = 0 ∧
    (∀ i, i < (hasht_init_ex env ht0 n alloc ud s g).2.tab.length →
      hasht_pr_is_occupied (hasht_slot (hasht_init_ex env ht0 n alloc ud s g).2 i) = false) ∧
    (hasht_init_ex env ht0 n alloc ud s g).2.memfuncs.alloc = alloc ∧
    (hasht_init_ex env ht0 n alloc ud s g).2.userdata = ud ∧
    (hasht_init_ex env ht0 n alloc ud s g).2.shrink_at_percentage = s ∧
    (hasht_init_ex env ht0 n alloc ud s g).2.grow_at_percentage = g := by
  obtain ⟨hpo, heq⟩ := hasht_init_ex_eq env ht0 n alloc ud s g h
  obtain ⟨h2, hlt, _⟩ := hasht_get_adiv_power_idx_spec env _ hpo
  have hpos := hasht_adiv_values_pos env henv _ (by omega) hlt
  rw [heq]
  dsimp only
  have hz := hasht_inv_of_zeroed env (hasht_init_ex env ht0 n alloc ud s g).2
    (by
      rw [heq]
      refine ⟨?_, ?_, h2, rfl, rfl⟩
      · dsimp only
        rw [List.length_replicate]
      · dsimp only
        rw [List.length_replicate]
        exact hpos)
    (by rw [heq]; dsimp only; rw [List.length_replicate])
    (by rw [heq])
    (by rw [heq])
  rw [heq] at hz
  exact ⟨hz.1, hz.2.1, rfl, rfl, hz.2.2, rfl, rfl, rfl, rfl⟩

end InitEx

/-! ## Skipping to the next occupied bucket -/

section Skip
variable {K V : Type} [Inhabited K] [Inhabited V]

theorem hasht_index_within_start (ht : hasht K V) (i : Int) :
    hasht_index_within i i (ht.nbuckets - 1) = false := by
  unfold hasht_index_within
  simp

theorem hasht_index_within_other (ht : hasht K V) (hlen : (ht.tab.length : Int) = ht.nbuckets)
    (i c : Nat) (hi : i < ht.tab.length) (hc : c < ht.tab.length) (hne : c ≠ i) :
    hasht_index_within (i : Int) (c : Int) (ht.nbuckets - 1) = true := by
  unfold hasht_index_within
  have h1 : ¬ ((c : Int) > ht.nbuckets - 1) := by omega
  have h2 : ¬ ((i : Int) > ht.nbuckets - 1) := by omega
  have h3 : ¬ ((c : Int) = (i : Int)) := by omega
  simp [h1, h2, h3]

theorem hasht_pos_full (ht : hasht K V) (i : Nat) (hi : i < ht.tab.length) :
    hasht_pos ht i ht.tab.length = i := by
  unfold hasht_pos
  rw [Nat.add_mod_right, Nat.mod_eq_of_lt hi]

theorem hasht_skip_to_next_loop_spec (ht : hasht K V)
    (hlen : (ht.tab.length : Int) = ht.nbuckets) (i : Nat) (hi : i < ht.tab.length) :
    ∀ (fuel d : Nat), d < ht.tab.length → ht.tab.length ≤ fuel + d →
      ((∀ e, d ≤ e → e < ht.tab.length →
          hasht_pr_is_occupied (hasht_slot ht (hasht_pos ht i e)) = false) →
        hasht_skip_to_next_loop ht (i : Int) (ht.nbuckets - 1) fuel
          ((hasht_pos ht i d : Nat) : Int) = HASHT_ITER_STOP) ∧
      (∀ d', d ≤ d' → d' < ht.tab.length →
        hasht_pr_is_occupied (hasht_slot ht (hasht_pos ht i d')) = true →
        (∀ e, d ≤ e → e < d' →
          hasht_pr_is_occupied (hasht_slot ht (hasht_pos ht i e)) = false) →
        hasht_skip_to_next_loop ht (i : Int) (ht.nbuckets - 1) fuel
          ((hasht_pos ht i d : Nat) : Int) = ((hasht_pos ht i d' : Nat) : Int)) := by
  intro fuel
  induction fuel with
  | zero =>
    intro d hd hf
    omega
  | succ f ih =>
    intro d hd hf
    have hpos : 0 < ht.tab.length := by omega
    have hpd := hasht_pos_lt ht i d hpos
    rw [hasht_skip_to_next_loop, hasht_tab_at_nat]
    cases hocc : hasht_pr_is_occupied (hasht_slot ht (hasht_pos ht i d)) with
    | true =>
      rw [if_pos rfl]
      refine ⟨?_, ?_⟩
      · intro hall
        rw [hall d (le_refl d) hd] at hocc
        exact absurd hocc (by decide)
      · intro d' hdd hd' ho hgap
        by_cases he : d' = d
        · rw [he]
        · have := hgap d (le_refl d) (by omega)
          rw [this] at hocc
          exact absurd hocc (by decide)
    | false =>
      rw [if_neg (by decide)]
      dsimp only
      rw [hasht_idx_mod_succ ht hlen _ hpd, hasht_pos_pos]
      by_cases hlast : d + 1 = ht.tab.length
      · rw [hlast, hasht_pos_full ht i hi, hasht_index_within_start]
        simp only [Bool.not_false, if_true]
        refine ⟨fun _ => trivial, ?_⟩
        intro d' hdd hd' ho hgap
        have : d' = d := by omega
        rw [this, hocc] at ho
        exact absurd ho (by decide)
      · have hd1 : d + 1 < ht.tab.length := by omega
        have hne : hasht_pos ht i (d + 1) ≠ i := by
          intro h
          have := hasht_pos_inj ht i (d + 1) 0 hd1 hpos (by rw [h, hasht_pos_zero ht i hi])
          omega
        rw [hasht_index_within_other ht hlen i _ hi (hasht_pos_lt ht i _ hpos) hne]
        simp only [Bool.not_true, Bool.false_eq_true, if_false]
        obtain ⟨ih1, ih2⟩ := ih (d + 1) hd1 (by omega)
        refine ⟨?_, ?_⟩
        · intro hall
          exact ih1 (fun e he1 he2 => hall e (by omega) he2)
        · intro d' hdd hd' ho hgap
          have hne' : d' ≠ d := by
            intro h
            rw [h, hocc] at ho
            exact absurd ho (by decide)
          exact ih2 d' (by omega) hd' ho (fun e he1 he2 => hgap e (by omega) he2)

theorem hasht_skip_to_next_none (ht : hasht K V) (s c e : Int) (h : ht.nelements = 0) :
    hasht_skip_to_next__ ht s c e = HASHT_ITER_STOP := by
  unfold hasht_skip_to_next__
  rw [if_pos h]

theorem hasht_skip_to_next_first (ht : hasht K V)
    (hlen : (ht.tab.length : Int) = ht.nbuckets) (i : Nat) (hi : i < ht.tab.length)
    (hne : ht.nelements ≠ 0) :
    ((∀ e, e < ht.tab.length →
        hasht_pr_is_occupied (hasht_slot ht (hasht_pos ht i e)) = false) →
      hasht_skip_to_next__ ht (i : Int) HASHT_ITER_FIRST (ht.nbuckets - 1) = HASHT_ITER_STOP) ∧
    (∀ d', d' < ht.tab.length →
      hasht_pr_is_occupied (hasht_slot ht (hasht_pos ht i d')) = true →
      (∀ e, e < d' → hasht_pr_is_occupied (hasht_slot ht (hasht_pos ht i e)) = false) →
      hasht_skip_to_next__ ht (i : Int) HASHT_ITER_FIRST (ht.nbuckets - 1)
        = ((hasht_pos ht i d' : Nat) : Int)) := by
  have hfuel : ht.nbuckets.toNat = ht.tab.length := by omega
  obtain ⟨h1, h2⟩ := hasht_skip_to_next_loop_spec ht hlen i hi ht.tab.length 0 (by omega)
    (by omega)
  rw [hasht_pos_zero ht i hi] at h1 h2
  unfold hasht_skip_to_next__
  rw [if_neg hne, if_pos rfl, hfuel]
  exact ⟨fun hall => h1 (fun e _ he => hall e he),
    fun d' hd' ho hgap => h2 d' (Nat.zero_le _) hd' ho (fun e _ he => hgap e he)⟩

theorem hasht_skip_to_next_after (ht : hasht K V)
    (hlen : (ht.tab.length : Int) = ht.nbuckets) (i : Nat) (hi : i < ht.tab.length)
    (hne : ht.nelements ≠ 0) (d : Nat) (hd : d < ht.tab.length) :
    ((∀ e, d < e → e < ht.tab.length →
        hasht_pr_is_occupied (hasht_slot ht (hasht_pos ht i e)) = false) →
      hasht_skip_to_next__ ht (i : Int) ((hasht_pos ht i d : Nat) : Int) (ht.nbuckets - 1)
        = HASHT_ITER_STOP) ∧
    (∀ d', d < d' → d' < ht.tab.length →
      hasht_pr_is_occupied (hasht_slot ht (hasht_pos ht i d')) = true →
      (∀ e, d < e → e < d' → hasht_pr_is_occupied (hasht_slot ht (hasht_pos ht i e)) = false) →
      hasht_skip_to_next__ ht (i : Int) ((hasht_pos ht i d : Nat) : Int) (ht.nbuckets - 1)
        = ((hasht_pos ht i d' : Nat) : Int)) := by
  have hfuel : ht.nbuckets.toNat = ht.tab.length := by omega
  have hpos : 0 < ht.tab.length := by omega
  have hpd := hasht_pos_lt ht i d hpos
  have hnf : ¬ (((hasht_pos ht i d : Nat) : Int) = HASHT_ITER_FIRST) := by
    have : (0 : Int) ≤ ((hasht_pos ht i d : Nat) : Int) := Int.ofNat_nonneg _
    intro h
    rw [h] at this
    exact absurd this (by decide)
  unfold hasht_skip_to_next__
  rw [if_neg hne, if_neg hnf]
  dsimp only
  rw [hasht_idx_mod_succ ht hlen _ hpd, hasht_pos_pos]
  by_cases hlast : d + 1 = ht.tab.length
  · rw [hlast, hasht_pos_full ht i hi, hasht_index_within_start]
    simp only [Bool.not_false, if_true]
    refine ⟨fun _ => trivial, ?_⟩
    intro d' hdd hd'
    omega
  · have hd1 : d + 1 < ht.tab.length := by omega
    have hne' : hasht_pos ht i (d + 1) ≠ i := by
      intro h
      have := hasht_pos_inj ht i (d + 1) 0 hd1 hpos (by rw [h, hasht_pos_zero ht i hi])
      omega
    rw [hasht_index_within_other ht hlen i _ hi (hasht_pos_lt ht i _ hpos) hne']
    simp only [Bool.not_true, Bool.false_eq_true, if_false]
    rw [hfuel]
    obtain ⟨h1, h2⟩ := hasht_skip_to_next_loop_spec ht hlen i hi ht.tab.length (d + 1) hd1
      (by omega)
    exact ⟨fun hall => h1 (fun e he1 he2 => hall e (by omega) he2),
      fun d' hdd hd' ho hgap => h2 d' (by omega) hd' ho (fun e he1 he2 => hgap e (by omega) he2)⟩

theorem hasht_pos_of_zero (ht : hasht K V) (e : Nat) (he : e < ht.tab.length) :
    hasht_pos ht 0 e = e := by
  unfold hasht_pos
  rw [Nat.zero_add, Nat.mod_eq_of_lt he]

end Skip

/-! ## Occupied buckets below an index -/

section Below
variable {K V : Type} [Inhabited K] [Inhabited V]

theorem hasht_count_occupied_below_zero (ht : hasht K V) :
    hasht_count_occupied_below ht 0 = 0 := by
  unfold hasht_count_occupied_below
  rw [List.take_zero]
  rfl

theorem hasht_count_occupied_below_succ (ht : hasht K V) (c : Nat) (hc : c < ht.tab.length) :
    hasht_count_occupied_below ht (c + 1) = hasht_count_occupied_below ht c +
      (if hasht_pr_is_occupied (hasht_slot ht c) then 1 else 0) := by
  unfold hasht_count_occupied_below hasht_slot
  rw [List.take_succ, List.filter_append, List.length_append]
  congr 1
  rw [List.getElem?_eq_getElem hc, List.getD_eq_getElem _ _ hc]
  simp only [Option.toList]
  rw [List.filter_cons]
  split <;> rfl

theorem hasht_count_occupied_below_gap (ht : hasht K V) (c : Nat) :
    ∀ (m : Nat), c + m ≤ ht.tab.length →
      (∀ e, c ≤ e → e < c + m → hasht_pr_is_occupied (hasht_slot ht e) = false) →
      hasht_count_occupied_below ht (c + m) = hasht_count_occupied_below ht c := by
  intro m
  induction m with
  | zero => intro _ _; rfl
  | succ k ih =>
    intro hle hgap
    rw [← Nat.add_assoc, hasht_count_occupied_below_succ ht (c + k) (by omega),
      hgap (c + k) (by omega) (by omega), ih (by omega) (fun e h1 h2 => hgap e h1 (by omega))]
    simp

theorem hasht_count_occupied_below_all (ht : hasht K V) :
    hasht_count_occupied_below ht ht.tab.length = hasht_count_occupied ht := by
  unfold hasht_count_occupied_below hasht_count_occupied
  rw [List.take_length]

theorem hasht_count_occupied_below_mono (ht : hasht K V) (c : Nat) :
    ∀ (m : Nat), c + m ≤ ht.tab.length →
      hasht_count_occupied_below ht c ≤ hasht_count_occupied_below ht (c + m) := by
  intro m
  induction m with
  | zero => intro _; exact le_refl _
  | succ k ih =>
    intro hle
    rw [← Nat.add_assoc, hasht_count_occupied_below_succ ht (c + k) (by omega)]
    have := ih (by omega)
    omega

theorem hasht_next_from_exists (ht : hasht K V) (c : Nat) :
    (∀ e, c ≤ e → e < ht.tab.length → hasht_pr_is_occupied (hasht_slot ht e) = false) ∨
    (∃ i, c ≤ i ∧ i < ht.tab.length ∧ hasht_pr_is_occupied (hasht_slot ht i) = true ∧
      (∀ e, c ≤ e → e < i → hasht_pr_is_occupied (hasht_slot ht e) = false)) := by
  by_cases hex : ∃ i, c ≤ i ∧ i < ht.tab.length ∧ hasht_pr_is_occupied (hasht_slot ht i) = true
  · right
    classical
    refine ⟨Nat.find hex, (Nat.find_spec hex).1, (Nat.find_spec hex).2.1,
      (Nat.find_spec hex).2.2, ?_⟩
    intro e he1 he2
    have := Nat.find_min hex he2
    cases ho : hasht_pr_is_occupied (hasht_slot ht e) with
    | false => rfl
    | true =>
      exact absurd ⟨he1, by have := (Nat.find_spec hex).2.1; omega, ho⟩ this
  · left
    intro e he1 he2
    cases ho : hasht_pr_is_occupied (hasht_slot ht e) with
    | false => rfl
    | true => exact absurd ⟨e, he1, he2, ho⟩ hex

theorem hasht_occupied_count_pos (ht : hasht K V) (i : Nat) (hi : i < ht.tab.length)
    (ho : hasht_pr_is_occupied (hasht_slot ht i) = true) : 0 < hasht_count_occupied ht := by
  unfold hasht_count_occupied
  apply List.length_pos_of_mem (a := hasht_slot ht i)
  rw [List.mem_filter]
  exact ⟨hasht_slot_mem ht i hi, ho⟩

theorem hasht_count_zero_not_occupied (ht : hasht K V) (h : hasht_count_occupied ht = 0)
    (i : Nat) (hi : i < ht.tab.length) : hasht_pr_is_occupied (hasht_slot ht i) = false := by
  cases ho : hasht_pr_is_occupied (hasht_slot ht i) with
  | false => rfl
  | true =>
    have := hasht_occupied_count_pos ht i hi ho
    omega

/-- The first call of `hasht_skip_to_next__` of a pass that starts at bucket 0. -/
theorem hasht_next_from_first (ht : hasht K V) (hlen : (ht.tab.length : Int) = ht.nbuckets)
    (hpos : 0 < ht.tab.length) (hz : ht.nelements = 0 → hasht_count_occupied ht = 0) :
    hasht_next_from ht 0
      (hasht_skip_to_next__ ht 0 HASHT_ITER_FIRST (ht.nbuckets - 1)) := by
  by_cases hne : ht.nelements = 0
  · left
    exact ⟨hasht_skip_to_next_none ht _ _ _ hne,
      fun e _ he => hasht_count_zero_not_occupied ht (hz hne) e he⟩
  · obtain ⟨h1, h2⟩ := hasht_skip_to_next_first ht hlen 0 hpos hne
    rcases hasht_next_from_exists ht 0 with hnone | ⟨i, _, hi, ho, hgap⟩
    · left
      refine ⟨h1 (fun e he => ?_), hnone⟩
      rw [hasht_pos_of_zero ht e he]
      exact hnone e (Nat.zero_le _) he
    · right
      refine ⟨i, Nat.zero_le _, hi, ho, hgap, ?_⟩
      have := h2 i hi (by rw [hasht_pos_of_zero ht i hi]; exact ho)
        (fun e he => by
          rw [hasht_pos_of_zero ht e (by omega)]
          exact hgap e (Nat.zero_le _) he)
      rw [hasht_pos_of_zero ht i hi] at this
      exact this

/-- A later call of `hasht_skip_to_next__` of a pass that starts at bucket 0. -/
theorem hasht_next_from_after (ht : hasht K V) (hlen : (ht.tab.length : Int) = ht.nbuckets)
    (hne : ht.nelements ≠ 0) (c : Nat) (hc : c < ht.tab.length) :
    hasht_next_from ht (c + 1)
      (hasht_skip_to_next__ ht 0 (c : Int) (ht.nbuckets - 1)) := by
  have hpos : 0 < ht.tab.length := by omega
  obtain ⟨h1, h2⟩ := hasht_skip_to_next_after ht hlen 0 hpos hne c hc
  rw [hasht_pos_of_zero ht c hc] at h1 h2
  rcases hasht_next_from_exists ht (c + 1) with hnone | ⟨i, hci, hi, ho, hgap⟩
  · left
    refine ⟨h1 (fun e he1 he2 => ?_), hnone⟩
    rw [hasht_pos_of_zero ht e he2]
    exact hnone e (by omega) he2
  · right
    refine ⟨i, hci, hi, ho, hgap, ?_⟩
    have := h2 i (by omega) hi (by rw [hasht_pos_of_zero ht i hi]; exact ho)
      (fun e he1 he2 => by
        rw [hasht_pos_of_zero ht e (by omega)]
        exact hgap e (by omega) he2)
    rw [hasht_pos_of_zero ht i hi] at this
    exact this

end Below

/-! ## The copy loop of a resize -/

section Copy
variable {K V : Type} [Inhabited K] [Inhabited V]

theorem hasht_copied_absent (env : Env K) (source dest : hasht K V) (c i : Nat)
    (hu : hasht_unique_ok env source) (hcop : hasht_copied source dest c) (hci : c ≤ i)
    (hi : i < source.tab.length) (ho : hasht_pr_is_occupied (hasht_slot source i) = true) :
    ¬ hasht_present env dest (hasht_slot source i).key := by
  rintro ⟨m, hm, hom, hcmp⟩
  obtain ⟨j, hjc, hj, hoj, hkey, _⟩ :=
    (hcop (hasht_slot dest m).key (hasht_slot dest m).value).1 ⟨m, hm, hom, rfl, rfl⟩
  rw [← hkey] at hcmp
  have := hu i j hi hj ho hoj hcmp
  omega

theorem hasht_copied_step (source dest dest' : hasht K V) (c i : Nat)
    (hcop : hasht_copied source dest c) (hci : c ≤ i) (hi : i < source.tab.length)
    (ho : hasht_pr_is_occupied (hasht_slot source i) = true)
    (hgap : ∀ e, c ≤ e → e < i → hasht_pr_is_occupied (hasht_slot source e) = false)
    (hadd : ∀ k v, hasht_holds dest' k v ↔
      (hasht_holds dest k v ∨ (k = (hasht_slot source i).key ∧ v = (hasht_slot source i).value))) :
    hasht_copied source dest' (i + 1) := by
  intro k v
  rw [hadd k v, hcop k v]
  constructor
  · rintro (⟨j, hjc, hj, hoj, hk, hv⟩ | ⟨hk, hv⟩)
    · exact ⟨j, by omega, hj, hoj, hk, hv⟩
    · exact ⟨i, by omega, hi, ho, hk.symm, hv.symm⟩
  · rintro ⟨j, hji, hj, hoj, hk, hv⟩
    by_cases hjc : j < c
    · exact Or.inl ⟨j, hjc, hj, hoj, hk, hv⟩
    · by_cases hje : j = i
      · subst hje
        exact Or.inr ⟨hk.symm, hv.symm⟩
      · have := hgap j (by omega) (by omega)
        rw [this] at hoj
        exact absurd hoj (by decide)

theorem hasht_copied_end (source dest : hasht K V) (c : Nat)
    (hcop : hasht_copied source dest c)
    (hgap : ∀ e, c ≤ e → e < source.tab.length →
      hasht_pr_is_occupied (hasht_slot source e) = false) :
    hasht_copied source dest source.tab.length := by
  intro k v
  rw [hcop k v]
  constructor
  · rintro ⟨j, hjc, hj, hoj, hk, hv⟩
    exact ⟨j, hj, hj, hoj, hk, hv⟩
  · rintro ⟨j, _, hj, hoj, hk, hv⟩
    by_cases hjc : j < c
    · exact ⟨j, hjc, hj, hoj, hk, hv⟩
    · have := hgap j (by omega) hj
      rw [this] at hoj
      exact absurd hoj (by decide)

theorem hasht_copied_same_content (source dest : hasht K V)
    (hcop : hasht_copied source dest source.tab.length) : hasht_same_content dest source := by
  intro k v
  rw [hcop k v]
  constructor
  · rintro ⟨j, _, hj, hoj, hk, hv⟩
    exact ⟨j, hj, hoj, hk, hv⟩
  · rintro ⟨j, hj, hoj, hk, hv⟩
    exact ⟨j, hj, hj, hoj, hk, hv⟩

theorem hasht_copy_all_to_loop_spec (env : Env K)
    (ins : hasht K V → K → V → Option (Int × hasht K V)) (n : Nat)
    (hspec : hasht_insert_spec env ins n) (source : hasht K V) (hinv : hasht_inv env source) :
    ∀ (fuel c : Nat) (dest : hasht K V) (idx : Int),
      c ≤ source.tab.length → source.tab.length < fuel + c →
      hasht_inv env dest → hasht_clean dest → hasht_copied source dest c →
      dest.nelements = (hasht_count_occupied_below source c : Int) →
      hasht_next_from source c idx →
      (source.nelements ≤ (n : Int) →
        ∃ r, hasht_copy_all_to_loop ins source fuel dest idx = some r) ∧
      ∀ r, hasht_copy_all_to_loop ins source fuel dest idx = some r →
        r.1 ≠ HASHT_DUPLICATE_KEY ∧
        (r.1 = HASHT_OK → hasht_inv env r.2 ∧ hasht_clean r.2 ∧
          hasht_copied source r.2 source.tab.length ∧ r.2.nelements = source.nelements) := by
  have hlen := hinv.1.1
  have hne := hinv.2.1.2.1
  intro fuel
  induction fuel with
  | zero =>
    intro c dest idx hc hf
    omega
  | succ f ih =>
    intro c dest idx hc hf hdinv hclean hcop hcount hnext
    rw [hasht_copy_all_to_loop]
    rcases hnext with ⟨hstop, hgap⟩ | ⟨i, hci, hi, ho, hgap, hidx⟩
    · rw [hstop, if_neg (by decide), if_neg (by decide)]
      refine ⟨fun _ => ⟨_, rfl⟩, ?_⟩
      intro r hr
      rw [Option.some.injEq] at hr
      rw [← hr]
      refine ⟨by show (HASHT_OK : Int) ≠ HASHT_DUPLICATE_KEY; decide,
        fun _ => ⟨hdinv, hclean, hasht_copied_end source dest c hcop hgap, ?_⟩⟩
      dsimp only
      have h1 := hasht_count_occupied_below_gap source c (source.tab.length - c) (by omega)
        (fun e h1 h2 => hgap e h1 (by omega))
      rw [Nat.add_sub_cancel' hc, hasht_count_occupied_below_all] at h1
      rw [hcount, hne, h1]
    · have hge : idx ≥ 0 := by rw [hidx]; exact Int.ofNat_nonneg _
      rw [if_pos hge, hidx, hasht_tab_at_nat]
      dsimp only
      have hci' := hasht_count_occupied_below_gap source c (i - c) (by omega)
        (fun e h1 h2 => hgap e h1 (by omega))
      rw [Nat.add_sub_cancel' hci] at hci'
      have hsucc := hasht_count_occupied_below_succ source i hi
      rw [ho, if_pos rfl] at hsucc
      have hmono := hasht_count_occupied_below_mono source (i + 1) (source.tab.length - (i + 1))
        (by omega)
      rw [Nat.add_sub_cancel' (by omega : i + 1 ≤ source.tab.length),
        hasht_count_occupied_below_all] at hmono
      obtain ⟨hterm, hpost⟩ := hspec dest (hasht_slot source i).key (hasht_slot source i).value
        hdinv
      cases hins : ins dest (hasht_slot source i).key (hasht_slot source i).value with
      | none =>
        dsimp only
        refine ⟨?_, fun r hr => absurd hr (by simp)⟩
        intro hfit
        obtain ⟨r, hr⟩ := hterm (by omega)
        rw [hins] at hr
        exact absurd hr (by simp)
      | some r1 =>
        obtain ⟨rv, dest'⟩ := r1
        dsimp only
        obtain ⟨hinv', hok, hnok, hdup, hcl⟩ := hpost (rv, dest') hins
        by_cases hrv : rv = HASHT_OK
        · have hnn : ¬ (rv ≠ HASHT_OK) := fun h => h hrv
          rw [if_neg hnn]
          obtain ⟨_, hnel, hadd⟩ := hok hrv
          have hsne : source.nelements ≠ 0 := by
            have := hasht_occupied_count_pos source i hi ho
            omega
          exact ih (i + 1) dest' _ (by omega) (by omega) hinv' (hcl hclean)
            (hasht_copied_step source dest dest' c i hcop hci hi ho hgap hadd)
            (by dsimp only at hnel; rw [hnel, hcount]; omega)
            (hasht_next_from_after source hlen hsne i hi)
        · rw [if_pos hrv]
          refine ⟨fun _ => ⟨_, rfl⟩, ?_⟩
          intro r hr
          rw [Option.some.injEq] at hr
          rw [← hr]
          refine ⟨?_, fun h => absurd h hrv⟩
          intro hd
          exact hasht_copied_absent env source dest c i hinv.2.2.2 hcop hci hi ho (hdup hd)

theorem hasht_copy_all_to_spec (env : Env K)
    (ins : hasht K V → K → V → Option (Int × hasht K V)) (n : Nat)
    (hspec : hasht_insert_spec env ins n) (source : hasht K V) (hinv : hasht_inv env source)
    (dest : hasht K V) (hdinv : hasht_inv env dest) (hclean : hasht_clean dest)
    (hzero : dest.nelements = 0)
    (hnone : ∀ i, i < dest.tab.length → hasht_pr_is_occupied (hasht_slot dest i) = false) :
    (source.nelements ≤ (n : Int) → ∃ r, hasht_copy_all_to ins dest source = some r) ∧
    ∀ r, hasht_copy_all_to ins dest source = some r →
      r.1 ≠ HASHT_DUPLICATE_KEY ∧
      (r.1 = HASHT_OK → hasht_inv env r.2 ∧ hasht_clean r.2 ∧
        hasht_same_content r.2 source ∧ r.2.nelements = source.nelements) := by
  have hlen := hinv.1.1
  have hfuel : source.nbuckets.toNat = source.tab.length := by omega
  have hcop : hasht_copied source dest 0 := by
    intro k v
    constructor
    · rintro ⟨i, hi, ho, _⟩
      rw [hnone i hi] at ho
      exact absurd ho (by decide)
    · rintro ⟨j, hj, _⟩
      omega
  have hmain := hasht_copy_all_to_loop_spec env ins n hspec source hinv
    (source.tab.length + 1) 0 dest
    (hasht_skip_to_next__ source 0 HASHT_ITER_FIRST (source.nbuckets - 1))
    (Nat.zero_le _) (by omega) hdinv hclean hcop
    (by rw [hzero, hasht_count_occupied_below_zero]; rfl)
    (hasht_next_from_first source hlen hinv.1.2.1
      (fun h => by have := hinv.2.1.2.1; omega))
  unfold hasht_copy_all_to
  rw [hfuel]
  refine ⟨hmain.1, fun r hr => ?_⟩
  obtain ⟨h1, h2⟩ := hmain.2 r hr
  exact ⟨h1, fun hok => ⟨(h2 hok).1, (h2 hok).2.1,
    hasht_copied_same_content source r.2 (h2 hok).2.2.1, (h2 hok).2.2.2⟩⟩

theorem hasht_init_ex_codes (env : Env K) (ht0 : hasht K V) (n : Int)
    (alloc : Nat → Bool) (ud : Nat) (s g : Int) :
    (hasht_init_ex env ht0 n alloc ud s g).1 = HASHT_OK ∨
    (hasht_init_ex env ht0 n alloc ud s g).1 = HASHT_INVALID_REQ_SZ ∨
    (hasht_init_ex env ht0 n alloc ud s g).1 = HASHT_ALLOC_ERR := by
  have hok : ¬ (HASHT_OK ≠ HASHT_OK) := by decide
  generalize hnb : (if hasht_calc_nelements_to_nbuckets n s g < HASHT_MIN_TABLESIZE then
    HASHT_MIN_TABLESIZE else hasht_calc_nelements_to_nbuckets n s g) = nb
  unfold hasht_init_ex
  dsimp only
  cases hpar : ((decide (s > 99) || decide (s < 0) || decide (g > 99) || decide (g < 0)) ||
      decide (s * 2 ≥ g))
  · rw [hasht_init_parameters_good _ _ _ hpar]
    dsimp only
    simp only [if_neg hok]
    unfold hasht_change_sz_field
    dsimp only
    rw [hnb]
    by_cases hpo : hasht_get_adiv_power_idx env nb < 0
    · rw [if_pos hpo]
      right; left
      simp [HASHT_INVALID_REQ_SZ, HASHT_OK]
    · rw [if_neg hpo]
      unfold hasht_set_parameters
      dsimp only
      rw [hasht_init_parameters_good _ _ _ hpar]
      dsimp only
      simp only [if_neg hok]
      cases hal : alloc (env.sizeof_pair *
          ((env.adiv_values.getD (hasht_get_adiv_power_idx env nb).toNat 0 : Nat) : Int).toNat)
      · right; right
        simp
      · left
        simp
  · rw [hasht_init_parameters_bad _ _ _ hpar]
    right; left
    simp [HASHT_INVALID_REQ_SZ, HASHT_OK]

/-- What `hasht_resize__` returns: it never reports a duplicate key, and the
table it leaves is the one it was given, or a tombstone-free table with the
same entries. -/
theorem hasht_resize_spec (env : Env K) (henv : hasht_env_ok env)
    (ins : hasht K V → K → V → Option (Int × hasht K V)) (n : Nat)
    (hspec : hasht_insert_spec env ins n) (ht : hasht K V) (hinv : hasht_inv env ht)
    (cnt : Int) :
    (ht.nelements ≤ (n : Int) → ∃ r, hasht_resize__ ins env ht cnt = some r) ∧
    ∀ r, hasht_resize__ ins env ht cnt = some r →
      r.1 ≠ HASHT_DUPLICATE_KEY ∧
      (r.2 = ht ∨ (r.1 = HASHT_OK ∧ hasht_inv env r.2 ∧ hasht_clean r.2 ∧
        hasht_same_content r.2 ht ∧ r.2.nelements = ht.nelements)) := by
  unfold hasht_resize__
  dsimp only
  by_cases hsame : ht.nbuckets_po2 = hasht_get_adiv_power_idx env
      (hasht_calc_nelements_to_nbuckets cnt ht.shrink_at_percentage ht.grow_at_percentage)
  · rw [if_pos hsame]
    refine ⟨fun _ => ⟨_, rfl⟩, fun r hr => ?_⟩
    rw [Option.some.injEq] at hr
    rw [← hr]
    exact ⟨by show (HASHT_OK : Int) ≠ HASHT_DUPLICATE_KEY; decide, Or.inl rfl⟩
  · rw [if_neg hsame]
    unfold hasht_init_copy_settings
    have hcodes := hasht_init_ex_codes env ht
      (hasht_calc_nelements_to_nbuckets cnt ht.shrink_at_percentage ht.grow_at_percentage)
      ht.memfuncs.alloc ht.userdata ht.shrink_at_percentage ht.grow_at_percentage
    have hinit := hasht_init_ex_ok env henv ht
      (hasht_calc_nelements_to_nbuckets cnt ht.shrink_at_percentage ht.grow_at_percentage)
      ht.memfuncs.alloc ht.userdata ht.shrink_at_percentage ht.grow_at_percentage
    generalize hasht_init_ex env ht
      (hasht_calc_nelements_to_nbuckets cnt ht.shrink_at_percentage ht.grow_at_percentage)
      ht.memfuncs.alloc ht.userdata ht.shrink_at_percentage ht.grow_at_percentage = ini
      at hcodes hinit
    obtain ⟨rv0, new_ht⟩ := ini
    dsimp only at hcodes hinit ⊢
    by_cases hrv0 : rv0 = HASHT_OK
    · have hnn : ¬ (rv0 ≠ HASHT_OK) := fun h => h hrv0
      rw [if_neg hnn]
      obtain ⟨hninv, hcd, hnd, hnel, hnone, _⟩ := hinit hrv0
      obtain ⟨hterm, hpost⟩ := hasht_copy_all_to_spec env ins n hspec ht hinv new_ht hninv
        ⟨hcd, hnd⟩ hnel hnone
      cases hcopy : hasht_copy_all_to ins new_ht ht with
      | none =>
        dsimp only
        refine ⟨fun hfit => ?_, fun r hr => absurd hr (by simp)⟩
        obtain ⟨r, hr⟩ := hterm hfit
        rw [hcopy] at hr
        exact absurd hr (by simp)
      | some r1 =>
        obtain ⟨rv, new_ht'⟩ := r1
        dsimp only
        obtain ⟨hnd', hok'⟩ := hpost (rv, new_ht') hcopy
        by_cases hrv : rv = HASHT_OK
        · have hnn' : ¬ (rv ≠ HASHT_OK) := fun h => h hrv
          rw [if_neg hnn']
          refine ⟨fun _ => ⟨_, rfl⟩, fun r hr => ?_⟩
          rw [Option.some.injEq] at hr
          rw [← hr]
          obtain ⟨a, b, c, d⟩ := hok' hrv
          exact ⟨by show (HASHT_OK : Int) ≠ HASHT_DUPLICATE_KEY; decide,
            Or.inr ⟨rfl, a, b, c, d⟩⟩
        · rw [if_pos hrv]
          refine ⟨fun _ => ⟨_, rfl⟩, fun r hr => ?_⟩
          rw [Option.some.injEq] at hr
          rw [← hr]
          exact ⟨hnd', Or.inl rfl⟩
    · rw [if_pos hrv0]
      refine ⟨fun _ => ⟨_, rfl⟩, fun r hr => ?_⟩
      rw [Option.some.injEq] at hr
      rw [← hr]
      refine ⟨?_, Or.inl rfl⟩
      dsimp only
      rcases hcodes with h | h | h
      · exact absurd h hrv0
      · rw [h]; decide
      · rw [h]; decide

theorem hasht_if_needed_try_resize_spec (env : Env K) (henv : hasht_env_ok env)
    (ins : hasht K V → K → V → Option (Int × hasht K V)) (n : Nat)
    (hspec : hasht_insert_spec env ins n) (ht : hasht K V) (hinv : hasht_inv env ht)
    (hint : Int) :
    (ht.nelements ≤ (n : Int) → ∃ r, hasht_if_needed_try_resize ins env ht hint = some r) ∧
    ∀ r, hasht_if_needed_try_resize ins env ht hint = some r →
      r.1 ≠ HASHT_DUPLICATE_KEY ∧
      (r.2 = ht ∨ (r.1 = HASHT_OK ∧ hasht_inv env r.2 ∧ hasht_clean r.2 ∧
        hasht_same_content r.2 ht ∧ r.2.nelements = ht.nelements)) := by
  unfold hasht_if_needed_try_resize
  split
  · exact hasht_resize_spec env henv ins n hspec ht hinv _
  · split
    · exact hasht_resize_spec env henv ins n hspec ht hinv _
    · refine ⟨fun _ => ⟨_, rfl⟩, fun r hr => ?_⟩
      rw [Option.some.injEq] at hr
      rw [← hr]
      exact ⟨by show (HASHT_OK : Int) ≠ HASHT_DUPLICATE_KEY; decide, Or.inl rfl⟩

end Copy

/-! ## The entries of a table under a write -/

section Content
variable {K V : Type} [Inhabited K] [Inhabited V]

theorem hasht_slot_of_tab (ht ht' : hasht K V) (h : ht'.tab = ht.tab) (m : Nat) :
    hasht_slot ht' m = hasht_slot ht m := by
  unfold hasht_slot
  rw [h]

theorem hasht_slot_of_set (ht ht' : hasht K V) (n : Nat) (q : hasht_pair_type K V)
    (hn : n < ht.tab.length) (h : ht'.tab = ht.tab.set n q) (m : Nat) :
    hasht_slot ht' m = if m = n then q else hasht_slot ht m := by
  rw [← hasht_slot_set ht n m q hn]
  exact hasht_slot_of_tab _ _ h m

/-- The entries after a write of an occupied bucket `q` over a bucket that was
not occupied: the old entries and the one of `q`. -/
theorem hasht_holds_add (ht ht' : hasht K V) (n : Nat) (q : hasht_pair_type K V)
    (hn : n < ht.tab.length) (h : ht'.tab = ht.tab.set n q)
    (hq : hasht_pr_is_occupied q = true)
    (hold : hasht_pr_is_occupied (hasht_slot ht n) = false) (k : K) (v : V) :
    hasht_holds ht' k v ↔ (hasht_holds ht k v ∨ (k = q.key ∧ v = q.value)) := by
  have hl : ht'.tab.length = ht.tab.length := by rw [h, List.length_set]
  constructor
  · rintro ⟨i, hi, ho, hk, hv⟩
    rw [hasht_slot_of_set ht ht' n q hn h i] at ho hk hv
    by_cases hin : i = n
    · rw [if_pos hin] at hk hv
      exact Or.inr ⟨hk.symm, hv.symm⟩
    · rw [if_neg hin] at ho hk hv
      exact Or.inl ⟨i, by omega, ho, hk, hv⟩
  · rintro (⟨i, hi, ho, hk, hv⟩ | ⟨hk, hv⟩)
    · have hin : i ≠ n := by
        intro hh
        rw [hh, hold] at ho
        exact absurd ho (by decide)
      refine ⟨i, by omega, ?_, ?_, ?_⟩ <;> rw [hasht_slot_of_set ht ht' n q hn h i, if_neg hin]
      · exact ho
      · exact hk
      · exact hv
    · refine ⟨n, by omega, ?_, ?_, ?_⟩ <;> rw [hasht_slot_of_set ht ht' n q hn h n, if_pos rfl]
      · exact hq
      · exact hk.symm
      · exact hv.symm

theorem hasht_present_iff_holds (env : Env K) (ht : hasht K V) (k : K) :
    hasht_present env ht k ↔ ∃ k' v', hasht_holds ht k' v' ∧ env.hasht_key_eq_cmp k k' = 0 := by
  constructor
  · rintro ⟨i, hi, ho, hc⟩
    exact ⟨_, _, ⟨i, hi, ho, rfl, rfl⟩, hc⟩
  · rintro ⟨k', v', ⟨i, hi, ho, hk, _⟩, hc⟩
    exact ⟨i, hi, ho, by rw [hk]; exact hc⟩

theorem hasht_present_congr (env : Env K) (a b : hasht K V) (h : hasht_same_content a b)
    (k : K) : hasht_present env a k ↔ hasht_present env b k := by
  rw [hasht_present_iff_holds, hasht_present_iff_holds]
  constructor
  · rintro ⟨k', v', hh, hc⟩
    exact ⟨k', v', (h k' v').1 hh, hc⟩
  · rintro ⟨k', v', hh, hc⟩
    exact ⟨k', v', (h k' v').2 hh, hc⟩

theorem hasht_maps_iff_holds (env : Env K) (ht : hasht K V) (k : K) (v : V) :
    hasht_maps env ht k v ↔ ∃ k', hasht_holds ht k' v ∧ env.hasht_key_eq_cmp k k' = 0 := by
  constructor
  · rintro ⟨i, hi, ho, hc, hv⟩
    exact ⟨_, ⟨i, hi, ho, rfl, hv⟩, hc⟩
  · rintro ⟨k', ⟨i, hi, ho, hk, hv⟩, hc⟩
    exact ⟨i, hi, ho, by rw [hk]; exact hc, hv⟩

theorem hasht_maps_congr (env : Env K) (a b : hasht K V) (h : hasht_same_content a b)
    (k : K) (v : V) : hasht_maps env a k v ↔ hasht_maps env b k v := by
  rw [hasht_maps_iff_holds, hasht_maps_iff_holds]
  constructor
  · rintro ⟨k', hh, hc⟩
    exact ⟨k', (h k' v).1 hh, hc⟩
  · rintro ⟨k', hh, hc⟩
    exact ⟨k', (h k' v).2 hh, hc⟩

theorem hasht_same_content_refl (a : hasht K V) : hasht_same_content a a :=
  fun _ _ => Iff.rfl

theorem hasht_same_content_trans (a b c : hasht K V) (h1 : hasht_same_content a b)
    (h2 : hasht_same_content b c) : hasht_same_content a c :=
  fun k v => (h1 k v).trans (h2 k v)

theorem hasht_count_deleted_zero_slot (ht : hasht K V) (h : hasht_count_deleted ht = 0)
    (i : Nat) (hi : i < ht.tab.length) : hasht_pr_is_deleted (hasht_slot ht i) = false := by
  cases hd : hasht_pr_is_deleted (hasht_slot ht i) with
  | false => rfl
  | true =>
    have : 0 < hasht_count_deleted ht := by
      unfold hasht_count_deleted
      apply List.length_pos_of_mem (a := hasht_slot ht i)
      rw [List.mem_filter]
      exact ⟨hasht_slot_mem ht i hi, hd⟩
    omega

/-- The probe of a non-replacing insert on a table that satisfies the
invariant returns, and what it returns satisfies `hasht_insert_post`. -/
theorem hasht_insert_probe_post (env : Env K) (henv : hasht_env_ok env) (ht : hasht K V)
    (hinv : hasht_inv env ht) (k : K) (v : V) :
    ∃ r, hasht_insert_probe env ht k v false = some r ∧
      hasht_insert_post env ht k v (r.1, r.2.2) := by
  have e1 : ¬ (HASHT_INVALID_TABLE_STATE = HASHT_OK) := by decide
  have e2 : ¬ (HASHT_INVALID_TABLE_STATE = HASHT_DUPLICATE_KEY) := by decide
  have e3 : ¬ (HASHT_DUPLICATE_KEY = HASHT_OK) := by decide
  have e4 : ¬ (HASHT_OK = HASHT_DUPLICATE_KEY) := by decide
  rcases hasht_insert_probe_cases env ht henv hinv k v false with
    ⟨_, hp⟩ | ⟨_, i, hi, ho, hc, _, hrep⟩ | ⟨_, hnp, s, hs, hso, _, hp, hinv'⟩
  · exact ⟨_, hp, hinv, fun h => absurd h e1, fun _ => ⟨rfl, hasht_same_content_refl _⟩,
      fun h => absurd h e2, fun h => h⟩
  · rcases hrep with ⟨_, hp⟩ | ⟨hr, _⟩
    · exact ⟨_, hp, hinv, fun h => absurd h e3,
        fun _ => ⟨rfl, hasht_same_content_refl _⟩, fun _ => ⟨i, hi, ho, hc⟩, fun h => h⟩
    · exact absurd hr (by decide)
  · refine ⟨_, hp, hinv', fun _ => ⟨hnp, rfl, ?_⟩, fun h => absurd rfl h,
      fun h => absurd h e4, ?_⟩
    · intro k' v'
      exact hasht_holds_add ht _ s _ hs rfl (hasht_pr_filled_state _ _ _).2.2.1 hso k' v'
    · rintro ⟨hcd, hnd⟩
      have hsd := hasht_count_deleted_zero_slot ht hcd s hs
      have hset := hasht_count_deleted_set ht s
        (hasht_pr_filled (env.hasht_hash k) k v) hs (ht.nelements + 1)
        (if hasht_pr_is_deleted (hasht_slot ht s) then ht.ndeleted - 1 else ht.ndeleted)
      rw [hsd, (hasht_pr_filled_state (env.hasht_hash k) k v).2.1, hcd] at hset
      refine ⟨by simpa using hset, ?_⟩
      dsimp only
      rw [hsd]
      simpa using hnd

theorem hasht_insert_post_transfer (env : Env K) (ht ht1 : hasht K V) (k : K) (v : V)
    (r : Int × hasht K V)
    (h1 : ht1 = ht ∨ (hasht_inv env ht1 ∧ hasht_clean ht1 ∧ hasht_same_content ht1 ht ∧
      ht1.nelements = ht.nelements))
    (hp : hasht_insert_post env ht1 k v r) : hasht_insert_post env ht k v r := by
  rcases h1 with h | ⟨_, hcl, hsc, hne⟩
  · rw [← h]; exact hp
  · obtain ⟨a, b, c, d, e⟩ := hp
    refine ⟨a, fun hok => ?_, fun hnok => ?_, fun hd => ?_, fun _ => e hcl⟩
    · obtain ⟨b1, b2, b3⟩ := b hok
      refine ⟨fun hpr => b1 ((hasht_present_congr env ht1 ht hsc k).2 hpr), by rw [b2, hne], ?_⟩
      intro k' v'
      rw [b3 k' v', hsc k' v']
    · obtain ⟨c1, c2⟩ := c hnok
      exact ⟨by rw [c1, hne], hasht_same_content_trans _ _ _ c2 hsc⟩
    · exact (hasht_present_congr env ht1 ht hsc k).1 (d hd)

end Content

/-! ## `hasht_insert__` and `hasht_insert` on a table that satisfies the invariant -/

section InsertSpec
variable {K V : Type} [Inhabited K] [Inhabited V]

theorem hasht_insert_eq_map (env : Env K) (f : Nat) (ht : hasht K V) (k : K) (v : V) :
    hasht_insert env (f + 1) ht k v =
      (hasht_insert__ (hasht_insert env f) env ht k v 0 false).map (fun r => (r.1, r.2.2)) := by
  rw [hasht_insert]
  dsimp only
  cases hasht_insert__ (hasht_insert env f) env ht k v 0 false with
  | none => rfl
  | some r => rfl

theorem hasht_find_or_insert_eq_map (env : Env K) (f : Nat) (ht : hasht K V) (k : K) (v : V) :
    hasht_find_or_insert env f ht k v =
      (hasht_insert__ (hasht_insert env f) env ht k v 0 true).map
        (fun r => if r.1 = HASHT_OK then (r.1, hasht_mk_iter r.2.1 (some r.2.1), r.2.2)
                  else (r.1, hasht_mk_invalid_iter, r.2.2)) := by
  unfold hasht_find_or_insert
  cases hasht_insert__ (hasht_insert env f) env ht k v 0 true with
  | none => rfl
  | some r =>
    obtain ⟨rv, idx, ht'⟩ := r
    dsimp only [Option.map]
    split <;> rfl

/-- The two ways `hasht_insert__` returns: with the code of a failed resize and
the table as it was, or with the outcome of the probe on the table the trigger
check leaves. -/
theorem hasht_insert___cases (env : Env K) (henv : hasht_env_ok env)
    (ins : hasht K V → K → V → Option (Int × hasht K V)) (n : Nat)
    (hspec : hasht_insert_spec env ins n) (ht : hasht K V) (hinv : hasht_inv env ht)
    (k : K) (v : V) (o : Int) (rep : Bool) :
    (ht.nelements ≤ (n : Int) → ∃ r, hasht_insert__ ins env ht k v o rep = some r) ∧
    ∀ r, hasht_insert__ ins env ht k v o rep = some r →
      (r.2.2 = ht ∧ r.2.1 = o ∧ ht.nbuckets - ht.nelements ≤ 1 ∧
        (r.1 = HASHT_INVALID_TABLE_STATE ∨ r.1 = HASHT_ALLOC_ERR ∨
          r.1 = HASHT_FAILED_AT_RESIZE)) ∨
      (∃ ht1, (ht1 = ht ∨ (hasht_inv env ht1 ∧ hasht_clean ht1 ∧ hasht_same_content ht1 ht ∧
          ht1.nelements = ht.nelements)) ∧
        hasht_insert_probe env ht1 k v rep = some r) := by
  rw [hasht_insert___unfold]
  obtain ⟨hterm, hpost⟩ := hasht_if_needed_try_resize_spec env henv ins n hspec ht hinv
    HASHT_HINT_INSERTING
  cases htr : hasht_if_needed_try_resize ins env ht HASHT_HINT_INSERTING with
  | none =>
    dsimp only
    refine ⟨fun hfit => ?_, fun r hr => absurd hr (by simp)⟩
    obtain ⟨r, hr⟩ := hterm hfit
    rw [htr] at hr
    exact absurd hr (by simp)
  | some r1 =>
    obtain ⟨rv1, ht1⟩ := r1
    dsimp only
    obtain ⟨_, hdisj⟩ := hpost (rv1, ht1) htr
    dsimp only at hdisj
    have hinv1 : hasht_inv env ht1 := by
      rcases hdisj with h | h
      · rw [h]; exact hinv
      · exact h.2.1
    have hdisj' : ht1 = ht ∨ (hasht_inv env ht1 ∧ hasht_clean ht1 ∧ hasht_same_content ht1 ht ∧
        ht1.nelements = ht.nelements) := by
      rcases hdisj with h | h
      · exact Or.inl h
      · exact Or.inr h.2
    by_cases hfail : rv1 ≠ HASHT_OK ∧ hasht_at_insert_must_resize ht1 = true
    · rw [if_pos hfail]
      have hsame : ht1 = ht := by
        rcases hdisj with h | h
        · exact h
        · exact absurd h.1 hfail.1
      have hfull : ht.nbuckets - ht.nelements ≤ 1 := by
        have := hfail.2
        rw [hsame] at this
        unfold hasht_at_insert_must_resize hasht_n_unused_buckets at this
        exact of_decide_eq_true this
      by_cases hcode : rv1 = HASHT_INVALID_TABLE_STATE ∨ rv1 = HASHT_ALLOC_ERR
      · rw [if_pos hcode]
        refine ⟨fun _ => ⟨_, rfl⟩, fun r hr => Or.inl ?_⟩
        rw [Option.some.injEq] at hr
        rw [← hr]
        refine ⟨hsame, rfl, hfull, ?_⟩
        rcases hcode with h | h
        · exact Or.inl h
        · exact Or.inr (Or.inl h)
      · rw [if_neg hcode]
        refine ⟨fun _ => ⟨_, rfl⟩, fun r hr => Or.inl ?_⟩
        rw [Option.some.injEq] at hr
        rw [← hr]
        exact ⟨hsame, rfl, hfull, Or.inr (Or.inr rfl)⟩
    · rw [if_neg hfail]
      refine ⟨fun _ => ?_, fun r hr => Or.inr ⟨ht1, hdisj', hr⟩⟩
      rcases hasht_insert_probe_cases env ht1 henv hinv1 k v rep with
        ⟨_, hp⟩ | ⟨_, i, _, _, _, _, hrep⟩ | ⟨_, _, s, _, _, _, hp, _⟩
      · exact ⟨_, hp⟩
      · rcases hrep with ⟨_, hp⟩ | ⟨_, hp, _⟩
        · exact ⟨_, hp⟩
        · exact ⟨_, hp⟩
      · exact ⟨_, hp⟩

/-- The invariant holds of whatever table `hasht_insert__` leaves. -/
theorem hasht_insert___inv (env : Env K) (henv : hasht_env_ok env)
    (ins : hasht K V → K → V → Option (Int × hasht K V)) (n : Nat)
    (hspec : hasht_insert_spec env ins n) (ht : hasht K V) (hinv : hasht_inv env ht)
    (k : K) (v : V) (o : Int) (rep : Bool) (r : Int × Int × hasht K V)
    (hr : hasht_insert__ ins env ht k v o rep = some r) : hasht_inv env r.2.2 := by
  rcases (hasht_insert___cases env henv ins n hspec ht hinv k v o rep).2 r hr with
    ⟨h, _⟩ | ⟨ht1, h1, hp⟩
  · rw [h]; exact hinv
  · have hinv1 : hasht_inv env ht1 := by
      rcases h1 with h | h
      · rw [h]; exact hinv
      · exact h.1
    rcases hasht_insert_probe_cases env ht1 henv hinv1 k v rep with
      ⟨_, hp'⟩ | ⟨_, i, _, _, _, _, hrep⟩ | ⟨_, _, s, _, _, _, hp', hi'⟩
    · rw [hp', Option.some.injEq] at hp
      rw [← hp]; exact hinv1
    · rcases hrep with ⟨_, hp'⟩ | ⟨_, hp', hi'⟩
      · rw [hp', Option.some.injEq] at hp
        rw [← hp]; exact hinv1
      · rw [hp', Option.some.injEq] at hp
        rw [← hp]; exact hi'
    · rw [hp', Option.some.injEq] at hp
      rw [← hp]; exact hi'

theorem hasht_inv_nelements_nonneg (env : Env K) (ht : hasht K V) (hinv : hasht_inv env ht) :
    0 ≤ ht.nelements := by
  rw [hinv.2.1.2.1]
  exact Int.ofNat_nonneg _

/-- One more level of nesting serves tables with one more entry. -/
theorem hasht_insert_spec_step (env : Env K) (henv : hasht_env_ok env) (f : Nat)
    (hspec : hasht_insert_spec env
      (hasht_insert env f : hasht K V → K → V → Option (Int × hasht K V)) f) :
    hasht_insert_spec env
      (hasht_insert env (f + 1) : hasht K V → K → V → Option (Int × hasht K V)) (f + 1) := by
  intro ht k v hinv
  obtain ⟨hterm, hcases⟩ := hasht_insert___cases env henv (hasht_insert env f) f hspec ht hinv
    k v 0 false
  rw [hasht_insert_eq_map]
  refine ⟨fun hlt => ?_, fun r hr => ?_⟩
  · obtain ⟨r, hr⟩ := hterm (by push_cast at hlt; omega)
    exact ⟨_, by rw [hr]; rfl⟩
  · cases hins : hasht_insert__ (hasht_insert env f) env ht k v 0 false with
    | none =>
      rw [hins] at hr
      exact absurd hr (by simp)
    | some r3 =>
      rw [hins] at hr
      simp only [Option.map, Option.some.injEq] at hr
      rw [← hr]
      rcases hcases r3 hins with ⟨h, _, _, hcode⟩ | ⟨ht1, h1, hp⟩
      · have hne : r3.1 ≠ HASHT_OK := by
          rcases hcode with h | h | h <;> rw [h] <;> decide
        have hnd : r3.1 ≠ HASHT_DUPLICATE_KEY := by
          rcases hcode with h | h | h <;> rw [h] <;> decide
        refine ⟨by dsimp only; rw [h]; exact hinv, fun hok => absurd hok hne,
          fun _ => ⟨by dsimp only; rw [h], by dsimp only; rw [h]; exact hasht_same_content_refl _⟩,
          fun hd => absurd hd hnd, fun hcl => by dsimp only; rw [h]; exact hcl⟩
      · have hinv1 : hasht_inv env ht1 := by
          rcases h1 with h | h
          · rw [h]; exact hinv
          · exact h.1
        obtain ⟨r', hr', hpost⟩ := hasht_insert_probe_post env henv ht1 hinv1 k v
        rw [hp, Option.some.injEq] at hr'
        rw [← hr'] at hpost
        exact hasht_insert_post_transfer env ht ht1 k v _ h1 hpost

/-- The contract holds of `hasht_insert` at every nesting depth. -/
theorem hasht_insert_spec_all (env : Env K) (henv : hasht_env_ok env) :
    ∀ f, hasht_insert_spec env
      (hasht_insert env f : hasht K V → K → V → Option (Int × hasht K V)) f := by
  intro f
  induction f with
  | zero =>
    intro ht k v hinv
    refine ⟨fun hlt => ?_, fun r hr => ?_⟩
    · have := hasht_inv_nelements_nonneg env ht hinv
      simp at hlt
      omega
    · rw [hasht_insert] at hr
      exact absurd hr (by simp)
  | succ f ih => exact hasht_insert_spec_step env henv f ih

/-- Every table a caller can get satisfies the invariant. -/
theorem hasht_reachable_inv (env : Env K) (henv : hasht_env_ok env) (ht : hasht K V)
    (h : hasht_reachable env ht) : hasht_inv env ht := by
  induction h with
  | init ht0 n alloc ud s g hok => exact (hasht_init_ex_ok env henv ht0 n alloc ud s g hok).1
  | insert ht fuel k v _ ih =>
    cases hins : hasht_insert env fuel ht k v with
    | none => exact ih
    | some r =>
      exact (((hasht_insert_spec_all env henv fuel) ht k v ih).2 r hins).1
  | find_or_insert ht fuel k v _ ih =>
    rw [hasht_find_or_insert_eq_map]
    cases hins : hasht_insert__ (hasht_insert env fuel) env ht k v 0 true with
    | none => exact ih
    | some r =>
      have := hasht_insert___inv env henv (hasht_insert env fuel) fuel
        (hasht_insert_spec_all env henv fuel) ht ih k v 0 true r hins
      simp only [Option.map, hasht_after]
      split <;> exact this
  | remove ht k _ ih =>
    rcases hasht_remove_cases env ht henv ih k with
      ⟨_, hr⟩ | ⟨_, _, hr⟩ | ⟨_, i, ht', _, _, _, _, hr, hinv', _⟩
    · rw [hr]; exact ih
    · rw [hr]; exact ih
    · rw [hr]; exact hinv'

end InsertSpec

/-! ## The concrete instance satisfies the assumptions -/

theorem example_env_ok : hasht_env_ok example_env := by
  refine ⟨by decide, ?_, ?_, ?_, ?_⟩
  · intro a
    show (if a = a then (0 : Int) else 1) = 0
    rw [if_pos rfl]
  · intro a b h
    have h' : (if a = b then (0 : Int) else 1) = 0 := h
    show (if b = a then (0 : Int) else 1) = 0
    by_cases hab : a = b
    · rw [if_pos hab.symm]
    · rw [if_neg hab] at h'
      exact absurd h' (by decide)
  · intro a b c h1 h2
    have h1' : (if a = b then (0 : Int) else 1) = 0 := h1
    have h2' : (if b = c then (0 : Int) else 1) = 0 := h2
    show (if a = c then (0 : Int) else 1) = 0
    by_cases hab : a = b
    · by_cases hbc : b = c
      · rw [if_pos (hab.trans hbc)]
      · rw [if_neg hbc] at h2'
        exact absurd h2' (by decide)
    · rw [if_neg hab] at h1'
      exact absurd h1' (by decide)
  · intro a b h
    have h' : (if a = b then (0 : Int) else 1) = 0 := h
    show a = b
    by_cases hab : a = b
    · exact hab
    · rw [if_neg hab] at h'
      exact absurd h' (by decide)

theorem example_reachable_init (n s g : Int)
    (h : (example_view (example_init example_env n s g)).map (fun r => r.1) = some HASHT_OK) :
    hasht_reachable example_env (example_table (example_init example_env n s g)) :=
  hasht_reachable.init _ n _ 0 s g (by
    have h' : some (hasht_init_ex example_env (example_blank fun _ => true) n (fun _ => true) 0
      s g).1 = some HASHT_OK := h
    exact Option.some.inj h')

theorem example_reachable_insert (k v : Nat) (r : Option (Int × hasht Nat Nat))
    (hr : hasht_reachable example_env (example_table r))
    (hs : (example_insert example_env k v r).isSome = true) :
    hasht_reachable example_env (example_table (example_insert example_env k v r)) := by
  cases r with
  | none =>
    have hs' : (none : Option (Int × hasht Nat Nat)).isSome = true := hs
    exact absurd hs' (by simp)
  | some p =>
    have hins := hasht_reachable.insert (example_table (some p)) 4 k v hr
    have he : example_insert example_env k v (some p) = hasht_insert example_env 4 p.2 k v := rfl
    rw [he] at hs ⊢
    cases hq : hasht_insert example_env 4 p.2 k v with
    | none =>
      rw [hq] at hs
      exact absurd hs (by simp)
    | some q =>
      have ht : example_table (some p) = p.2 := rfl
      rw [ht, hq] at hins
      exact hins

theorem example_reachable_remove (k : Nat) (r : Option (Int × hasht Nat Nat))
    (hr : hasht_reachable example_env (example_table r))
    (hs : (example_remove example_env k r).isSome = true) :
    hasht_reachable example_env (example_table (example_remove example_env k r)) := by
  cases r with
  | none =>
    have hs' : (none : Option (Int × hasht Nat Nat)).isSome = true := hs
    exact absurd hs' (by simp)
  | some p =>
    have hrem := hasht_reachable.remove (example_table (some p)) k hr
    have he : example_remove example_env k (some p) = hasht_remove example_env p.2 k := rfl
    rw [he] at hs ⊢
    cases hq : hasht_remove example_env p.2 k with
    | none =>
      rw [hq] at hs
      exact absurd hs (by simp)
    | some q =>
      have ht : example_table (some p) = p.2 := rfl
      rw [ht, hq] at hrem
      exact hrem

theorem example_reachable_blank : hasht_reachable example_env
    (example_table (example_init example_env 0 20 60)) :=
  example_reachable_init 0 20 60 (by decide!)

theorem example_reachable_three : hasht_reachable example_env (example_table example_three) :=
  example_reachable_insert 2 102 _
    (example_reachable_insert 1 101 _
      (example_reachable_insert 0 100 _ example_reachable_blank (by decide!)) (by decide!))
    (by decide!)

theorem example_reachable_eleven : hasht_reachable example_env (example_table example_eleven) :=
  example_reachable_remove 0 _
    (example_reachable_insert 1 101 _
      (example_reachable_insert 0 100 _ (example_reachable_init 5 20 60 (by decide!))
        (by decide!)) (by decide!))
    (by decide!)

theorem example_reachable_tombstones :
    hasht_reachable example_env (example_table example_tombstones) :=
  example_reachable_remove 2 _ (example_reachable_insert 3 103 _
    (example_reachable_remove 1 _ (example_reachable_insert 2 102 _
      (example_reachable_remove 0 _ (example_reachable_insert 1 101 _
        (example_reachable_insert 0 100 _ example_reachable_blank (by decide!)) (by decide!))
        (by decide!)) (by decide!)) (by decide!)) (by decide!)) (by decide!)

theorem example_reachable_displaced :
    hasht_reachable example_env (example_table example_displaced) :=
  example_reachable_insert 5 105 _
    (example_reachable_insert 0 100 _ example_reachable_blank (by decide!)) (by decide!)

theorem example_reachable_shifted : hasht_reachable example_env (example_table example_shifted) :=
  example_reachable_insert 7 107 _
    (example_reachable_insert 6 106 _
      (example_reachable_insert 5 105 _ example_reachable_blank (by decide!)) (by decide!))
    (by decide!)

theorem example_reachable_no_memory :
    hasht_reachable example_env (example_table example_no_memory) :=
  example_reachable_insert 3 103 _ (example_reachable_insert 2 102 _
    (example_reachable_insert 1 101 _ (example_reachable_insert 0 100 _
      (hasht_reachable.init _ 0 _ 0 20 60 (by decide!)) (by decide!)) (by decide!))
    (by decide!)) (by decide!)

/-! ## Invariants of every table a caller can get -/

section Reachable
variable {K V : Type} [Inhabited K] [Inhabited V]

/-- Claim C15: in every table a caller can get, `nelements` is the number of
buckets of the array that are occupied. -/
theorem hasht_nelements_exact (env : Env K) (henv : hasht_env_ok env) (ht : hasht K V)
    (h : hasht_reachable env ht) : ht.nelements = (hasht_count_occupied ht : Int) :=
  (hasht_reachable_inv env henv ht h).2.1.2.1

theorem hasht_nelements_exact_witness :
    hasht_env_ok example_env ∧
    hasht_reachable example_env (example_table example_tombstones) ∧
    (example_table example_tombstones).nelements
      = (hasht_count_occupied (example_table example_tombstones) : Int) :=
  ⟨example_env_ok, example_reachable_tombstones,
    hasht_nelements_exact example_env example_env_ok _ example_reachable_tombstones⟩

theorem hasht_flags_not_corrupt :
    ∀ f, f < 256 →
      ((f &&& HASHT_VLT_IS_CORRUPT) != 0 ||
        (f &&& (HASHT_VLT_IS_DELETED ||| HASHT_VLT_IS_NOT_EMPTY)) == (HASHT_VLT_IS_DELETED ||| 0))
        = false →
      f &&& HASHT_VLT_IS_CORRUPT = 0 ∧
      ¬ (f &&& HASHT_VLT_IS_DELETED ≠ 0 ∧ f &&& HASHT_VLT_IS_NOT_EMPTY = 0) := by
  decide!

/-- Claim C22: in every table a caller can get no bucket is corrupt: the
CORRUPT flag is clear, and the DELETED flag is not set while NOT_EMPTY is clear. -/
theorem hasht_no_corrupt_slot (env : Env K) (henv : hasht_env_ok env) (ht : hasht K V)
    (h : hasht_reachable env ht) (i : Nat) (hi : i < ht.tab.length) :
    hasht_pr_is_corrupt (hasht_slot ht i) = false ∧
    hasht_pr_flags (hasht_slot ht i) &&& HASHT_VLT_IS_CORRUPT = 0 ∧
    ¬ (hasht_pr_flags (hasht_slot ht i) &&& HASHT_VLT_IS_DELETED ≠ 0 ∧
        hasht_pr_flags (hasht_slot ht i) &&& HASHT_VLT_IS_NOT_EMPTY = 0) := by
  have hc := (hasht_reachable_inv env henv ht h).2.1.1 i hi
  exact ⟨hc, hasht_flags_not_corrupt _ (hasht_pr_flags_lt _) hc⟩

theorem hasht_no_corrupt_slot_witness :
    hasht_env_ok example_env ∧
    hasht_reachable example_env (example_table example_tombstones) ∧
    1 < (example_table example_tombstones).tab.length ∧
    hasht_pr_is_corrupt (hasht_slot (example_table example_tombstones) 1) = false ∧
    hasht_pr_flags (hasht_slot (example_table example_tombstones) 1) &&& HASHT_VLT_IS_CORRUPT
      = 0 ∧
    ¬ (hasht_pr_flags (hasht_slot (example_table example_tombstones) 1) &&& HASHT_VLT_IS_DELETED
          ≠ 0 ∧
        hasht_pr_flags (hasht_slot (example_table example_tombstones) 1)
          &&& HASHT_VLT_IS_NOT_EMPTY = 0) :=
  ⟨example_env_ok, example_reachable_tombstones, by decide!,
    hasht_no_corrupt_slot example_env example_env_ok _ example_reachable_tombstones 1
      (by decide!)⟩

theorem hasht_pr_occupied_or_deleted (p : hasht_pair_type K V)
    (he : hasht_pr_is_empty p = false) :
    hasht_pr_is_occupied p = true ∨ hasht_pr_is_deleted p = true := by
  cases hd : hasht_pr_is_deleted p with
  | true => exact Or.inr rfl
  | false =>
    left
    unfold hasht_pr_is_occupied
    rw [he, hd]
    rfl

/-- Claim C26: in every table a caller can get, the home position of an
occupied bucket's key is its hash modulo `nbuckets`, and no bucket on the
wraparound path from the home position up to the bucket is empty: each is
occupied or deleted. -/
theorem hasht_probe_chain_unbroken (env : Env K) (henv : hasht_env_ok env) (ht : hasht K V)
    (h : hasht_reachable env ht) (i d e : Nat) (hi : i < ht.tab.length)
    (ho : hasht_pr_is_occupied (hasht_slot ht i) = true) (hd : d < ht.tab.length)
    (hp : hasht_pos ht (hasht_home env ht (hasht_slot ht i).key) d = i) (he : e < d) :
    (hasht_integer_mod_buckets ht (env.hasht_hash (hasht_slot ht i).key)
      = (env.hasht_hash (hasht_slot ht i).key : Int) % ht.nbuckets) ∧
    hasht_pr_is_empty
      (hasht_slot ht (hasht_pos ht (hasht_home env ht (hasht_slot ht i).key) e)) = false ∧
    (hasht_pr_is_occupied
        (hasht_slot ht (hasht_pos ht (hasht_home env ht (hasht_slot ht i).key) e)) = true ∨
      hasht_pr_is_deleted
        (hasht_slot ht (hasht_pos ht (hasht_home env ht (hasht_slot ht i).key) e)) = true) := by
  have hinv := hasht_reachable_inv env henv ht h
  have hne := hinv.2.2.1 i d hi ho hd hp e he
  refine ⟨?_, hne, hasht_pr_occupied_or_deleted _ hne⟩
  have hh := hasht_home_eq env ht hinv.1 (hasht_slot ht i).key
  unfold hasht_home at hh
  unfold hasht_integer_mod_buckets
  rw [hh, ← hinv.1.1]
  exact Int.natCast_mod _ _

theorem hasht_probe_chain_unbroken_witness :
    hasht_env_ok example_env ∧
    hasht_reachable example_env (example_table example_displaced) ∧
    1 < (example_table example_displaced).tab.length ∧
    hasht_pr_is_occupied (hasht_slot (example_table example_displaced) 1) = true ∧
    hasht_pos (example_table example_displaced)
      (hasht_home example_env (example_table example_displaced)
        (hasht_slot (example_table example_displaced) 1).key) 1 = 1 ∧
    (0 : Nat) < 1 ∧
    (hasht_integer_mod_buckets (example_table example_displaced)
        (example_env.hasht_hash (hasht_slot (example_table example_displaced) 1).key)
      = (example_env.hasht_hash (hasht_slot (example_table example_displaced) 1).key : Int)
          % (example_table example_displaced).nbuckets) ∧
    hasht_pr_is_empty
      (hasht_slot (example_table example_displaced)
        (hasht_pos (example_table example_displaced)
          (hasht_home example_env (example_table example_displaced)
            (hasht_slot (example_table example_displaced) 1).key) 0)) = false ∧
    (hasht_pr_is_occupied
        (hasht_slot (example_table example_displaced)
          (hasht_pos (example_table example_displaced)
            (hasht_home example_env (example_table example_displaced)
              (hasht_slot (example_table example_displaced) 1).key) 0)) = true ∨
      hasht_pr_is_deleted
        (hasht_slot (example_table example_displaced)
          (hasht_pos (example_table example_displaced)
            (hasht_home example_env (example_table example_displaced)
              (hasht_slot (example_table example_displaced) 1).key) 0)) = true) :=
  ⟨example_env_ok, example_reachable_displaced, by decide!, by decide!, by decide!, by decide,
    hasht_probe_chain_unbroken example_env example_env_ok _ example_reachable_displaced 1 1 0
      (by decide!) (by decide!) (by decide!) (by decide!) (by decide)⟩

end Reachable

section Reachable2
variable {K V : Type} [Inhabited K] [Inhabited V]

theorem hasht_find_pos_loop_of_some (env : Env K) (ht : hasht K V) (key : K) (o : Int)
    (hg : ¬ hasht_n_empty_buckets ht < 1) (r : Int × Int × Nat)
    (h : hasht_find_pos__ env ht key o = some r) :
    ∃ q, hasht_find_pos_loop env ht key (hasht_hash_to_partial_hash (env.hasht_hash key))
      ht.nbuckets.toNat (hasht_integer_mod_buckets ht (env.hasht_hash key)) HASHT_NOT_FOUND
        = some q := by
  unfold hasht_find_pos__ at h
  dsimp only at h
  rw [if_neg hg] at h
  cases hl : hasht_find_pos_loop env ht key (hasht_hash_to_partial_hash (env.hasht_hash key))
      ht.nbuckets.toNat (hasht_integer_mod_buckets ht (env.hasht_hash key)) HASHT_NOT_FOUND with
  | none =>
    rw [hl] at h
    exact absurd h (by simp)
  | some q => exact ⟨q, rfl⟩

theorem hasht_find_pos_returns (env : Env K) (henv : hasht_env_ok env) (ht : hasht K V)
    (hinv : hasht_inv env ht) (key : K) (o : Int) :
    ∃ r, hasht_find_pos__ env ht key o = some r := by
  rcases hasht_find_pos_cases env ht henv hinv key o with
    ⟨_, h⟩ | ⟨_, i, _, _, _, h⟩ | ⟨_, _, s, d, _, _, _, _, _, h⟩
  · exact ⟨_, h⟩
  · exact ⟨_, h⟩
  · exact ⟨_, h⟩

/-- Claim C27: in every table a caller can get, `ndeleted` is at least the
number of buckets in the deleted state; so when the guard of
`hasht_find_pos__` passes, some bucket of the array is empty and the probe
loop returns within `nbuckets` rounds, for every key. -/
theorem hasht_tombstone_counter_bounds (env : Env K) (henv : hasht_env_ok env) (ht : hasht K V)
    (h : hasht_reachable env ht) :
    (hasht_count_deleted ht : Int) ≤ ht.ndeleted ∧
    (¬ hasht_n_empty_buckets ht < 1 →
      (∃ i, i < ht.tab.length ∧ hasht_pr_is_empty (hasht_slot ht i) = true) ∧
      ∀ key : K, ∃ q, hasht_find_pos_loop env ht key
        (hasht_hash_to_partial_hash (env.hasht_hash key)) ht.nbuckets.toNat
        (hasht_integer_mod_buckets ht (env.hasht_hash key)) HASHT_NOT_FOUND = some q) := by
  have hinv := hasht_reachable_inv env henv ht h
  refine ⟨hinv.2.1.2.2.1, fun hg => ⟨?_, fun key => ?_⟩⟩
  · exact hasht_exists_empty ht (hasht_empty_of_guard env ht hinv.1 hinv.2.1 hg)
  · obtain ⟨r, hr⟩ := hasht_find_pos_returns env henv ht hinv key 0
    exact hasht_find_pos_loop_of_some env ht key 0 hg r hr

theorem hasht_tombstone_counter_bounds_witness :
    hasht_env_ok example_env ∧
    hasht_reachable example_env (example_table example_tombstones) ∧
    (hasht_count_deleted (example_table example_tombstones) : Int)
      ≤ (example_table example_tombstones).ndeleted :=
  ⟨example_env_ok, example_reachable_tombstones,
    (hasht_tombstone_counter_bounds example_env example_env_ok _
      example_reachable_tombstones).1⟩

/-- Claim C28: in every table a caller can get, no two occupied buckets hold
keys that compare equal; and neither `hasht_resize__` nor the copy of the
entries into a freshly initialised table returns `HASHT_DUPLICATE_KEY`. -/
theorem hasht_keys_unique (env : Env K) (henv : hasht_env_ok env) (ht : hasht K V)
    (h : hasht_reachable env ht) :
    (∀ i j, i < ht.tab.length → j < ht.tab.length →
      hasht_pr_is_occupied (hasht_slot ht i) = true →
      hasht_pr_is_occupied (hasht_slot ht j) = true →
      env.hasht_key_eq_cmp (hasht_slot ht i).key (hasht_slot ht j).key = 0 → i = j) ∧
    (∀ (fuel : Nat) (cnt : Int),
      (hasht_resize__ (hasht_insert env fuel) env ht cnt).map Prod.fst
        ≠ some HASHT_DUPLICATE_KEY) ∧
    (∀ (fuel : Nat) (ht0 : hasht K V) (n : Int) (alloc : Nat → Bool) (ud : Nat) (s g : Int),
      (hasht_init_ex env ht0 n alloc ud s g).1 = HASHT_OK →
      (hasht_copy_all_to (hasht_insert env fuel) (hasht_init_ex env ht0 n alloc ud s g).2
        ht).map Prod.fst ≠ some HASHT_DUPLICATE_KEY) := by
  have hinv := hasht_reachable_inv env henv ht h
  refine ⟨hinv.2.2.2, fun fuel cnt => ?_, fun fuel ht0 n alloc ud s g hok => ?_⟩
  · cases hr : hasht_resize__ (hasht_insert env fuel) env ht cnt with
    | none => simp
    | some r =>
      have := ((hasht_resize_spec env henv (hasht_insert env fuel) fuel
        (hasht_insert_spec_all env henv fuel) ht hinv cnt).2 r hr).1
      simpa using this
  · obtain ⟨hninv, hcd, hnd, hnel, hnone, _⟩ := hasht_init_ex_ok env henv ht0 n alloc ud s g hok
    cases hr : hasht_copy_all_to (hasht_insert env fuel) (hasht_init_ex env ht0 n alloc ud s g).2
        ht with
    | none => simp
    | some r =>
      have := ((hasht_copy_all_to_spec env (hasht_insert env fuel) fuel
        (hasht_insert_spec_all env henv fuel) ht hinv _ hninv ⟨hcd, hnd⟩ hnel hnone).2 r hr).1
      simpa using this

theorem hasht_keys_unique_witness :
    hasht_env_ok example_env ∧
    hasht_reachable example_env (example_table example_three) ∧
    (hasht_resize__ (hasht_insert example_env 3) example_env (example_table example_three)
      3).map Prod.fst ≠ some HASHT_DUPLICATE_KEY :=
  ⟨example_env_ok, example_reachable_three,
    (hasht_keys_unique example_env example_env_ok _ example_reachable_three).2.1 3 3⟩

/-- Claim C21: in every table a caller can get and for every key,
`hasht_find_pos__` returns within the `nbuckets` rounds of its probe loop,
with `HASHT_OK`, `HASHT_NOT_FOUND` or `HASHT_INVALID_TABLE_STATE`; and
`hasht_remove` returns, its backward loop within `nbuckets + 1` rounds. -/
theorem hasht_probe_and_remove_return (env : Env K) (henv : hasht_env_ok env) (ht : hasht K V)
    (h : hasht_reachable env ht) (key : K) (o : Int) :
    (∃ r, hasht_find_pos__ env ht key o = some r ∧
      (r.1 = HASHT_OK ∨ r.1 = HASHT_NOT_FOUND ∨ r.1 = HASHT_INVALID_TABLE_STATE)) ∧
    (∃ r, hasht_remove env ht key = some r) := by
  have hinv := hasht_reachable_inv env henv ht h
  constructor
  · rcases hasht_find_pos_cases env ht henv hinv key o with
      ⟨_, h⟩ | ⟨_, i, _, _, _, h⟩ | ⟨_, _, s, d, _, _, _, _, _, h⟩
    · exact ⟨_, h, Or.inr (Or.inr rfl)⟩
    · exact ⟨_, h, Or.inl rfl⟩
    · exact ⟨_, h, Or.inr (Or.inl rfl)⟩
  · rcases hasht_remove_cases env ht henv hinv key with
      ⟨_, hr⟩ | ⟨_, _, hr⟩ | ⟨_, i, ht', _, _, _, _, hr, _⟩
    · exact ⟨_, hr⟩
    · exact ⟨_, hr⟩
    · exact ⟨_, hr⟩

theorem hasht_probe_and_remove_return_witness :
    hasht_env_ok example_env ∧
    hasht_reachable example_env (example_table example_tombstones) ∧
    (∃ r, hasht_find_pos__ example_env (example_table example_tombstones) 8 0 = some r ∧
      (r.1 = HASHT_OK ∨ r.1 = HASHT_NOT_FOUND ∨ r.1 = HASHT_INVALID_TABLE_STATE)) ∧
    (∃ r, hasht_remove example_env (example_table example_tombstones) 8 = some r) :=
  ⟨example_env_ok, example_reachable_tombstones,
    hasht_probe_and_remove_return example_env example_env_ok _ example_reachable_tombstones 8 0⟩

/-- Claim C25: in every table a caller can get and for every key,
`hasht_find_pos__` returns; when it does not return
`HASHT_INVALID_TABLE_STATE`, it returns `HASHT_OK` with the index of an
occupied bucket whose key compares equal exactly when some occupied bucket
holds such a key, and otherwise `HASHT_NOT_FOUND` with an index within the
array of a bucket that is empty or deleted. -/
theorem hasht_lookup_sound_and_complete (env : Env K) (henv : hasht_env_ok env) (ht : hasht K V)
    (h : hasht_reachable env ht) (key : K) (o : Int) :
    ∃ r, hasht_find_pos__ env ht key o = some r ∧
      (r.1 ≠ HASHT_INVALID_TABLE_STATE →
        (r.1 = HASHT_OK ∨ r.1 = HASHT_NOT_FOUND) ∧
        (r.1 = HASHT_OK ↔ hasht_present env ht key) ∧
        (r.1 = HASHT_OK → ∃ i : Nat, r.2.1 = (i : Int) ∧ i < ht.tab.length ∧ (i : Int) < ht.nbuckets ∧
          hasht_pr_is_occupied (hasht_slot ht i) = true ∧
          env.hasht_key_eq_cmp key (hasht_slot ht i).key = 0) ∧
        (r.1 = HASHT_NOT_FOUND → ∃ s : Nat, r.2.1 = (s : Int) ∧ s < ht.tab.length ∧
          (s : Int) < ht.nbuckets ∧
          (hasht_pr_is_empty (hasht_slot ht s) = true ∨
            hasht_pr_is_deleted (hasht_slot ht s) = true))) := by
  have hinv := hasht_reachable_inv env henv ht h
  have hlen := hinv.1.1
  have e1 : ¬ (HASHT_NOT_FOUND = HASHT_OK) := by decide
  have e2 : ¬ (HASHT_OK = HASHT_NOT_FOUND) := by decide
  rcases hasht_find_pos_cases env ht henv hinv key o with
    ⟨_, h⟩ | ⟨_, i, hi, ho, hc, h⟩ | ⟨_, hnp, s, d, hs, _, hso, _, _, h⟩
  · exact ⟨_, h, fun hne => absurd rfl hne⟩
  · refine ⟨_, h, fun _ => ⟨Or.inl rfl, ⟨fun _ => ⟨i, hi, ho, hc⟩, fun _ => rfl⟩,
      fun _ => ⟨i, rfl, hi, by omega, ho, hc⟩, fun h' => absurd h' e2⟩⟩
  · refine ⟨_, h, fun _ => ⟨Or.inr rfl, ⟨fun h' => absurd h' e1, fun hp => absurd hp hnp⟩,
      fun h' => absurd h' e1, fun _ => ⟨s, rfl, hs, by omega, ?_⟩⟩⟩
    cases hd : hasht_pr_is_deleted (hasht_slot ht s) with
    | true => exact Or.inr rfl
    | false => exact Or.inl (hasht_pr_empty_of_not _ hso hd)

theorem hasht_lookup_sound_and_complete_witness :
    hasht_env_ok example_env ∧
    hasht_reachable example_env (example_table example_displaced) ∧
    ∃ r, hasht_find_pos__ example_env (example_table example_displaced) 5 0 = some r ∧
      (r.1 ≠ HASHT_INVALID_TABLE_STATE →
        (r.1 = HASHT_OK ∨ r.1 = HASHT_NOT_FOUND) ∧
        (r.1 = HASHT_OK ↔ hasht_present example_env (example_table example_displaced) 5) ∧
        (r.1 = HASHT_OK → ∃ i : Nat, r.2.1 = (i : Int) ∧
          i < (example_table example_displaced).tab.length ∧
          (i : Int) < (example_table example_displaced).nbuckets ∧
          hasht_pr_is_occupied (hasht_slot (example_table example_displaced) i) = true ∧
          example_env.hasht_key_eq_cmp 5 (hasht_slot (example_table example_displaced) i).key
            = 0) ∧
        (r.1 = HASHT_NOT_FOUND → ∃ s : Nat, r.2.1 = (s : Int) ∧
          s < (example_table example_displaced).tab.length ∧
          (s : Int) < (example_table example_displaced).nbuckets ∧
          (hasht_pr_is_empty (hasht_slot (example_table example_displaced) s) = true ∨
            hasht_pr_is_deleted (hasht_slot (example_table example_displaced) s) = true))) :=
  ⟨example_env_ok, example_reachable_displaced,
    hasht_lookup_sound_and_complete example_env example_env_ok _ example_reachable_displaced 5 0⟩

end Reachable2

/-! ## The partial-hash comparison does not change what the probe returns -/

section Naive
variable {K V : Type} [Inhabited K] [Inhabited V]

theorem hasht_tab_at_occupied (ht : hasht K V) (p : Int)
    (h : hasht_pr_is_occupied (hasht_tab_at ht p) = true) :
    ∃ n : Nat, p = (n : Int) ∧ n < ht.tab.length := by
  have hd := (hasht_default_state (K := K) (V := V)).2.1
  unfold hasht_tab_at at h
  by_cases hp : p < 0
  · rw [if_pos hp, hd] at h
    exact absurd h (by simp)
  · rw [if_neg hp] at h
    refine ⟨p.toNat, by omega, ?_⟩
    by_contra hge
    rw [List.getD_eq_default _ _ (by omega), hd] at h
    exact absurd h (by simp)

theorem hasht_find_pos_loop_eq_naive (env : Env K) (ht : hasht K V) (key : K) (ph : Nat)
    (hk : ∀ idx : Int, hasht_pr_is_occupied (hasht_tab_at ht idx) = true →
      (hasht_cmp env ht key ph (hasht_tab_at ht idx) = 0 ↔
        env.hasht_key_eq_cmp key (hasht_tab_at ht idx).key = 0)) :
    ∀ (fuel : Nat) (idx sug : Int),
      hasht_find_pos_loop env ht key ph fuel idx sug
        = hasht_find_pos_loop_naive env ht key fuel idx sug := by
  intro fuel
  induction fuel with
  | zero =>
    intro idx sug
    rw [hasht_find_pos_loop, hasht_find_pos_loop_naive]
  | succ f ih =>
    intro idx sug
    rw [hasht_find_pos_loop, hasht_find_pos_loop_naive]
    dsimp only
    cases ho : hasht_pr_is_occupied (hasht_tab_at ht idx) with
    | true =>
      rw [if_pos rfl, if_pos rfl]
      by_cases hc : hasht_cmp env ht key ph (hasht_tab_at ht idx) = 0
      · rw [if_pos hc, if_pos ((hk idx ho).1 hc)]
      · rw [if_neg hc, if_neg (fun h => hc ((hk idx ho).2 h)), ih]
    | false =>
      simp only [Bool.false_eq_true, if_false]
      cases hd : hasht_pr_is_deleted (hasht_tab_at ht idx) with
      | true =>
        simp only [if_true]
        exact ih _ _
      | false =>
        simp only [Bool.false_eq_true, if_false]
        cases he : hasht_pr_is_empty (hasht_tab_at ht idx) with
        | true => simp only [if_true]
        | false =>
          simp only [Bool.false_eq_true, if_false]
          exact ih _ _

/-- Claim C30: in every table a caller can get, every occupied bucket stores
the partial hash of its key, and `hasht_find_pos__` returns what the naive
probe returns, which calls the key equality function on every occupied bucket
it visits. -/
theorem hasht_partial_hash_filter_is_transparent (env : Env K) (henv : hasht_env_ok env)
    (ht : hasht K V) (h : hasht_reachable env ht) :
    (∀ i, i < ht.tab.length → hasht_pr_is_occupied (hasht_slot ht i) = true →
      hasht_pr_get_partial_hash (hasht_slot ht i)
        = hasht_hash_to_partial_hash (env.hasht_hash (hasht_slot ht i).key)) ∧
    (∀ (key : K) (o : Int), hasht_find_pos__ env ht key o = hasht_find_pos_naive env ht key o) := by
  have hinv := hasht_reachable_inv env henv ht h
  refine ⟨hinv.2.1.2.2.2, fun key o => ?_⟩
  unfold hasht_find_pos__ hasht_find_pos_naive
  dsimp only
  rw [hasht_find_pos_loop_eq_naive env ht key _ (fun idx ho => ?_)]
  obtain ⟨n, hn, hlt⟩ := hasht_tab_at_occupied ht idx ho
  rw [hn, hasht_tab_at_nat] at ho ⊢
  exact hasht_cmp_eq_zero_iff env ht henv hinv.2.1 key n hlt ho

theorem hasht_partial_hash_filter_is_transparent_witness :
    hasht_env_ok example_env ∧
    hasht_reachable example_env (example_table example_displaced) ∧
    (∀ i, i < (example_table example_displaced).tab.length →
      hasht_pr_is_occupied (hasht_slot (example_table example_displaced) i) = true →
      hasht_pr_get_partial_hash (hasht_slot (example_table example_displaced) i)
        = hasht_hash_to_partial_hash
            (example_env.hasht_hash (hasht_slot (example_table example_displaced) i).key)) ∧
    (∀ (key : Nat) (o : Int),
      hasht_find_pos__ example_env (example_table example_displaced) key o
        = hasht_find_pos_naive example_env (example_table example_displaced) key o) :=
  ⟨example_env_ok, example_reachable_displaced,
    hasht_partial_hash_filter_is_transparent example_env example_env_ok _
      example_reachable_displaced⟩

end Naive

/-! ## Removal: the buckets it changes and the lookups that follow -/

section RemoveClaims
variable {K V : Type} [Inhabited K] [Inhabited V]

theorem hasht_find_of_ok (env : Env K) (ht : hasht K V) (k : K) (i : Int) (fh : Nat)
    (h : hasht_find_pos__ env ht k 0 = some (HASHT_OK, i, fh)) :
    hasht_find env ht k = some (HASHT_OK, hasht_mk_iter i (some i)) := by
  unfold hasht_find
  rw [h]
  dsimp only
  rw [if_neg (by decide), if_neg (by decide)]

theorem hasht_find_of_not_found (env : Env K) (ht : hasht K V) (k : K) (s : Int) (fh : Nat)
    (h : hasht_find_pos__ env ht k 0 = some (HASHT_NOT_FOUND, s, fh)) :
    hasht_find env ht k = some (HASHT_NOT_FOUND, hasht_mk_invalid_iter) := by
  unfold hasht_find
  rw [h]
  dsimp only
  rw [if_pos rfl]

theorem hasht_found_occupied (env : Env K) (henv : hasht_env_ok env) (ht : hasht K V)
    (hinv : hasht_inv env ht) (key : K) (i fh : Nat)
    (hfind : hasht_find_pos__ env ht key 0 = some (HASHT_OK, (i : Int), fh)) :
    i < ht.tab.length ∧ hasht_pr_is_occupied (hasht_slot ht i) = true ∧
      env.hasht_key_eq_cmp key (hasht_slot ht i).key = 0 ∧ ¬ hasht_n_empty_buckets ht < 1 := by
  rcases hasht_find_pos_cases env ht henv hinv key 0 with
    ⟨_, h⟩ | ⟨hg, j, hj, ho, hc, h⟩ | ⟨_, _, s, d, _, _, _, _, _, h⟩
  · rw [h] at hfind
    exact absurd (Prod.mk.inj (Option.some.inj hfind)).1
      (show ¬ (HASHT_INVALID_TABLE_STATE = HASHT_OK) by decide)
  · rw [h] at hfind
    simp only [Option.some.injEq, Prod.mk.injEq, Nat.cast_inj, true_and] at hfind
    rw [← hfind.1]
    exact ⟨hj, ho, hc, hg⟩
  · rw [h] at hfind
    exact absurd (Prod.mk.inj (Option.some.inj hfind)).1
      (show ¬ (HASHT_NOT_FOUND = HASHT_OK) by decide)

/-- Claim C18: in a table a caller can get, when `hasht_remove` finds the key
in bucket `i`: if the bucket after `i` (wrapping) is empty, bucket `i` and the
maximal run of deleted buckets right before it (wrapping) are empty afterwards
and every other bucket is as it was; otherwise bucket `i` is deleted
afterwards, `ndeleted` is one more and every other bucket is as it was. In
both cases `hasht_remove` returns `HASHT_OK` and `nelements` is one less. -/
theorem hasht_remove_slot_transitions (env : Env K) (henv : hasht_env_ok env) (ht : hasht K V)
    (h : hasht_reachable env ht) (key : K) (i fh : Nat)
    (hfind : hasht_find_pos__ env ht key 0 = some (HASHT_OK, (i : Int), fh)) :
    (hasht_pr_is_empty (hasht_slot ht (hasht_pos ht i 1)) = true →
      ∃ (r : Nat) (ht' : hasht K V), r + 1 < ht.tab.length ∧
        (∀ t, 1 ≤ t → t ≤ r →
          hasht_pr_is_deleted (hasht_slot ht (hasht_back ht i t)) = true) ∧
        hasht_pr_is_deleted (hasht_slot ht (hasht_back ht i (r + 1))) = false ∧
        hasht_remove env ht key = some (HASHT_OK, ht') ∧
        ht'.nelements = ht.nelements - 1 ∧ ht'.tab.length = ht.tab.length ∧
        hasht_pr_is_empty (hasht_slot ht' i) = true ∧
        (∀ t, t ≤ r → hasht_pr_is_empty (hasht_slot ht' (hasht_back ht i t)) = true) ∧
        (∀ m, m < ht.tab.length → (∀ t, t ≤ r → hasht_back ht i t ≠ m) →
          hasht_slot ht' m = hasht_slot ht m)) ∧
    (hasht_pr_is_empty (hasht_slot ht (hasht_pos ht i 1)) = false →
      ∃ ht' : hasht K V, hasht_remove env ht key = some (HASHT_OK, ht') ∧
        ht'.nelements = ht.nelements - 1 ∧ ht'.ndeleted = ht.ndeleted + 1 ∧
        ht'.tab.length = ht.tab.length ∧
        hasht_pr_is_deleted (hasht_slot ht' i) = true ∧
        (∀ m, m < ht.tab.length → m ≠ i → hasht_slot ht' m = hasht_slot ht m)) := by
  have hinv := hasht_reachable_inv env henv ht h
  obtain ⟨hi, hocc, _, _⟩ := hasht_found_occupied env henv ht hinv key i fh hfind
  constructor
  · intro hnext
    obtain ⟨r, ht', hr, hrun, hstop, hrem, hf, hlen, hin, hout⟩ :=
      hasht_remove_cleanup env ht hinv.1 hinv.2.1.1 key i fh hi hocc hfind hnext
    refine ⟨r, ht', hr, hrun, hstop, hrem, by rw [hf], hlen, ?_, ?_, hout⟩
    · have := hin 0 (Nat.zero_le _)
      rw [hasht_back_zero ht i hi] at this
      rw [this]
      exact (hasht_pr_emptied_state _).1
    · intro t ht_le
      rw [hin t ht_le]
      exact (hasht_pr_emptied_state _).1
  · intro hnext
    refine ⟨_, hasht_remove_tombstone env ht hinv.1 key i fh hi hfind hnext, rfl, rfl,
      by dsimp only; rw [List.length_set], ?_, ?_⟩
    · rw [hasht_slot_of_set ht _ i _ hi rfl i, if_pos rfl]
      exact (hasht_pr_tombstoned_state _ hocc).2.1
    · intro m _ hmi
      rw [hasht_slot_of_set ht _ i _ hi rfl m, if_neg hmi]

theorem hasht_remove_slot_transitions_witness :
    hasht_env_ok example_env ∧
    hasht_reachable example_env (example_table example_three) ∧
    hasht_find_pos__ example_env (example_table example_three) 1 0 = some (HASHT_OK, 1, 1) ∧
    hasht_pr_is_empty (hasht_slot (example_table example_three)
      (hasht_pos (example_table example_three) 1 1)) = false ∧
    ∃ ht' : hasht Nat Nat,
      hasht_remove example_env (example_table example_three) 1 = some (HASHT_OK, ht') ∧
        ht'.nelements = (example_table example_three).nelements - 1 ∧
        ht'.ndeleted = (example_table example_three).ndeleted + 1 ∧
        ht'.tab.length = (example_table example_three).tab.length ∧
        hasht_pr_is_deleted (hasht_slot ht' 1) = true ∧
        (∀ m, m < (example_table example_three).tab.length → m ≠ 1 →
          hasht_slot ht' m = hasht_slot (example_table example_three) m) :=
  ⟨example_env_ok, example_reachable_three, by decide!, by decide!,
    (hasht_remove_slot_transitions example_env example_env_ok _ example_reachable_three 1 1 1
      (by decide!)).2 (by decide!)⟩

/-- Claim C2: in a table a caller can get, after `hasht_remove` of a key
returned `HASHT_OK`, `hasht_find` of that key returns `HASHT_NOT_FOUND`, and
`hasht_find` of any key that does not compare equal to it and that the table
mapped to a value returns `HASHT_OK` with an iterator on an occupied bucket
that holds a key comparing equal and the same value. -/
theorem hasht_find_after_remove (env : Env K) (henv : hasht_env_ok env) (ht : hasht K V)
    (h : hasht_reachable env ht) (k : K)
    (hrem : (hasht_remove env ht k).map Prod.fst = some HASHT_OK) :
    (hasht_find env (hasht_after (hasht_remove env ht k) ht) k).map Prod.fst
      = some HASHT_NOT_FOUND ∧
    ∀ (k' : K) (v' : V), hasht_maps env ht k' v' → env.hasht_key_eq_cmp k' k ≠ 0 →
      ∃ j : Nat, j < (hasht_after (hasht_remove env ht k) ht).tab.length ∧
        hasht_find env (hasht_after (hasht_remove env ht k) ht) k'
          = some (HASHT_OK, hasht_mk_iter (j : Int) (some (j : Int))) ∧
        hasht_pr_is_occupied (hasht_slot (hasht_after (hasht_remove env ht k) ht) j) = true ∧
        env.hasht_key_eq_cmp k' (hasht_slot (hasht_after (hasht_remove env ht k) ht) j).key = 0 ∧
        (hasht_slot (hasht_after (hasht_remove env ht k) ht) j).value = v' := by
  have hinv := hasht_reachable_inv env henv ht h
  obtain ⟨_, hrefl, hsymm, htrans, _⟩ := henv
  have henv' : hasht_env_ok env := ⟨by assumption, hrefl, hsymm, htrans, by assumption⟩
  rcases hasht_remove_cases env ht henv' hinv k with
    ⟨_, hr⟩ | ⟨_, _, hr⟩ |
    ⟨hg, i, ht', hi, hocc, hci, _, hr, hinv', hlen, hnb, hnel, _, hnd, _, hnocc, hkeep, hother⟩
  · rw [hr] at hrem
    exact absurd (Option.some.inj hrem) (show ¬ (HASHT_INVALID_TABLE_STATE = HASHT_OK) by decide)
  · rw [hr] at hrem
    exact absurd (Option.some.inj hrem) (show ¬ (HASHT_NOT_FOUND = HASHT_OK) by decide)
  · rw [hr]
    have haft : hasht_after (some (HASHT_OK, ht')) ht = ht' := rfl
    rw [haft]
    have hg' : ¬ hasht_n_empty_buckets ht' < 1 := by
      unfold hasht_n_empty_buckets at hg ⊢
      rw [hnb, hnel]
      omega
    constructor
    · rcases hasht_find_pos_cases env ht' henv' hinv' k 0 with
        ⟨hbad, _⟩ | ⟨_, j, hj, hoj, hcj, _⟩ | ⟨_, _, s, d, _, _, _, _, _, hf⟩
      · exact absurd hbad hg'
      · exfalso
        have hoj' := hoj
        have hsame := hkeep j (by omega) hoj
        rw [hsame] at hoj hcj
        have hij := hinv.2.2.2 i j hi (by omega) hocc hoj
          (htrans _ _ _ (hsymm _ _ hci) hcj)
        rw [← hij, hnocc] at hoj'
        exact absurd hoj' (by simp)
      · rw [hasht_find_of_not_found env ht' k _ _ hf]
        rfl
    · rintro k' v' ⟨j, hj, hoj, hcj, hvj⟩ hne
      have hji : j ≠ i := by
        intro hh
        rw [hh] at hcj
        exact hne (htrans _ _ _ hcj (hsymm _ _ hci))
      have hsame := hother j hj hji hoj
      have hf := hasht_find_pos_complete env ht' henv' hinv' k' 0 j (by omega)
        (by rw [hsame]; exact hoj) (by rw [hsame]; exact hcj) hg'
      refine ⟨j, by omega, hasht_find_of_ok env ht' k' _ _ hf, ?_, ?_, ?_⟩
      · rw [hsame]; exact hoj
      · rw [hsame]; exact hcj
      · rw [hsame]; exact hvj

theorem hasht_find_after_remove_witness :
    hasht_env_ok example_env ∧
    hasht_reachable example_env (example_table example_three) ∧
    (hasht_remove example_env (example_table example_three) 1).map Prod.fst = some HASHT_OK ∧
    (hasht_find example_env
      (hasht_after (hasht_remove example_env (example_table example_three) 1)
        (example_table example_three)) 1).map Prod.fst = some HASHT_NOT_FOUND :=
  ⟨example_env_ok, example_reachable_three, by decide!,
    (hasht_find_after_remove example_env example_env_ok _ example_reachable_three 1
      (by decide!)).1⟩

end RemoveClaims

/-! ## Inserting a key that is present -/

section Present
variable {K V : Type} [Inhabited K] [Inhabited V]

theorem hasht_if_needed_try_resize_skip
    (ins : hasht K V → K → V → Option (Int × hasht K V)) (env : Env K) (ht : hasht K V)
    (h : ht.nelements < ht.grow_at_gt_n) :
    hasht_if_needed_try_resize ins env ht HASHT_HINT_INSERTING = some (HASHT_OK, ht) := by
  unfold hasht_if_needed_try_resize
  rw [if_neg (fun hh => by omega), if_neg (fun hh => hh.2.2 rfl)]

theorem hasht_insert___no_resize
    (ins : hasht K V → K → V → Option (Int × hasht K V)) (env : Env K) (ht : hasht K V)
    (k : K) (v : V) (o : Int) (rep : Bool) (h : ht.nelements < ht.grow_at_gt_n) :
    hasht_insert__ ins env ht k v o rep = hasht_insert_probe env ht k v rep := by
  rw [hasht_insert___unfold, hasht_if_needed_try_resize_skip ins env ht h]
  dsimp only
  rw [if_neg (fun hh => hh.1 rfl)]

theorem hasht_maps_value_unique (env : Env K) (henv : hasht_env_ok env) (ht : hasht K V)
    (hinv : hasht_inv env ht) (k : K) (v : V) (hmap : hasht_maps env ht k v) (i : Nat)
    (hi : i < ht.tab.length) (ho : hasht_pr_is_occupied (hasht_slot ht i) = true)
    (hc : env.hasht_key_eq_cmp k (hasht_slot ht i).key = 0) : (hasht_slot ht i).value = v := by
  obtain ⟨j, hj, hoj, hcj, hvj⟩ := hmap
  obtain ⟨_, _, hsymm, htrans, _⟩ := henv
  have := hinv.2.2.2 i j hi hj ho hoj (htrans _ _ _ (hsymm _ _ hc) hcj)
  rw [this]
  exact hvj

theorem hasht_maps_present (env : Env K) (ht : hasht K V) (k : K) (v : V)
    (h : hasht_maps env ht k v) : hasht_present env ht k := by
  obtain ⟨j, hj, hoj, hcj, _⟩ := h
  exact ⟨j, hj, hoj, hcj⟩

/-- What the hypothesis on the trigger check gives: the table it leaves, on
which the probe runs, and that the guard of the probe passes on it. -/
theorem hasht_trigger_room
    (ins : hasht K V → K → V → Option (Int × hasht K V)) (env : Env K) (ht : hasht K V)
    (hroom : (hasht_if_needed_try_resize ins env ht HASHT_HINT_INSERTING).map
      (fun r => decide (hasht_n_empty_buckets r.2 < 1)) = some false) :
    ∃ (rv1 : Int) (ht1 : hasht K V),
      hasht_if_needed_try_resize ins env ht HASHT_HINT_INSERTING = some (rv1, ht1) ∧
      ¬ hasht_n_empty_buckets ht1 < 1 := by
  cases htr : hasht_if_needed_try_resize ins env ht HASHT_HINT_INSERTING with
  | none =>
    rw [htr] at hroom
    exact absurd hroom (by simp)
  | some t =>
    obtain ⟨rv1, ht1⟩ := t
    rw [htr] at hroom
    refine ⟨rv1, ht1, rfl, ?_⟩
    have h1 : decide (hasht_n_empty_buckets ht1 < 1) = false := Option.some.inj hroom
    exact of_decide_eq_false h1

/-- Claim C3, amended: in a table a caller can get that maps `k` to `v`, when
the table the trigger check of `hasht_insert` leaves has an empty bucket by its
counters (what `hasht_find_pos__` asserts of the table it probes), the insert
of `k` leaves `nelements` as it was and a table in which `hasht_find` of `k`
finds a bucket with the value `v`. It returns `HASHT_DUPLICATE_KEY`, unless the
resize the trigger check attempted failed while at most one bucket was unused:
then it returns the code of the failure and leaves the table as it was. -/
theorem hasht_insert_duplicate (env : Env K) (henv : hasht_env_ok env) (ht : hasht K V)
    (h : hasht_reachable env ht) (k : K) (v v' : V) (fuel : Nat)
    (hmap : hasht_maps env ht k v)
    (hroom : (hasht_if_needed_try_resize (hasht_insert env fuel) env ht
      HASHT_HINT_INSERTING).map (fun r => decide (hasht_n_empty_buckets r.2 < 1)) = some false) :
    ∃ (rv : Int) (ht' : hasht K V), hasht_insert env (fuel + 1) ht k v' = some (rv, ht') ∧
      ht'.nelements = ht.nelements ∧ hasht_maps env ht' k v ∧
      (rv = HASHT_DUPLICATE_KEY ∨
        (ht' = ht ∧ ht.nbuckets - ht.nelements ≤ 1 ∧
          (hasht_if_needed_try_resize (hasht_insert env fuel) env ht
            HASHT_HINT_INSERTING).map Prod.fst ≠ some HASHT_OK ∧
          (rv = HASHT_INVALID_TABLE_STATE ∨ rv = HASHT_ALLOC_ERR ∨
            rv = HASHT_FAILED_AT_RESIZE))) ∧
      (∃ i : Nat, i < ht'.tab.length ∧
        hasht_find env ht' k = some (HASHT_OK, hasht_mk_iter (i : Int) (some (i : Int))) ∧
        hasht_pr_is_occupied (hasht_slot ht' i) = true ∧
        env.hasht_key_eq_cmp k (hasht_slot ht' i).key = 0 ∧ (hasht_slot ht' i).value = v) := by
  have hinv := hasht_reachable_inv env henv ht h
  obtain ⟨rv1, ht1, htr, hg1⟩ := hasht_trigger_room _ env ht hroom
  obtain ⟨_, hdisj⟩ := (hasht_if_needed_try_resize_spec env henv (hasht_insert env fuel) fuel
    (hasht_insert_spec_all env henv fuel) ht hinv HASHT_HINT_INSERTING).2 (rv1, ht1) htr
  dsimp only at hdisj
  have hinv1 : hasht_inv env ht1 := by
    rcases hdisj with hh | hh
    · rw [hh]; exact hinv
    · exact hh.2.1
  have hne1 : ht1.nelements = ht.nelements := by
    rcases hdisj with hh | hh
    · rw [hh]
    · exact hh.2.2.2.2
  have hmap1 : hasht_maps env ht1 k v := by
    rcases hdisj with hh | hh
    · rw [hh]; exact hmap
    · exact (hasht_maps_congr env ht1 ht hh.2.2.2.1 k v).2 hmap
  have hfound : ∃ i : Nat, i < ht1.tab.length ∧
      hasht_find env ht1 k = some (HASHT_OK, hasht_mk_iter (i : Int) (some (i : Int))) ∧
      hasht_pr_is_occupied (hasht_slot ht1 i) = true ∧
      env.hasht_key_eq_cmp k (hasht_slot ht1 i).key = 0 ∧ (hasht_slot ht1 i).value = v := by
    obtain ⟨j, hj, hoj, hcj, hvj⟩ := hmap1
    exact ⟨j, hj, hasht_find_of_ok env ht1 k _ _
      (hasht_find_pos_complete env ht1 henv hinv1 k 0 j hj hoj hcj hg1), hoj, hcj, hvj⟩
  rw [hasht_insert_eq_map, hasht_insert___unfold, htr]
  dsimp only
  by_cases hfail : rv1 ≠ HASHT_OK ∧ hasht_at_insert_must_resize ht1 = true
  · rw [if_pos hfail]
    have hsame : ht1 = ht := by
      rcases hdisj with hh | hh
      · exact hh
      · exact absurd hh.1 hfail.1
    have hfull : ht.nbuckets - ht.nelements ≤ 1 := by
      have := hfail.2
      rw [hsame] at this
      unfold hasht_at_insert_must_resize hasht_n_unused_buckets at this
      exact of_decide_eq_true this
    have hns : (some rv1 : Option Int) ≠ some HASHT_OK := fun hh => hfail.1 (Option.some.inj hh)
    by_cases hcode : rv1 = HASHT_INVALID_TABLE_STATE ∨ rv1 = HASHT_ALLOC_ERR
    · rw [if_pos hcode]
      refine ⟨rv1, ht1, rfl, hne1, hmap1, Or.inr ⟨hsame, hfull, hns, ?_⟩, hfound⟩
      rcases hcode with hh | hh
      · exact Or.inl hh
      · exact Or.inr (Or.inl hh)
    · rw [if_neg hcode]
      exact ⟨HASHT_FAILED_AT_RESIZE, ht1, rfl, hne1, hmap1,
        Or.inr ⟨hsame, hfull, hns, Or.inr (Or.inr rfl)⟩, hfound⟩
  · rw [if_neg hfail]
    rcases hasht_insert_probe_cases env ht1 henv hinv1 k v' false with
      ⟨hg, _⟩ | ⟨_, i, hi, ho, hc, hf, hrep⟩ | ⟨_, hnp, _⟩
    · exact absurd hg hg1
    · rcases hrep with ⟨_, hp'⟩ | ⟨hrep, _⟩
      · rw [hp']
        exact ⟨HASHT_DUPLICATE_KEY, ht1, rfl, hne1, hmap1, Or.inl rfl, hfound⟩
      · exact absurd hrep (by decide)
    · exact absurd (hasht_maps_present env ht1 k v hmap1) hnp

theorem hasht_insert_duplicate_witness :
    hasht_env_ok example_env ∧
    hasht_reachable example_env (example_table example_three) ∧
    hasht_maps example_env (example_table example_three) 1 101 ∧
    (hasht_if_needed_try_resize (hasht_insert example_env 3) example_env
      (example_table example_three) HASHT_HINT_INSERTING).map
        (fun r => decide (hasht_n_empty_buckets r.2 < 1)) = some false ∧
    ∃ (rv : Int) (ht' : hasht Nat Nat),
      hasht_insert example_env (3 + 1) (example_table example_three) 1 999 = some (rv, ht') ∧
      ht'.nelements = (example_table example_three).nelements ∧
      hasht_maps example_env ht' 1 101 ∧
      (rv = HASHT_DUPLICATE_KEY ∨
        (ht' = example_table example_three ∧
          (example_table example_three).nbuckets - (example_table example_three).nelements ≤ 1 ∧
          (hasht_if_needed_try_resize (hasht_insert example_env 3) example_env
            (example_table example_three) HASHT_HINT_INSERTING).map Prod.fst ≠ some HASHT_OK ∧
          (rv = HASHT_INVALID_TABLE_STATE ∨ rv = HASHT_ALLOC_ERR ∨
            rv = HASHT_FAILED_AT_RESIZE))) ∧
      (∃ i : Nat, i < ht'.tab.length ∧
        hasht_find example_env ht' 1
          = some (HASHT_OK, hasht_mk_iter (i : Int) (some (i : Int))) ∧
        hasht_pr_is_occupied (hasht_slot ht' i) = true ∧
        example_env.hasht_key_eq_cmp 1 (hasht_slot ht' i).key = 0 ∧
        (hasht_slot ht' i).value = 101) :=
  ⟨example_env_ok, example_reachable_three,
    ⟨1, by decide!, by decide!, by decide!, by decide!⟩, by decide!,
    hasht_insert_duplicate example_env example_env_ok _ example_reachable_three 1 101 999 3
      ⟨1, by decide!, by decide!, by decide!, by decide!⟩ (by decide!)⟩

/-- Counterexample to claim C3 as stated: bucket 0 of the table holds key 0
with value 100, four of five buckets are occupied and the allocator refuses a
larger array; `hasht_insert` of key 0 returns `HASHT_ALLOC_ERR`, not
`HASHT_DUPLICATE_KEY`. -/
theorem insert_of_present_key_reports_alloc_error :
    hasht_pr_is_occupied (hasht_slot (example_table example_no_memory) 0) = true ∧
    (hasht_slot (example_table example_no_memory) 0).key = 0 ∧
    (hasht_slot (example_table example_no_memory) 0).value = 100 ∧
    example_view (hasht_insert example_env 4 (example_table example_no_memory) 0 999)
      = some (HASHT_ALLOC_ERR, 4, 0, 5) := by
  decide!

end Present

/-! ## Replacing the value of a key that is present -/

section Replace
variable {K V : Type} [Inhabited K] [Inhabited V]

theorem hasht_n_empty_buckets_of_tab (ht : hasht K V) (t : List (hasht_pair_type K V)) :
    hasht_n_empty_buckets { ht with tab := t } = hasht_n_empty_buckets ht := rfl

/-- Claim C4, amended: in a table a caller can get that maps `k` to `v`, when
the table the trigger check of `hasht_find_or_insert` leaves has an empty
bucket by its counters (what `hasht_find_pos__` asserts of the table it
probes), the call leaves `nelements` as it was. It returns `HASHT_OK` with an
iterator on an occupied bucket that holds `k` with the new value, which a
following `hasht_find` of `k` finds, unless the resize the trigger check
attempted failed while at most one bucket was unused: then it returns the code
of the failure and leaves the table as it was. When the trigger check attempts
no resize (`nelements < grow_at_gt_n`), the bucket is the one that held the key
and nothing but that bucket changes. -/
theorem hasht_find_or_insert_present (env : Env K) (henv : hasht_env_ok env) (ht : hasht K V)
    (h : hasht_reachable env ht) (k : K) (v v' : V) (fuel : Nat)
    (hmap : hasht_maps env ht k v)
    (hroom : (hasht_if_needed_try_resize (hasht_insert env fuel) env ht
      HASHT_HINT_INSERTING).map (fun r => decide (hasht_n_empty_buckets r.2 < 1)) = some false) :
    (∃ (rv : Int) (iter : hasht_iter) (ht' : hasht K V),
      hasht_find_or_insert env fuel ht k v' = some (rv, iter, ht') ∧
      ht'.nelements = ht.nelements ∧
      ((rv = HASHT_OK ∧ ∃ i : Nat, i < ht'.tab.length ∧
          iter = hasht_mk_iter (i : Int) (some (i : Int)) ∧
          hasht_pr_is_occupied (hasht_slot ht' i) = true ∧
          (hasht_slot ht' i).key = k ∧ (hasht_slot ht' i).value = v' ∧
          hasht_find env ht' k = some (HASHT_OK, hasht_mk_iter (i : Int) (some (i : Int)))) ∨
        (ht' = ht ∧ iter = hasht_mk_invalid_iter ∧ ht.nbuckets - ht.nelements ≤ 1 ∧
          (hasht_if_needed_try_resize (hasht_insert env fuel) env ht
            HASHT_HINT_INSERTING).map Prod.fst ≠ some HASHT_OK ∧
          (rv = HASHT_INVALID_TABLE_STATE ∨ rv = HASHT_ALLOC_ERR ∨
            rv = HASHT_FAILED_AT_RESIZE)))) ∧
    (ht.nelements < ht.grow_at_gt_n →
      ∃ i : Nat, i < ht.tab.length ∧ hasht_pr_is_occupied (hasht_slot ht i) = true ∧
        env.hasht_key_eq_cmp k (hasht_slot ht i).key = 0 ∧
        hasht_find_or_insert env fuel ht k v' = some (HASHT_OK,
          hasht_mk_iter (i : Int) (some (i : Int)),
          { ht with tab := ht.tab.set i (hasht_pr_filled (env.hasht_hash k) k v') })) := by
  have hinv := hasht_reachable_inv env henv ht h
  have hrefl := henv.2.1
  obtain ⟨rv1, ht1, htr, hg1⟩ := hasht_trigger_room _ env ht hroom
  constructor
  · obtain ⟨_, hdisj⟩ := (hasht_if_needed_try_resize_spec env henv (hasht_insert env fuel) fuel
      (hasht_insert_spec_all env henv fuel) ht hinv HASHT_HINT_INSERTING).2 (rv1, ht1) htr
    dsimp only at hdisj
    have hinv1 : hasht_inv env ht1 := by
      rcases hdisj with hh | hh
      · rw [hh]; exact hinv
      · exact hh.2.1
    have hne1 : ht1.nelements = ht.nelements := by
      rcases hdisj with hh | hh
      · rw [hh]
      · exact hh.2.2.2.2
    have hmap1 : hasht_maps env ht1 k v := by
      rcases hdisj with hh | hh
      · rw [hh]; exact hmap
      · exact (hasht_maps_congr env ht1 ht hh.2.2.2.1 k v).2 hmap
    rw [hasht_find_or_insert_eq_map, hasht_insert___unfold, htr]
    dsimp only
    by_cases hfail : rv1 ≠ HASHT_OK ∧ hasht_at_insert_must_resize ht1 = true
    · rw [if_pos hfail]
      have hsame : ht1 = ht := by
        rcases hdisj with hh | hh
        · exact hh
        · exact absurd hh.1 hfail.1
      have hfull : ht.nbuckets - ht.nelements ≤ 1 := by
        have := hfail.2
        rw [hsame] at this
        unfold hasht_at_insert_must_resize hasht_n_unused_buckets at this
        exact of_decide_eq_true this
      have hns : (some rv1 : Option Int) ≠ some HASHT_OK :=
        fun hh => hfail.1 (Option.some.inj hh)
      by_cases hcode : rv1 = HASHT_INVALID_TABLE_STATE ∨ rv1 = HASHT_ALLOC_ERR
      · rw [if_pos hcode]
        refine ⟨rv1, hasht_mk_invalid_iter, ht1, ?_, hne1,
          Or.inr ⟨hsame, rfl, hfull, hns, ?_⟩⟩
        · simp only [Option.map, if_neg hfail.1]
        · rcases hcode with hh | hh
          · exact Or.inl hh
          · exact Or.inr (Or.inl hh)
      · rw [if_neg hcode]
        refine ⟨HASHT_FAILED_AT_RESIZE, hasht_mk_invalid_iter, ht1, ?_, hne1,
          Or.inr ⟨hsame, rfl, hfull, hns, Or.inr (Or.inr rfl)⟩⟩
        simp only [Option.map, if_neg (show ¬ (HASHT_FAILED_AT_RESIZE = HASHT_OK) by decide)]
    · rw [if_neg hfail]
      rcases hasht_insert_probe_cases env ht1 henv hinv1 k v' true with
        ⟨hg, _⟩ | ⟨hg, i, hi, ho, hc, hf, hrep⟩ | ⟨_, hnp, _⟩
      · exact absurd hg hg1
      · rcases hrep with ⟨hrep, _⟩ | ⟨_, hp', hinv'⟩
        · exact absurd hrep (by decide)
        · rw [hp']
          have hl : (ht1.tab.set i (hasht_pr_filled (env.hasht_hash k) k v')).length
              = ht1.tab.length := List.length_set _ _ _
          have hslot : hasht_slot
              { ht1 with tab := ht1.tab.set i (hasht_pr_filled (env.hasht_hash k) k v') } i
                = hasht_pr_filled (env.hasht_hash k) k v' := by
            rw [hasht_slot_set ht1 i i _ hi, if_pos rfl]
          have hocc' := (hasht_pr_filled_state (K := K) (V := V) (env.hasht_hash k) k v').2.2.1
          have hfind : hasht_find env
              { ht1 with tab := ht1.tab.set i (hasht_pr_filled (env.hasht_hash k) k v') } k
                = some (HASHT_OK, hasht_mk_iter (i : Int) (some (i : Int))) := by
            apply hasht_find_of_ok env _ k (i : Int) (env.hasht_hash k)
            exact hasht_find_pos_complete env _ henv hinv' k 0 i
              (by dsimp only; rw [hl]; exact hi) (by rw [hslot]; exact hocc')
              (by rw [hslot]; exact hrefl k) hg
          refine ⟨HASHT_OK, hasht_mk_iter (i : Int) (some (i : Int)),
            { ht1 with tab := ht1.tab.set i (hasht_pr_filled (env.hasht_hash k) k v') },
            ?_, hne1, Or.inl ⟨rfl, i, ?_, rfl, ?_, ?_, ?_, hfind⟩⟩
          · simp only [Option.map, if_pos]
          · show (ht1.tab.set i (hasht_pr_filled (env.hasht_hash k) k v')).length > i
            rw [hl]; exact hi
          · rw [hslot]; exact hocc'
          · rw [hslot]; rfl
          · rw [hslot]; rfl
      · exact absurd (hasht_maps_present env ht1 k v hmap1) hnp
  · intro hgrow
    have hskip := hasht_if_needed_try_resize_skip (hasht_insert env fuel) env ht hgrow
    rw [hskip] at htr
    have hht : ht = ht1 := (Prod.mk.inj (Option.some.inj htr)).2
    have hg : ¬ hasht_n_empty_buckets ht < 1 := by rw [hht]; exact hg1
    rw [hasht_find_or_insert_eq_map, hasht_insert___no_resize _ env ht k v' 0 true hgrow]
    rcases hasht_insert_probe_cases env ht henv hinv k v' true with
      ⟨hg', _⟩ | ⟨_, i, hi, ho, hc, hf, hrep⟩ | ⟨_, hnp, _⟩
    · exact absurd hg' hg
    · rcases hrep with ⟨hrep, _⟩ | ⟨_, hp', _⟩
      · exact absurd hrep (by decide)
      · refine ⟨i, hi, ho, hc, ?_⟩
        rw [hp']
        simp only [Option.map, if_pos]
    · exact absurd (hasht_maps_present env ht k v hmap) hnp

theorem hasht_find_or_insert_present_witness :
    hasht_env_ok example_env ∧
    hasht_reachable example_env (example_table example_displaced) ∧
    hasht_maps example_env (example_table example_displaced) 5 105 ∧
    (hasht_if_needed_try_resize (hasht_insert example_env 3) example_env
      (example_table example_displaced) HASHT_HINT_INSERTING).map
        (fun r => decide (hasht_n_empty_buckets r.2 < 1)) = some false ∧
    (example_table example_displaced).nelements < (example_table example_displaced).grow_at_gt_n ∧
    ∃ i : Nat, i < (example_table example_displaced).tab.length ∧
      hasht_pr_is_occupied (hasht_slot (example_table example_displaced) i) = true ∧
      example_env.hasht_key_eq_cmp 5 (hasht_slot (example_table example_displaced) i).key = 0 ∧
      hasht_find_or_insert example_env 3 (example_table example_displaced) 5 999
        = some (HASHT_OK, hasht_mk_iter (i : Int) (some (i : Int)),
          { example_table example_displaced with
            tab := (example_table example_displaced).tab.set i
              (hasht_pr_filled (example_env.hasht_hash 5) 5 999) }) :=
  ⟨example_env_ok, example_reachable_displaced,
    ⟨1, by decide!, by decide!, by decide!, by decide!⟩, by decide!, by decide!,
    (hasht_find_or_insert_present example_env example_env_ok _ example_reachable_displaced
      5 105 999 3 ⟨1, by decide!, by decide!, by decide!, by decide!⟩ (by decide!)).2
      (by decide!)⟩

/-- Counterexample to claim C4 as stated. First table: key 5 sits in bucket 0
of five buckets, three of which are occupied; `hasht_find_or_insert` of key 5
resizes first and returns an iterator on bucket 5 of seventeen buckets, and
bucket 0 of the table it leaves is empty. Second table: key 0 sits in bucket 0,
four of five buckets are occupied and the allocator refuses a larger array;
`hasht_find_or_insert` of key 0 returns `HASHT_ALLOC_ERR` and the value of key
0 stays 100. -/
theorem find_or_insert_moves_present_key :
    hasht_pr_is_occupied (hasht_slot (example_table example_shifted) 0) = true ∧
    (hasht_slot (example_table example_shifted) 0).key = 5 ∧
    (example_table example_shifted).nbuckets = 5 ∧
    (hasht_find_or_insert example_env 4 (example_table example_shifted) 5 999).map
        (fun r => (r.1, r.2.1, r.2.2.nbuckets, hasht_pr_is_empty (hasht_slot r.2.2 0),
          (hasht_slot r.2.2 5).key, (hasht_slot r.2.2 5).value))
      = some (HASHT_OK, hasht_mk_iter 5 (some 5), 17, true, 5, 999) ∧
    hasht_pr_is_occupied (hasht_slot (example_table example_no_memory) 0) = true ∧
    (hasht_slot (example_table example_no_memory) 0).key = 0 ∧
    (hasht_find_or_insert example_env 4 (example_table example_no_memory) 0 999).map
        (fun r => (r.1, r.2.1, r.2.2.nbuckets, r.2.2.nelements, (hasht_slot r.2.2 0).value))
      = some (HASHT_ALLOC_ERR, hasht_mk_invalid_iter, 5, 4, 100) :=
  ⟨by decide!, by decide!, by decide!, by decide!, by decide!, by decide!, by decide!⟩

end Replace

/-! ## What a successful resize leaves -/

section ResizeClaims
variable {K V : Type} [Inhabited K] [Inhabited V]

/-- A resize that does not skip and returns `HASHT_OK` leaves a tombstone-free
table with the same entries. -/
theorem hasht_resize_rebuilt (env : Env K) (henv : hasht_env_ok env)
    (ins : hasht K V → K → V → Option (Int × hasht K V)) (n : Nat)
    (hspec : hasht_insert_spec env ins n) (ht : hasht K V) (hinv : hasht_inv env ht)
    (cnt : Int)
    (hdiff : ht.nbuckets_po2 ≠ hasht_get_adiv_power_idx env
      (hasht_calc_nelements_to_nbuckets cnt ht.shrink_at_percentage ht.grow_at_percentage))
    (r : Int × hasht K V) (hr : hasht_resize__ ins env ht cnt = some r) (hok : r.1 = HASHT_OK) :
    hasht_inv env r.2 ∧ hasht_clean r.2 ∧ hasht_same_content r.2 ht ∧
      r.2.nelements = ht.nelements := by
  unfold hasht_resize__ at hr
  dsimp only at hr
  rw [if_neg hdiff] at hr
  unfold hasht_init_copy_settings at hr
  have hinit := hasht_init_ex_ok env henv ht
    (hasht_calc_nelements_to_nbuckets cnt ht.shrink_at_percentage ht.grow_at_percentage)
    ht.memfuncs.alloc ht.userdata ht.shrink_at_percentage ht.grow_at_percentage
  generalize hasht_init_ex env ht
    (hasht_calc_nelements_to_nbuckets cnt ht.shrink_at_percentage ht.grow_at_percentage)
    ht.memfuncs.alloc ht.userdata ht.shrink_at_percentage ht.grow_at_percentage = ini
    at hr hinit
  obtain ⟨rv0, new_ht⟩ := ini
  dsimp only at hr hinit
  by_cases hrv0 : rv0 = HASHT_OK
  · have hnn : ¬ (rv0 ≠ HASHT_OK) := fun h => h hrv0
    rw [if_neg hnn] at hr
    obtain ⟨hninv, hcd, hnd, hnel, hnone, _⟩ := hinit hrv0
    obtain ⟨_, hpost⟩ := hasht_copy_all_to_spec env ins n hspec ht hinv new_ht hninv
      ⟨hcd, hnd⟩ hnel hnone
    cases hcopy : hasht_copy_all_to ins new_ht ht with
    | none =>
      rw [hcopy] at hr
      exact absurd hr (by simp)
    | some r1 =>
      obtain ⟨rv, new_ht'⟩ := r1
      rw [hcopy] at hr
      dsimp only at hr
      by_cases hrv : rv = HASHT_OK
      · have hnn' : ¬ (rv ≠ HASHT_OK) := fun h => h hrv
        rw [if_neg hnn', Option.some.injEq] at hr
        rw [← hr]
        exact (hpost (rv, new_ht') hcopy).2 hrv
      · rw [if_pos hrv, Option.some.injEq] at hr
        rw [← hr] at hok
        exact absurd hok hrv
  · rw [if_pos hrv0, Option.some.injEq] at hr
    rw [← hr] at hok
    exact absurd hok hrv0

theorem hasht_resize_skips (ins : hasht K V → K → V → Option (Int × hasht K V)) (env : Env K)
    (ht : hasht K V) (cnt : Int)
    (hsame : ht.nbuckets_po2 = hasht_get_adiv_power_idx env
      (hasht_calc_nelements_to_nbuckets cnt ht.shrink_at_percentage ht.grow_at_percentage)) :
    hasht_resize__ ins env ht cnt = some (HASHT_OK, ht) := by
  unfold hasht_resize__
  dsimp only
  rw [if_pos hsame]

/-- Claim C5, amended: in a table a caller can get, `hasht_resize__` with
enough nesting depth returns. When it returns `HASHT_OK`, the table holds the
same (key, value) pairs in occupied buckets and `nelements` is as before; if
the planned size class differs from the current one, `ndeleted` is zero and no
bucket is deleted, and if it is the current one, the table is left as it was,
tombstones included. -/
theorem hasht_resize_keeps_content (env : Env K) (henv : hasht_env_ok env) (ht : hasht K V)
    (h : hasht_reachable env ht) (cnt : Int) (fuel : Nat)
    (hfuel : ht.nelements ≤ (fuel : Int)) :
    ∃ r, hasht_resize__ (hasht_insert env fuel) env ht cnt = some r ∧
      (r.1 = HASHT_OK →
        hasht_same_content r.2 ht ∧ r.2.nelements = ht.nelements ∧
        (ht.nbuckets_po2 ≠ hasht_get_adiv_power_idx env
            (hasht_calc_nelements_to_nbuckets cnt ht.shrink_at_percentage
              ht.grow_at_percentage) →
          r.2.ndeleted = 0 ∧ hasht_count_deleted r.2 = 0 ∧
          ∀ i, i < r.2.tab.length → hasht_pr_is_deleted (hasht_slot r.2 i) = false) ∧
        (ht.nbuckets_po2 = hasht_get_adiv_power_idx env
            (hasht_calc_nelements_to_nbuckets cnt ht.shrink_at_percentage
              ht.grow_at_percentage) →
          r.2 = ht)) := by
  have hinv := hasht_reachable_inv env henv ht h
  have hspec := hasht_insert_spec_all (V := V) env henv fuel
  obtain ⟨hterm, hpost⟩ := hasht_resize_spec env henv (hasht_insert env fuel) fuel hspec ht hinv
    cnt
  obtain ⟨r, hr⟩ := hterm hfuel
  refine ⟨r, hr, fun hok => ?_⟩
  have hcont : hasht_same_content r.2 ht ∧ r.2.nelements = ht.nelements := by
    rcases (hpost r hr).2 with hh | hh
    · rw [hh]; exact ⟨hasht_same_content_refl _, rfl⟩
    · exact ⟨hh.2.2.2.1, hh.2.2.2.2⟩
  refine ⟨hcont.1, hcont.2, fun hdiff => ?_, fun hsame => ?_⟩
  · obtain ⟨_, hcl, _, _⟩ := hasht_resize_rebuilt env henv (hasht_insert env fuel) fuel hspec ht
      hinv cnt hdiff r hr hok
    exact ⟨hcl.2, hcl.1, fun i hi => hasht_count_deleted_zero_slot r.2 hcl.1 i hi⟩
  · rw [hasht_resize_skips _ env ht cnt hsame, Option.some.injEq] at hr
    rw [← hr]

theorem hasht_resize_keeps_content_witness :
    hasht_env_ok example_env ∧
    hasht_reachable example_env (example_table example_tombstones) ∧
    (example_table example_tombstones).nelements ≤ ((3 : Nat) : Int) ∧
    ∃ r, hasht_resize__ (hasht_insert example_env 3) example_env
        (example_table example_tombstones) 1 = some r ∧
      (r.1 = HASHT_OK →
        hasht_same_content r.2 (example_table example_tombstones) ∧
        r.2.nelements = (example_table example_tombstones).nelements ∧
        ((example_table example_tombstones).nbuckets_po2 ≠ hasht_get_adiv_power_idx example_env
            (hasht_calc_nelements_to_nbuckets 1
              (example_table example_tombstones).shrink_at_percentage
              (example_table example_tombstones).grow_at_percentage) →
          r.2.ndeleted = 0 ∧ hasht_count_deleted r.2 = 0 ∧
          ∀ i, i < r.2.tab.length → hasht_pr_is_deleted (hasht_slot r.2 i) = false) ∧
        ((example_table example_tombstones).nbuckets_po2 = hasht_get_adiv_power_idx example_env
            (hasht_calc_nelements_to_nbuckets 1
              (example_table example_tombstones).shrink_at_percentage
              (example_table example_tombstones).grow_at_percentage) →
          r.2 = example_table example_tombstones)) :=
  ⟨example_env_ok, example_reachable_tombstones, by decide!,
    hasht_resize_keeps_content example_env example_env_ok _ example_reachable_tombstones 1 3
      (by decide!)⟩

/-- Counterexample to claim C5 as stated: the table has eleven buckets, key 1
in bucket 1 and a tombstone in bucket 0; `hasht_resize__` for 5 entries plans
the size class the table has, returns `HASHT_OK` and leaves the tombstone and
`ndeleted = 1`. -/
theorem resize_skip_keeps_tombstone :
    example_view example_eleven = some (HASHT_OK, 1, 1, 11) ∧
    hasht_pr_is_deleted (hasht_slot (example_table example_eleven) 0) = true ∧
    example_view (hasht_resize__ (hasht_insert example_env 3) example_env
      (example_table example_eleven) 5) = some (HASHT_OK, 1, 1, 11) ∧
    hasht_pr_is_deleted (hasht_slot (example_table (hasht_resize__ (hasht_insert example_env 3)
      example_env (example_table example_eleven) 5)) 0) = true ∧
    hasht_count_deleted (example_table (hasht_resize__ (hasht_insert example_env 3)
      example_env (example_table example_eleven) 5)) = 1 := by
  decide!

end ResizeClaims

/-! ## Where a new key is put -/

section TieBreak
variable {K V : Type} [Inhabited K] [Inhabited V]

/-- Claim C17, amended: in a table whose array has `nbuckets` buckets of a size
class, none of them corrupt and one of them empty, when `hasht_find_pos__`
reports `HASHT_NOT_FOUND` the index it suggests is the first deleted bucket on
the probe path from the home position of the key to the first empty bucket, and
that empty bucket when the path has no deleted bucket. A `hasht_insert` whose
trigger check attempts no resize (`nelements < grow_at_gt_n`) writes the key at
that index, and decrements `ndeleted` exactly when the bucket was deleted. -/
theorem hasht_insertion_point (env : Env K) (ht : hasht K V) (hs : hasht_shape_ok env ht)
    (hc : ∀ i, i < ht.tab.length → hasht_pr_is_corrupt (hasht_slot ht i) = false)
    (hemp : 0 < hasht_count_empty ht) (key : K) (o s : Int) (fh : Nat)
    (hfind : hasht_find_pos__ env ht key o = some (HASHT_NOT_FOUND, s, fh)) :
    ∃ d n : Nat, d < ht.tab.length ∧ s = (n : Int) ∧ n < ht.tab.length ∧
      hasht_home env ht key = env.hasht_hash key % ht.tab.length ∧
      hasht_pr_is_empty (hasht_slot ht (hasht_pos ht (hasht_home env ht key) d)) = true ∧
      (∀ e, e < d →
        hasht_pr_is_empty (hasht_slot ht (hasht_pos ht (hasht_home env ht key) e)) = false) ∧
      ((∃ j, j < d ∧
          hasht_pr_is_deleted (hasht_slot ht (hasht_pos ht (hasht_home env ht key) j)) = true ∧
          (∀ j', j' < j → hasht_pr_is_deleted
            (hasht_slot ht (hasht_pos ht (hasht_home env ht key) j')) = false) ∧
          n = hasht_pos ht (hasht_home env ht key) j) ∨
        ((∀ j, j < d → hasht_pr_is_deleted
            (hasht_slot ht (hasht_pos ht (hasht_home env ht key) j)) = false) ∧
          n = hasht_pos ht (hasht_home env ht key) d)) ∧
      (ht.nelements < ht.grow_at_gt_n → ∀ (value : V) (fuel : Nat),
        hasht_insert env (fuel + 1) ht key value = some (HASHT_OK,
          { ht with tab := ht.tab.set n (hasht_pr_filled (env.hasht_hash key) key value),
                    nelements := ht.nelements + 1,
                    ndeleted := if hasht_pr_is_deleted (hasht_slot ht n) then ht.ndeleted - 1
                                else ht.ndeleted })) := by
  have hg : ¬ hasht_n_empty_buckets ht < 1 := by
    intro hbad
    rw [hasht_find_pos_guard env ht key o hbad] at hfind
    exact absurd (Prod.mk.inj (Option.some.inj hfind)).1
      (show ¬ (HASHT_INVALID_TABLE_STATE = HASHT_NOT_FOUND) by decide)
  have hpos : 0 < ht.tab.length := hs.2.1
  obtain ⟨d, hd, hpath, hend⟩ := hasht_find_pos_walk env ht hs hc key o hg hemp
  rcases hend with ⟨_, _, hf⟩ | ⟨hempty, s', hf, hsug⟩
  · rw [hf] at hfind
    exact absurd (Prod.mk.inj (Option.some.inj hfind)).1
      (show ¬ (HASHT_OK = HASHT_NOT_FOUND) by decide)
  · rw [hf] at hfind
    have hss : s' = s := (Prod.mk.inj (Prod.mk.inj (Option.some.inj hfind)).2).1
    have hfh : env.hasht_hash key = fh := (Prod.mk.inj (Prod.mk.inj (Option.some.inj hfind)).2).2
    have hn : ∃ n : Nat, s = (n : Int) ∧ n < ht.tab.length ∧
        ((∃ j, j < d ∧
          hasht_pr_is_deleted (hasht_slot ht (hasht_pos ht (hasht_home env ht key) j)) = true ∧
          (∀ j', j' < j → hasht_pr_is_deleted
            (hasht_slot ht (hasht_pos ht (hasht_home env ht key) j')) = false) ∧
          n = hasht_pos ht (hasht_home env ht key) j) ∨
        ((∀ j, j < d → hasht_pr_is_deleted
            (hasht_slot ht (hasht_pos ht (hasht_home env ht key) j)) = false) ∧
          n = hasht_pos ht (hasht_home env ht key) d)) := by
      rcases hsug with ⟨j, hj, hdel, hfirst, hsj⟩ | ⟨hnodel, hsd⟩
      · exact ⟨_, by rw [← hss, hsj], hasht_pos_lt ht _ _ hpos,
          Or.inl ⟨j, hj, hdel, hfirst, rfl⟩⟩
      · exact ⟨_, by rw [← hss, hsd], hasht_pos_lt ht _ _ hpos, Or.inr ⟨hnodel, rfl⟩⟩
    obtain ⟨n, hsn, hnlt, hwhich⟩ := hn
    refine ⟨d, n, hd, hsn, hnlt, hasht_home_eq env ht hs key, hempty,
      fun e he => (hpath e he).1, hwhich, ?_⟩
    intro hgrow value fuel
    have hf0 : hasht_find_pos__ env ht key 0
        = some (HASHT_NOT_FOUND, (n : Int), env.hasht_hash key) := by
      unfold hasht_find_pos__ at hf ⊢
      dsimp only at hf ⊢
      rw [if_neg hg] at hf ⊢
      cases hl : hasht_find_pos_loop env ht key
          (hasht_hash_to_partial_hash (env.hasht_hash key)) ht.nbuckets.toNat
          (hasht_integer_mod_buckets ht (env.hasht_hash key)) HASHT_NOT_FOUND with
      | none =>
        rw [hl] at hf
        exact absurd hf (by simp)
      | some q =>
        obtain ⟨rv, found⟩ := q
        rw [hl] at hf
        dsimp only at hf ⊢
        have h1 := (Prod.mk.inj (Option.some.inj hf)).1
        have h2 := (Prod.mk.inj (Prod.mk.inj (Option.some.inj hf)).2).1
        rw [h1, h2, hss, hsn]
    rw [hasht_insert_eq_map, hasht_insert___no_resize _ env ht key value 0 false hgrow]
    unfold hasht_insert_probe
    rw [hf0]
    dsimp only
    have hne1 : ¬ ((n : Int) = HASHT_NOT_FOUND) := by
      have : (0 : Int) ≤ (n : Int) := Int.ofNat_nonneg _
      intro hh
      rw [hh] at this
      exact absurd this (by decide)
    rw [if_neg hne1, if_neg (by simp), if_pos rfl, hasht_tab_at_nat]
    cases hdl : hasht_pr_is_deleted (hasht_slot ht n) with
    | false =>
      simp only [Bool.false_eq_true, if_false]
      rw [hasht_set_pair_at_pos_nat]
      rfl
    | true =>
      simp only [if_true]
      rw [hasht_set_pair_at_pos_nat]
      rfl

theorem hasht_insertion_point_witness :
    hasht_shape_ok example_env (example_table example_eleven) ∧
    (∀ i, i < (example_table example_eleven).tab.length →
      hasht_pr_is_corrupt (hasht_slot (example_table example_eleven) i) = false) ∧
    0 < hasht_count_empty (example_table example_eleven) ∧
    hasht_find_pos__ example_env (example_table example_eleven) 11 0
      = some (HASHT_NOT_FOUND, 0, 11) ∧
    ∃ d n : Nat, d < (example_table example_eleven).tab.length ∧ (0 : Int) = (n : Int) ∧
      n < (example_table example_eleven).tab.length ∧
      hasht_home example_env (example_table example_eleven) 11
        = example_env.hasht_hash 11 % (example_table example_eleven).tab.length ∧
      hasht_pr_is_empty (hasht_slot (example_table example_eleven)
        (hasht_pos (example_table example_eleven)
          (hasht_home example_env (example_table example_eleven) 11) d)) = true ∧
      (∀ e, e < d →
        hasht_pr_is_empty (hasht_slot (example_table example_eleven)
          (hasht_pos (example_table example_eleven)
            (hasht_home example_env (example_table example_eleven) 11) e)) = false) ∧
      ((∃ j, j < d ∧
          hasht_pr_is_deleted (hasht_slot (example_table example_eleven)
            (hasht_pos (example_table example_eleven)
              (hasht_home example_env (example_table example_eleven) 11) j)) = true ∧
          (∀ j', j' < j → hasht_pr_is_deleted
            (hasht_slot (example_table example_eleven)
              (hasht_pos (example_table example_eleven)
                (hasht_home example_env (example_table example_eleven) 11) j')) = false) ∧
          n = hasht_pos (example_table example_eleven)
            (hasht_home example_env (example_table example_eleven) 11) j) ∨
        ((∀ j, j < d → hasht_pr_is_deleted
            (hasht_slot (example_table example_eleven)
              (hasht_pos (example_table example_eleven)
                (hasht_home example_env (example_table example_eleven) 11) j)) = false) ∧
          n = hasht_pos (example_table example_eleven)
            (hasht_home example_env (example_table example_eleven) 11) d)) ∧
      ((example_table example_eleven).nelements < (example_table example_eleven).grow_at_gt_n →
        ∀ (value : Nat) (fuel : Nat),
        hasht_insert example_env (fuel + 1) (example_table example_eleven) 11 value
          = some (HASHT_OK,
          { example_table example_eleven with
            tab := (example_table example_eleven).tab.set n
              (hasht_pr_filled (example_env.hasht_hash 11) 11 value),
            nelements := (example_table example_eleven).nelements + 1,
            ndeleted := if hasht_pr_is_deleted (hasht_slot (example_table example_eleven) n)
              then (example_table example_eleven).ndeleted - 1
              else (example_table example_eleven).ndeleted })) :=
  ⟨(hasht_reachable_inv example_env example_env_ok _ example_reachable_eleven).1,
    (hasht_reachable_inv example_env example_env_ok _ example_reachable_eleven).2.1.1,
    by decide!, by decide!,
    hasht_insertion_point example_env (example_table example_eleven)
      (hasht_reachable_inv example_env example_env_ok _ example_reachable_eleven).1
      (hasht_reachable_inv example_env example_env_ok _ example_reachable_eleven).2.1.1
      (by decide!) 11 0 0 11 (by decide!)⟩

/-- Counterexample to claim C17 as stated: with keys 0, 1, 2 in five buckets
`hasht_find_pos__` suggests bucket 3 for key 8, but `hasht_insert` of key 8
resizes first: it leaves seventeen buckets with key 8 in bucket 8 and bucket 3
empty. -/
theorem insert_after_resize_uses_other_index :
    hasht_find_pos__ example_env (example_table example_three) 8 0
      = some (HASHT_NOT_FOUND, 3, 8) ∧
    (hasht_insert example_env 4 (example_table example_three) 8 108).map
        (fun r => (r.1, r.2.nbuckets, hasht_pr_is_empty (hasht_slot r.2 3),
          hasht_pr_is_occupied (hasht_slot r.2 8), (hasht_slot r.2 8).key))
      = some (HASHT_OK, 17, true, true, 8) := by
  decide!

end TieBreak

/-! ## Iterators -/

section Iter
variable {K V : Type} [Inhabited K] [Inhabited V]

theorem hasht_find_ok_inv (env : Env K) (henv : hasht_env_ok env) (ht : hasht K V)
    (hinv : hasht_inv env ht) (k : K) (i : Nat)
    (hfind : hasht_find env ht k = some (HASHT_OK, hasht_mk_iter (i : Int) (some (i : Int)))) :
    i < ht.tab.length ∧ hasht_pr_is_occupied (hasht_slot ht i) = true ∧
      env.hasht_key_eq_cmp k (hasht_slot ht i).key = 0 := by
  rcases hasht_find_pos_cases env ht henv hinv k 0 with
    ⟨_, h⟩ | ⟨_, j, hj, ho, hc, h⟩ | ⟨_, _, s, d, _, _, _, _, _, h⟩
  · unfold hasht_find at hfind
    rw [h] at hfind
    dsimp only at hfind
    rw [if_neg (by decide), if_pos (by decide)] at hfind
    exact absurd (Prod.mk.inj (Option.some.inj hfind)).1
      (show ¬ (HASHT_INVALID_TABLE_STATE = HASHT_OK) by decide)
  · rw [hasht_find_of_ok env ht k _ _ h] at hfind
    have h2 := (Prod.mk.inj (Option.some.inj hfind)).2
    have h3 : (j : Int) = (i : Int) := congrArg (fun it => it.started_at_idx) h2
    have h4 : j = i := by omega
    rw [← h4]
    exact ⟨hj, ho, hc⟩
  · rw [hasht_find_of_not_found env ht k _ _ h] at hfind
    exact absurd (Prod.mk.inj (Option.some.inj hfind)).1
      (show ¬ (HASHT_NOT_FOUND = HASHT_OK) by decide)

theorem hasht_iter_next_of_skip (ht : hasht K V) (iter : hasht_iter)
    (hne : iter.current_idx ≠ HASHT_ITER_STOP) :
    hasht_iter_next ht iter =
      if hasht_skip_to_next__ ht iter.started_at_idx iter.current_idx (ht.nbuckets - 1) < 0 then
        (HASHT_ITER_STOP, hasht_mk_invalid_iter)
      else
        (HASHT_OK, { iter with
          current_idx :=
            hasht_skip_to_next__ ht iter.started_at_idx iter.current_idx (ht.nbuckets - 1),
          pair := some
            (hasht_skip_to_next__ ht iter.started_at_idx iter.current_idx (ht.nbuckets - 1)) })
    := by
  unfold hasht_iter_next
  rw [if_neg hne]

/-- Claim C16, amended: in a table a caller can get, the first
`hasht_iter_next` on the iterator a successful `hasht_find` returns for a key
in bucket `i` returns `HASHT_OK` and yields bucket `i` itself. The next call
steps on from `i` with wraparound: it yields the next occupied bucket after
`i`, and returns `HASHT_ITER_STOP` when it gets back to `i` without finding
one. -/
theorem hasht_iter_next_after_find (env : Env K) (henv : hasht_env_ok env) (ht : hasht K V)
    (h : hasht_reachable env ht) (k : K) (i : Nat)
    (hfind : hasht_find env ht k = some (HASHT_OK, hasht_mk_iter (i : Int) (some (i : Int)))) :
    hasht_iter_next ht (hasht_mk_iter (i : Int) (some (i : Int)))
      = (HASHT_OK, ⟨(i : Int), (i : Int), some (i : Int)⟩) ∧
    ((∀ e, 1 ≤ e → e < ht.tab.length →
        hasht_pr_is_occupied (hasht_slot ht (hasht_pos ht i e)) = false) →
      hasht_iter_next ht ⟨(i : Int), (i : Int), some (i : Int)⟩
        = (HASHT_ITER_STOP, hasht_mk_invalid_iter)) ∧
    (∀ d, 1 ≤ d → d < ht.tab.length →
      hasht_pr_is_occupied (hasht_slot ht (hasht_pos ht i d)) = true →
      (∀ e, 1 ≤ e → e < d →
        hasht_pr_is_occupied (hasht_slot ht (hasht_pos ht i e)) = false) →
      hasht_iter_next ht ⟨(i : Int), (i : Int), some (i : Int)⟩
        = (HASHT_OK, ⟨(i : Int), ((hasht_pos ht i d : Nat) : Int),
            some ((hasht_pos ht i d : Nat) : Int)⟩)) := by
  have hinv := hasht_reachable_inv env henv ht h
  have hlen := hinv.1.1
  obtain ⟨hi, hocc, _⟩ := hasht_find_ok_inv env henv ht hinv k i hfind
  have hne : ht.nelements ≠ 0 := by
    have := hasht_occupied_count_pos ht i hi hocc
    have := hinv.2.1.2.1
    omega
  have hp0 := hasht_pos_zero ht i hi
  have hnn : ∀ n : Nat, ¬ ((n : Int) < 0) := fun n => by omega
  have hns : ∀ n : Nat, (n : Int) ≠ HASHT_ITER_STOP := by
    intro n hh
    have : (0 : Int) ≤ (n : Int) := Int.ofNat_nonneg _
    rw [hh] at this
    exact absurd this (by decide)
  refine ⟨?_, ?_, ?_⟩
  · have hfirst := (hasht_skip_to_next_first ht hlen i hi hne).2 0 (by omega)
      (by rw [hp0]; exact hocc) (fun e he => by omega)
    rw [hp0] at hfirst
    rw [hasht_iter_next_of_skip ht _
      (show (hasht_mk_iter (i : Int) (some (i : Int))).current_idx ≠ HASHT_ITER_STOP from
        (show ¬ (HASHT_ITER_FIRST = HASHT_ITER_STOP) by decide))]
    dsimp only [hasht_mk_iter]
    rw [hfirst, if_neg (hnn i)]
  · intro hnone
    have hafter := (hasht_skip_to_next_after ht hlen i hi hne 0 (by omega)).1
      (fun e he1 he2 => hnone e (by omega) he2)
    rw [hp0] at hafter
    rw [hasht_iter_next_of_skip ht _ (hns i)]
    dsimp only
    rw [hafter, if_pos (by decide)]
  · intro d hd1 hd ho hgap
    have hafter := (hasht_skip_to_next_after ht hlen i hi hne 0 (by omega)).2 d (by omega) hd ho
      (fun e he1 he2 => hgap e (by omega) he2)
    rw [hp0] at hafter
    rw [hasht_iter_next_of_skip ht _ (hns i)]
    dsimp only
    rw [hafter, if_neg (hnn _)]

theorem hasht_iter_next_after_find_witness :
    hasht_env_ok example_env ∧
    hasht_reachable example_env (example_table example_three) ∧
    hasht_find example_env (example_table example_three) 1
      = some (HASHT_OK, hasht_mk_iter ((1 : Nat) : Int) (some ((1 : Nat) : Int))) ∧
    hasht_iter_next (example_table example_three)
        (hasht_mk_iter ((1 : Nat) : Int) (some ((1 : Nat) : Int)))
      = (HASHT_OK, ⟨((1 : Nat) : Int), ((1 : Nat) : Int), some ((1 : Nat) : Int)⟩) :=
  ⟨example_env_ok, example_reachable_three, by decide!,
    (hasht_iter_next_after_find example_env example_env_ok _ example_reachable_three 1 1
      (by decide!)).1⟩

end Iter

/-! ## A full pass of the iterator -/

section Pass
variable {K V : Type} [Inhabited K] [Inhabited V]

theorem hasht_range_filter_none (P : Nat → Bool) (n : Nat) :
    ∀ (m c : Nat), c + m = n → (∀ e, c ≤ e → e < n → P e = false) →
      (List.range' c m).filter P = [] := by
  intro m
  induction m with
  | zero => intro c _ _; rfl
  | succ k ih =>
    intro c hc hall
    rw [List.range'_succ, List.filter_cons, hall c (le_refl c) (by omega)]
    simp only [Bool.false_eq_true, if_false]
    exact ih (c + 1) (by omega) (fun e h1 h2 => hall e (by omega) h2)

theorem hasht_range_filter_first (P : Nat → Bool) (n i : Nat) (hi : i < n) (hp : P i = true) :
    ∀ (m c : Nat), c + m = n → c ≤ i → (∀ e, c ≤ e → e < i → P e = false) →
      (List.range' c m).filter P = i :: (List.range' (i + 1) (n - (i + 1))).filter P := by
  intro m
  induction m with
  | zero => intro c hc hci _; omega
  | succ k ih =>
    intro c hc hci hgap
    rw [List.range'_succ, List.filter_cons]
    by_cases hce : c = i
    · rw [hce, hp, if_pos rfl]
      have : k = n - (i + 1) := by omega
      rw [this]
    · rw [hgap c (le_refl c) (by omega)]
      simp only [Bool.false_eq_true, if_false]
      exact ih (c + 1) (by omega) (by omega) (fun e h1 h2 => hgap e (by omega) h2)

theorem hasht_iter_pass_loop_spec (ht : hasht K V) (hlen : (ht.tab.length : Int) = ht.nbuckets)
    (hz : ht.nelements = 0 → hasht_count_occupied ht = 0) :
    ∀ (fuel c : Nat) (p : Option Int), c < ht.tab.length → ht.tab.length ≤ fuel + c →
      hasht_iter_pass_loop ht fuel ⟨0, (c : Int), p⟩ =
        some (((List.range' (c + 1) (ht.tab.length - (c + 1))).filter
          (fun i => hasht_pr_is_occupied (hasht_slot ht i))).map (fun i : Nat => some (i : Int))) := by
  intro fuel
  induction fuel with
  | zero => intro c p hc hf; omega
  | succ f ih =>
    intro c p hc hf
    have hns : (c : Int) ≠ HASHT_ITER_STOP := by
      intro hh
      have : (0 : Int) ≤ (c : Int) := Int.ofNat_nonneg _
      rw [hh] at this
      exact absurd this (by decide)
    rw [hasht_iter_pass_loop, hasht_iter_next_of_skip ht _ hns]
    dsimp only
    have hnext : hasht_next_from ht (c + 1)
        (hasht_skip_to_next__ ht 0 (c : Int) (ht.nbuckets - 1)) := by
      by_cases hne : ht.nelements = 0
      · left
        exact ⟨hasht_skip_to_next_none ht _ _ _ hne,
          fun e _ he => hasht_count_zero_not_occupied ht (hz hne) e he⟩
      · exact hasht_next_from_after ht hlen hne c hc
    rcases hnext with ⟨hstop, hnone⟩ | ⟨i, hci, hi, ho, hgap, hidx⟩
    · rw [hstop, if_pos (by decide)]
      rw [hasht_range_filter_none _ ht.tab.length _ (c + 1) (by omega) hnone]
      rfl
    · rw [hidx, if_neg (show ¬ ((i : Int) < 0) by omega)]
      dsimp only
      rw [if_neg (by decide), ih i (some (i : Int)) hi (by omega),
        hasht_range_filter_first _ ht.tab.length i hi ho _ (c + 1) (by omega) hci hgap]
      rfl

/-- Claim C6: on a table whose array has `nbuckets` buckets and whose
`nelements` is zero only if no bucket is occupied, a full pass
(`hasht_begin_iterator`, then `hasht_iter_next` until `HASHT_ITER_STOP`) ends
within `nbuckets` calls of `hasht_iter_next` and yields exactly the occupied
buckets, in increasing order of index; and `hasht_begin_iterator` returns
`HASHT_ITER_STOP` when no bucket is occupied. -/
theorem hasht_iteration_complete (ht : hasht K V) (hlen : (ht.tab.length : Int) = ht.nbuckets)
    (hz : ht.nelements = 0 → hasht_count_occupied ht = 0) (iter0 : hasht_iter) (fuel : Nat)
    (hfuel : ht.tab.length ≤ fuel) :
    hasht_iter_pass ht iter0 fuel =
      some (((List.range ht.tab.length).filter
        (fun i => hasht_pr_is_occupied (hasht_slot ht i))).map (fun i : Nat => some (i : Int))) ∧
    ((∀ i, i < ht.tab.length → hasht_pr_is_occupied (hasht_slot ht i) = false) →
      (hasht_begin_iterator ht iter0).1 = HASHT_ITER_STOP) := by
  unfold hasht_iter_pass hasht_begin_iterator
  dsimp only
  rw [List.range_eq_range']
  by_cases hpos : 0 < ht.tab.length
  · rcases hasht_next_from_first ht hlen hpos hz with ⟨hstop, hnone⟩ | ⟨i, _, hi, ho, hgap, hidx⟩
    · rw [hstop, hasht_range_filter_none _ ht.tab.length _ 0 (by omega) hnone]
      have hlt : HASHT_ITER_STOP < 0 := by decide
      simp only [if_pos hlt]
      exact ⟨rfl, fun _ => trivial⟩
    · rw [hidx, if_neg (show ¬ ((i : Int) < 0) by omega)]
      dsimp only
      rw [if_neg (by decide), hasht_iter_pass_loop_spec ht hlen hz fuel i _ hi (by omega),
        hasht_range_filter_first _ ht.tab.length i hi ho _ 0 (by omega) (Nat.zero_le _) hgap]
      refine ⟨rfl, fun hall => ?_⟩
      rw [hall i hi] at ho
      exact absurd ho (by decide)
  · have hl0 : ht.tab.length = 0 := by omega
    have hskip : hasht_skip_to_next__ ht 0 HASHT_ITER_FIRST (ht.nbuckets - 1) < 0 := by
      unfold hasht_skip_to_next__
      split
      · decide
      · rw [if_pos rfl]
        have : ht.nbuckets.toNat = 0 := by omega
        rw [this, hasht_skip_to_next_loop]
        decide
    rw [if_pos hskip]
    dsimp only
    rw [if_pos rfl, hl0]
    exact ⟨rfl, fun _ => rfl⟩

theorem hasht_iteration_complete_witness :
    ((example_table example_tombstones).tab.length : Int)
      = (example_table example_tombstones).nbuckets ∧
    ((example_table example_tombstones).nelements = 0 →
      hasht_count_occupied (example_table example_tombstones) = 0) ∧
    (example_table example_tombstones).tab.length ≤ 5 ∧
    hasht_iter_pass (example_table example_tombstones) hasht_mk_invalid_iter 5 =
      some (((List.range (example_table example_tombstones).tab.length).filter
        (fun i => hasht_pr_is_occupied (hasht_slot (example_table example_tombstones) i))).map
          (fun i : Nat => some (i : Int))) :=
  ⟨by decide!, by decide!, by decide!,
    (hasht_iteration_complete (example_table example_tombstones) (by decide!) (by decide!)
      hasht_mk_invalid_iter 5 (by decide!)).1⟩

end Pass
